import Mathlib

/-!
# Environmental impact estimation engine (ML-MICRO frontend)

A shallow embedding of the pure calculators of the dashboard:

* `estimateCarbonAndOxygen` from `frontend/src/utils/carbon_oxygen_estimator.js`,
* `calculateEnvironmentalMetrics` from
  `frontend/src/components/EnvironmentalHealthDashboard.js`,
* `generateHeatmapData` and `generateChangeMatrix` from
  `frontend/src/components/AreaChangeHeatmap.js`,
* `calculatePerformanceMetrics` from
  `frontend/src/components/ModelPerformanceAnalytics.js`,
* `calculateCarbonMetrics` and `generateCarbonTimeline` from
  `frontend/src/components/CarbonImpactTracker.js`,
* `calculateTrendMetrics` from `frontend/src/components/TemporalChangeTimeline.js`.

Modelling conventions.

* JavaScript numbers are modelled by exact rationals (`ℚ`); years are integers (`ℤ`).
  Rounding error is therefore outside the model, except in the section on IEEE 754 double
  precision, which models the carbon totals of the two carbon calculators with every
  operation rounded.  Where the code can produce `NaN` or an infinity (`Math.max()` of no
  argument, arithmetic on `undefined`), the value is a `JsNum`.
* An exception is modelled by `Except JsError`.
* A property that may be missing (`undefined`) is an `Option`; objects and arrays are
  always truthy, so `!x` on such a property is `x.isNone`.
* A factor table (a plain object from class name to number) is a partial function
  `String → Option ℚ`.  Members inherited from `Object.prototype` (a class called
  `constructor`, say) are not modelled.
* `Array.prototype.sort` is a stable sort (ECMAScript 2019); it is modelled by the stable
  insertion sort of the comparator's "does not come after" relation.
* `Number.prototype.toLocaleString` depends on the host locale and is a parameter.
-/

namespace MLMicro

/-! ## JavaScript primitives -/

/-- The expression `x || d` where `x` is a number that may be `undefined`:
`undefined` and `0` are falsy, every other number is kept. -/
def jsOr {α : Type} [Zero α] [DecidableEq α] (x : Option α) (d : α) : α :=
  match x with
  | some v => if v = 0 then d else v
  | none => d

/-- The expression `x || d` where `x` is an object or array that may be `undefined`
(objects are truthy, also when empty). -/
def jsOrObj {α : Type} (x : Option α) (d : α) : α :=
  match x with
  | some v => v
  | none => d

/-- The function `Math.round` on exact numbers: nearest integer, ties towards `+∞`. -/
def mathRound (x : ℚ) : ℤ := ⌊x + 1 / 2⌋

/-- The method `Array.prototype.sort(cmp)`: `a` stays in front of `b` when `cmp a b ≤ 0`;
elements that compare equal keep their order. -/
def jsSort {α : Type} (cmp : α → α → ℚ) (l : List α) : List α :=
  l.insertionSort (fun a b => cmp a b ≤ 0)

/-- The method `Array.prototype.forEach` with the callback's state made explicit:
`f state element index`, the index starting at `i`. -/
def forEachIdx {σ α : Type} (f : σ → α → ℕ → σ) : List α → ℕ → σ → σ
  | [], _, s => s
  | a :: as, i, s => forEachIdx f as (i + 1) (f s a i)

/-! ## Data model -/

/-- One classification result: `{ probs, confidence }`. -/
structure Snapshot where
  probs : Option (List ℚ)
  confidence : Option ℚ

/-- The analysis payload:
`{ before, after, class_names, before_year, after_year }`. -/
structure Analysis where
  class_names : Option (List String)
  before : Option Snapshot
  after : Option Snapshot
  before_year : Option ℤ
  after_year : Option ℤ

/-- A plain object from class name to a per-hectare factor. -/
abbrev FactorTable := String → Option ℚ

/-- The second argument of `estimateCarbonAndOxygen`. -/
structure EstimatorOptions where
  carbonFactors : Option FactorTable
  oxygenFactors : Option FactorTable
  assumedAreaKm2 : Option ℚ

/-- The default value `{}` of the `options` parameter. -/
def EstimatorOptions.empty : EstimatorOptions := ⟨none, none, none⟩

/-! ## `carbon_oxygen_estimator.js` -/

/-- Tons CO2 per hectare per year. -/
def DEFAULT_CARBON_FACTORS : FactorTable := fun c =>
  if c = "Forest" then some (105 / 10)
  else if c = "PermanentCrop" then some (32 / 10)
  else if c = "AnnualCrop" then some (18 / 10)
  else if c = "Pasture" then some (25 / 10)
  else if c = "HerbaceousVegetation" then some (41 / 10)
  else if c = "River" then some 0
  else if c = "SeaLake" then some (5 / 10)
  else if c = "Highway" then some (-21 / 10)
  else if c = "Industrial" then some (-87 / 10)
  else if c = "Residential" then some (-34 / 10)
  else none

/-- Tons O2 per hectare per year. -/
def DEFAULT_OXYGEN_FACTORS : FactorTable := fun c =>
  if c = "Forest" then some (66 / 10)
  else if c = "PermanentCrop" then some (15 / 10)
  else if c = "AnnualCrop" then some (9 / 10)
  else if c = "Pasture" then some (12 / 10)
  else if c = "HerbaceousVegetation" then some (18 / 10)
  else if c = "River" then some 0
  else if c = "SeaLake" then some (1 / 10)
  else if c = "Highway" then some (-5 / 10)
  else if c = "Industrial" then some (-25 / 10)
  else if c = "Residential" then some (-10 / 10)
  else none

/-- Convert square kilometres to hectares. -/
def km2ToHectares (km2 : ℚ) : ℚ := km2 * 100

/-- One element of `resultsByClass`. -/
structure ClassRecord where
  className : String
  areaBeforeKm2 : ℚ
  areaAfterKm2 : ℚ
  hectaresBefore : ℚ
  hectaresAfter : ℚ
  carbonBefore : ℚ
  carbonAfter : ℚ
  oxygenBefore : ℚ
  oxygenAfter : ℚ
  carbonChange : ℚ
  oxygenChange : ℚ
deriving DecidableEq

/-- The object returned by `estimateCarbonAndOxygen`. -/
structure Summary where
  totalCarbonBefore : ℚ
  totalCarbonAfter : ℚ
  totalCarbonChange : ℚ
  totalOxygenBefore : ℚ
  totalOxygenAfter : ℚ
  totalOxygenChange : ℚ
  years : ℤ
  resultsByClass : List ClassRecord
  sentences : List String

/-- The variables the `classNames.forEach` callback updates. -/
structure Totals where
  resultsByClass : List ClassRecord
  totalCarbonBefore : ℚ
  totalCarbonAfter : ℚ
  totalOxygenBefore : ℚ
  totalOxygenAfter : ℚ

/-- The initial values: `[]` and four zeros. -/
def Totals.init : Totals := ⟨[], 0, 0, 0, 0⟩

/-- The record that one run of the `classNames.forEach` callback pushes. -/
def classRecord (carbonFactors oxygenFactors : FactorTable) (assumedAreaKm2 : ℚ)
    (beforeProbs afterProbs : List ℚ) (className : String) (idx : ℕ) : ClassRecord :=
  let beforePct := jsOr beforeProbs[idx]? 0
  let afterPct := jsOr afterProbs[idx]? 0
  let areaBeforeKm2 := beforePct * assumedAreaKm2
  let areaAfterKm2 := afterPct * assumedAreaKm2
  let hectaresBefore := km2ToHectares areaBeforeKm2
  let hectaresAfter := km2ToHectares areaAfterKm2
  let carbonFactor := jsOr (carbonFactors className) 0
  let oxygenFactor := jsOr (oxygenFactors className) 0
  let carbonBefore := hectaresBefore * carbonFactor
  let carbonAfter := hectaresAfter * carbonFactor
  let oxygenBefore := hectaresBefore * oxygenFactor
  let oxygenAfter := hectaresAfter * oxygenFactor
  { className := className
    areaBeforeKm2 := areaBeforeKm2
    areaAfterKm2 := areaAfterKm2
    hectaresBefore := hectaresBefore
    hectaresAfter := hectaresAfter
    carbonBefore := carbonBefore
    carbonAfter := carbonAfter
    oxygenBefore := oxygenBefore
    oxygenAfter := oxygenAfter
    carbonChange := carbonAfter - carbonBefore
    oxygenChange := oxygenAfter - oxygenBefore }

/-- The body of the `classNames.forEach` callback: add to the four running totals and
push the record. -/
def classStep (carbonFactors oxygenFactors : FactorTable) (assumedAreaKm2 : ℚ)
    (beforeProbs afterProbs : List ℚ) (t : Totals) (className : String) (idx : ℕ) : Totals :=
  let r := classRecord carbonFactors oxygenFactors assumedAreaKm2 beforeProbs afterProbs
    className idx
  { resultsByClass := t.resultsByClass ++ [r]
    totalCarbonBefore := t.totalCarbonBefore + r.carbonBefore
    totalCarbonAfter := t.totalCarbonAfter + r.carbonAfter
    totalOxygenBefore := t.totalOxygenBefore + r.oxygenBefore
    totalOxygenAfter := t.totalOxygenAfter + r.oxygenAfter }

/-- The filter predicate of `significant`. -/
def isSignificant (r : ClassRecord) : Bool :=
  decide (|r.carbonChange| > 1) || decide (|r.oxygenChange| > 1)

/-- The array `significant`: the filtered records, sorted by the comparator
`|b.carbonChange| - |a.carbonChange|`. -/
def significant (resultsByClass : List ClassRecord) : List ClassRecord :=
  jsSort (fun a b => |b.carbonChange| - |a.carbonChange|)
    (resultsByClass.filter isSignificant)

/-- The template string `yearsText`. -/
def yearsText (years : ℤ) : String :=
  toString years ++ " " ++ (if years = 1 then "year" else "years")

/-- The sentence pushed for a class whose carbon change passes the threshold. -/
def carbonSentence (toLocaleString : ℤ → String) (years : ℤ) (r : ClassRecord) : String :=
  let change := mathRound |r.carbonChange|
  let verb := if r.carbonChange < 0 then "lost" else "gained"
  "Region changed " ++ verb ++ " approximately " ++ toLocaleString change
    ++ " tons CO₂ capacity from " ++ r.className ++ " over " ++ yearsText years ++ "."

/-- The sentence pushed for a class whose oxygen change passes the threshold. -/
def oxygenSentence (toLocaleString : ℤ → String) (years : ℤ) (r : ClassRecord) : String :=
  let change := mathRound |r.oxygenChange|
  let verb := if r.oxygenChange < 0 then "lost" else "gained"
  "Region " ++ verb ++ " approximately " ++ toLocaleString change
    ++ " tons O₂ production capacity from " ++ r.className ++ " over " ++ yearsText years ++ "."

/-- The sentences one run of the `significant.forEach` callback pushes, in order. -/
def sentencesOf (toLocaleString : ℤ → String) (years : ℤ) (r : ClassRecord) : List String :=
  (if |r.carbonChange| > 1 then [carbonSentence toLocaleString years r] else [])
    ++ (if |r.oxygenChange| > 1 then [oxygenSentence toLocaleString years r] else [])

/-- The loop `significant.forEach`, pushing onto `sentences`. -/
def pushSentences (toLocaleString : ℤ → String) (years : ℤ) (sig : List ClassRecord) :
    List String :=
  sig.foldl (fun sentences r => sentences ++ sentencesOf toLocaleString years r) []

/-- The effective probability vector `snapshot.probs || []`, the snapshot itself
defaulting to `{}`. -/
def probsOf (s : Option Snapshot) : List ℚ :=
  jsOrObj ((jsOrObj s ⟨none, none⟩).probs) []

/-- The function `estimateCarbonAndOxygen(analysis, options)`; `none` is `null`. -/
def estimateCarbonAndOxygen (toLocaleString : ℤ → String) (analysis : Option Analysis)
    (options : EstimatorOptions) : Option Summary :=
  match analysis with
  | none => none
  | some a =>
    match a.class_names with
    | none => none
    | some classNames =>
      let carbonFactors := jsOrObj options.carbonFactors DEFAULT_CARBON_FACTORS
      let oxygenFactors := jsOrObj options.oxygenFactors DEFAULT_OXYGEN_FACTORS
      let assumedAreaKm2 := jsOr options.assumedAreaKm2 100
      let beforeProbs := probsOf a.before
      let afterProbs := probsOf a.after
      let years := jsOr a.after_year 2020 - jsOr a.before_year 2010
      let t := forEachIdx
        (classStep carbonFactors oxygenFactors assumedAreaKm2 beforeProbs afterProbs)
        classNames 0 Totals.init
      let totalCarbonChange := t.totalCarbonAfter - t.totalCarbonBefore
      let totalOxygenChange := t.totalOxygenAfter - t.totalOxygenBefore
      let sentences := pushSentences toLocaleString years (significant t.resultsByClass)
      some
        { totalCarbonBefore := t.totalCarbonBefore
          totalCarbonAfter := t.totalCarbonAfter
          totalCarbonChange := totalCarbonChange
          totalOxygenBefore := t.totalOxygenBefore
          totalOxygenAfter := t.totalOxygenAfter
          totalOxygenChange := totalOxygenChange
          years := years
          resultsByClass := t.resultsByClass
          sentences := sentences }

/-! ## `EnvironmentalHealthDashboard.js` -/

/-- The method `Array.prototype.indexOf`, counting from `i`: the first position holding `c`,
and `-1` when there is none. -/
def indexOfFrom (c : String) : List String → ℤ → ℤ
  | [], _ => -1
  | x :: xs, i => if x = c then i else indexOfFrom c xs (i + 1)

/-- The closure `getClassIndex`: `classNames.indexOf(className)`. -/
def getClassIndex (classNames : List String) (className : String) : ℤ :=
  indexOfFrom className classNames 0

/-- The array read `probs[index]` for an integer index: `undefined` at `-1` and beyond the
end. -/
def probAt (probs : List ℚ) (index : ℤ) : Option ℚ :=
  if index < 0 then none else probs[index.toNat]?

/-- The reducer shared by the water, vegetation and pollution sums:
`classes.reduce((sum, className) => sum + (afterProbs[getClassIndex(className)] || 0), 0)`. -/
def sumClasses (classNames : List String) (afterProbs : List ℚ) (classes : List String) : ℚ :=
  classes.foldl (fun sum className =>
    sum + jsOr (probAt afterProbs (getClassIndex classNames className)) 0) 0

/-- The object returned by `calculateEnvironmentalMetrics`. -/
structure Metrics where
  waterQuality : ℚ
  vegetationHealth : ℚ
  airQuality : ℚ
  biodiversity : ℚ
  overallHealth : ℚ
deriving DecidableEq

def waterClasses : List String := ["River", "SeaLake"]

def vegClasses : List String := ["Forest", "HerbaceousVegetation", "Pasture", "PermanentCrop"]

def pollutionClasses : List String := ["Industrial", "Highway"]

def naturalClasses : List String := ["Forest", "HerbaceousVegetation", "River", "SeaLake"]

/-- The closure `calculateEnvironmentalMetrics(data)`; `none` is `null`. -/
def calculateEnvironmentalMetrics (data : Option Analysis) : Option Metrics :=
  match data with
  | none => none
  | some d =>
    match d.before, d.after with
    | some _before, some after =>
      let afterProbs := jsOrObj after.probs []
      let classNames := jsOrObj d.class_names []
      let waterQuality := sumClasses classNames afterProbs waterClasses * 100
      let vegetationHealth := sumClasses classNames afterProbs vegClasses * 100
      let pollutionLevel := sumClasses classNames afterProbs pollutionClasses * 100
      let airQuality := max 0 (100 - pollutionLevel)
      let biodiversity : ℚ :=
        ((naturalClasses.filter (fun className =>
          decide (jsOr (probAt afterProbs (getClassIndex classNames className)) 0 > 5 / 100))).length
          : ℕ) * 25
      let overallHealth := (waterQuality + vegetationHealth + airQuality + biodiversity) / 4
      some
        { waterQuality := min 100 waterQuality
          vegetationHealth := min 100 vegetationHealth
          airQuality := min 100 airQuality
          biodiversity := min 100 biodiversity
          overallHealth := min 100 overallHealth }
    | _, _ => none

/-! ## `AreaChangeHeatmap.js` -/

/-- The method `Array.prototype.map` with the callback's index argument, the index starting
at `i`. -/
def mapIdxFrom {α β : Type} (f : α → ℕ → β) : List α → ℕ → List β
  | [], _ => []
  | a :: as, i => f a i :: mapIdxFrom f as (i + 1)

/-- One element of the array returned by `generateHeatmapData`. -/
structure HeatmapEntry where
  name : String
  before : ℚ
  after : ℚ
  change : ℚ
  absChange : ℚ
  size : ℚ
  trend : String
  intensity : ℚ
  area : ℚ
deriving DecidableEq

/-- The callback of `data.class_names.map` in `generateHeatmapData`; `none` is `null`.  A
class name is a string here, so the guard `!className || typeof className !== 'string'`
fires exactly on the empty string. -/
def heatmapItem (beforeProbs afterProbs : List ℚ) (className : String) (index : ℕ) :
    Option HeatmapEntry :=
  if className = "" then none
  else
    let beforeValue := jsOr beforeProbs[index]? 0
    let afterValue := jsOr afterProbs[index]? 0
    let change := afterValue - beforeValue
    let changePercent := change * 100
    let avgValue := (beforeValue + afterValue) / 2
    some
      { name := className
        before := beforeValue * 100
        after := afterValue * 100
        change := changePercent
        absChange := |changePercent|
        size := max (avgValue * 100) 5
        trend :=
          if changePercent > 1 then "increasing"
          else if changePercent < -1 then "decreasing"
          else "stable"
        intensity := min (|changePercent| * 2) 100
        area := avgValue * 100 }

/-- The predicate of the final `filter`: `item && item.area > 0 && item.name`, as a partial
identity so that the surviving items are entries. -/
def heatmapKeep (item : Option HeatmapEntry) : Option HeatmapEntry :=
  match item with
  | none => none
  | some e => if e.area > 0 ∧ e.name ≠ "" then some e else none

/-- The closure `generateHeatmapData(data)`. -/
def generateHeatmapData (data : Option Analysis) : List HeatmapEntry :=
  match data with
  | none => []
  | some d =>
    match d.before, d.after, d.class_names with
    | some before, some after, some classNames =>
      let beforeProbs := jsOrObj before.probs []
      let afterProbs := jsOrObj after.probs []
      (mapIdxFrom (heatmapItem beforeProbs afterProbs) classNames 0).filterMap heatmapKeep
    | _, _, _ => []

/-- A thrown JavaScript exception. -/
inductive JsError where
  | typeError
deriving DecidableEq

/-- The method `Array.prototype.forEach` for a callback that may throw: the first exception
ends the loop. -/
def forEachIdxE {σ α : Type} (f : σ → α → ℕ → Except JsError σ) :
    List α → ℕ → σ → Except JsError σ
  | [], _, s => Except.ok s
  | a :: as, i, s =>
    match f s a i with
    | Except.ok s' => forEachIdxE f as (i + 1) s'
    | Except.error e => Except.error e

/-- The expression `snapshot?.probs[index]`: `undefined` when the snapshot is missing, a
`TypeError` when the snapshot is there but has no `probs`, the array read otherwise. -/
def optChainProb (snapshot : Option Snapshot) (index : ℕ) : Except JsError (Option ℚ) :=
  match snapshot with
  | none => Except.ok none
  | some s =>
    match s.probs with
    | none => Except.error JsError.typeError
    | some probs => Except.ok probs[index]?

/-- One element of the array returned by `generateChangeMatrix`; the fields `from` and `to`
carry the names of the callback variables they are read from. -/
structure Transition where
  fromClass : String
  toClass : String
  strength : ℚ
  percentage : ℚ
deriving DecidableEq

/-- The body of the inner `classes.forEach` callback of `generateChangeMatrix`. -/
def transitionStep (d : Analysis) (fromClass : String) (fromIndex : ℕ)
    (matrix : List Transition) (toClass : String) (toIndex : ℕ) :
    Except JsError (List Transition) :=
  if fromIndex ≠ toIndex then
    match optChainProb d.before fromIndex with
    | Except.error e => Except.error e
    | Except.ok bf =>
      match optChainProb d.after fromIndex with
      | Except.error e => Except.error e
      | Except.ok af =>
        match optChainProb d.before toIndex with
        | Except.error e => Except.error e
        | Except.ok bt =>
          match optChainProb d.after toIndex with
          | Except.error e => Except.error e
          | Except.ok at_ =>
            let beforeFrom := jsOr bf 0 * 100
            let afterFrom := jsOr af 0 * 100
            let beforeTo := jsOr bt 0 * 100
            let afterTo := jsOr at_ 0 * 100
            let fromDecrease := max 0 (beforeFrom - afterFrom)
            let toIncrease := max 0 (afterTo - beforeTo)
            let transitionStrength := min fromDecrease toIncrease
            if transitionStrength > 5 / 10 then
              Except.ok (matrix ++
                [{ fromClass := fromClass
                   toClass := toClass
                   strength := transitionStrength
                   percentage := transitionStrength }])
            else Except.ok matrix
  else Except.ok matrix

/-- The closure `generateChangeMatrix(data)`. -/
def generateChangeMatrix (data : Option Analysis) : Except JsError (List Transition) :=
  match data with
  | none => Except.ok []
  | some d =>
    match d.class_names with
    | none => Except.ok []
    | some classes =>
      match forEachIdxE (fun matrix fromClass fromIndex =>
          forEachIdxE (transitionStep d fromClass fromIndex) classes 0 matrix) classes 0 [] with
      | Except.error e => Except.error e
      | Except.ok matrix =>
        Except.ok ((jsSort (fun a b => b.strength - a.strength) matrix).take 10)

/-! ## `ModelPerformanceAnalytics.js` -/

/-- A JavaScript number that may have left the finite range: an exact finite value,
`Infinity`, `-Infinity` or `NaN`.  Signed zeros are not distinguished. -/
inductive JsNum where
  | fin (q : ℚ)
  | posInf
  | negInf
  | nan
deriving DecidableEq

namespace JsNum

/-- Addition: `Infinity + -Infinity` is `NaN`. -/
def add : JsNum → JsNum → JsNum
  | fin a, fin b => fin (a + b)
  | nan, _ => nan
  | _, nan => nan
  | posInf, negInf => nan
  | negInf, posInf => nan
  | posInf, _ => posInf
  | _, posInf => posInf
  | negInf, _ => negInf
  | _, negInf => negInf

/-- Unary minus. -/
def neg : JsNum → JsNum
  | fin a => fin (-a)
  | posInf => negInf
  | negInf => posInf
  | nan => nan

/-- Subtraction. -/
def sub (a b : JsNum) : JsNum := add a (neg b)

/-- The sign of a number: `1`, `0` or `-1`, and `none` for `NaN`. -/
def sign : JsNum → Option ℤ
  | fin a => some (if 0 < a then 1 else if a < 0 then -1 else 0)
  | posInf => some 1
  | negInf => some (-1)
  | nan => none

/-- Multiplication: `Infinity * 0` is `NaN`. -/
def mul : JsNum → JsNum → JsNum
  | fin a, fin b => fin (a * b)
  | x, y =>
    match sign x, sign y with
    | some sx, some sy =>
      if sx * sy = 0 then nan else if 0 < sx * sy then posInf else negInf
    | _, _ => nan

/-- Division: a finite quotient when both sides are finite and the divisor is not zero. -/
def div : JsNum → JsNum → JsNum
  | fin a, fin b =>
    if b = 0 then (if 0 < a then posInf else if a < 0 then negInf else nan) else fin (a / b)
  | fin _, posInf => fin 0
  | fin _, negInf => fin 0
  | posInf, fin b => if b < 0 then negInf else posInf
  | negInf, fin b => if b < 0 then posInf else negInf
  | _, _ => nan

/-- The function `Math.abs`. -/
def abs : JsNum → JsNum
  | fin a => fin |a|
  | posInf => posInf
  | negInf => posInf
  | nan => nan

instance : Add JsNum := ⟨add⟩

instance : Sub JsNum := ⟨sub⟩

instance : Mul JsNum := ⟨mul⟩

instance : Div JsNum := ⟨div⟩

instance : Neg JsNum := ⟨neg⟩

/-- A value read from an array used as a number: `undefined` converts to `NaN`. -/
def ofUndefined : Option ℚ → JsNum
  | some q => fin q
  | none => nan

end JsNum

/-- The call `Math.max(...values)`: `-Infinity` without arguments, the largest argument
otherwise. -/
def mathMax : List ℚ → JsNum
  | [] => JsNum.negInf
  | x :: xs => JsNum.fin (xs.foldl max x)

/-- The expression `[...probs].sort((a, b) => b - a)` with the array store explicit: the
spread allocates a fresh array, `sort` reorders that array in place and returns it.  The
pair is the content of `probs` afterwards and the sorted copy. -/
def sortedCopyDesc (probs : List ℚ) : List ℚ × List ℚ :=
  let copy := probs
  (probs, jsSort (fun a b => b - a) copy)

/-- The closure `calculateEntropy(probs)`, over any ordered field and for a given base-2
logarithm. -/
def calculateEntropy {K : Type} [LinearOrderedField K] (log2 : K → K) (probs : List K) : K :=
  -(probs.foldl (fun sum p => sum + (if p > 0 then p * log2 p else 0)) 0)

/-- The object returned by `calculatePerformanceMetrics`. -/
structure PerformanceMetrics where
  avgConfidence : JsNum
  avgCertainty : JsNum
  consistency : JsNum
  entropy : JsNum
  qualityScore : JsNum
  beforeConf : JsNum
  afterConf : JsNum
  beforeCertainty : JsNum
  afterCertainty : JsNum
deriving DecidableEq

/-- The closure `calculatePerformanceMetrics(data)`; `none` is `null`.  The function
`Math.log2` is a parameter on the exact numbers. -/
def calculatePerformanceMetrics (log2 : ℚ → ℚ) (data : Option Analysis) :
    Option PerformanceMetrics :=
  match data with
  | none => none
  | some d =>
    match d.before, d.after with
    | some before, some after =>
      let beforeConf := JsNum.fin (jsOr before.confidence 0)
      let afterConf := JsNum.fin (jsOr after.confidence 0)
      let beforeProbs := jsOrObj before.probs []
      let afterProbs := jsOrObj after.probs []
      let avgConfidence := (beforeConf + afterConf) / JsNum.fin 2
      let beforeCertainty := mathMax beforeProbs
      let afterCertainty := mathMax afterProbs
      let avgCertainty := (beforeCertainty + afterCertainty) / JsNum.fin 2
      let beforeTop3 := (sortedCopyDesc beforeProbs).2.take 3
      let afterTop3 := (sortedCopyDesc afterProbs).2.take 3
      let consistency := JsNum.fin 1
        - JsNum.abs (JsNum.ofUndefined beforeTop3[0]? - JsNum.ofUndefined afterTop3[0]?)
      let beforeEntropy := JsNum.fin (calculateEntropy log2 beforeProbs)
      let afterEntropy := JsNum.fin (calculateEntropy log2 afterProbs)
      let avgEntropy := (beforeEntropy + afterEntropy) / JsNum.fin 2
      let qualityScore := (avgConfidence * JsNum.fin (4 / 10) + avgCertainty * JsNum.fin (4 / 10)
        + consistency * JsNum.fin (2 / 10)) * JsNum.fin 100
      some
        { avgConfidence := avgConfidence * JsNum.fin 100
          avgCertainty := avgCertainty * JsNum.fin 100
          consistency := consistency * JsNum.fin 100
          entropy := avgEntropy
          qualityScore := qualityScore
          beforeConf := beforeConf * JsNum.fin 100
          afterConf := afterConf * JsNum.fin 100
          beforeCertainty := beforeCertainty * JsNum.fin 100
          afterCertainty := afterCertainty * JsNum.fin 100 }
    | _, _ => none

/-! ## `CarbonImpactTracker.js` -/

namespace CarbonImpactTracker

/-- The table `carbonFactors` of the component: tons CO2 per hectare per year. -/
def carbonFactors : FactorTable := fun c =>
  if c = "Forest" then some (105 / 10)
  else if c = "PermanentCrop" then some (32 / 10)
  else if c = "AnnualCrop" then some (18 / 10)
  else if c = "Pasture" then some (25 / 10)
  else if c = "HerbaceousVegetation" then some (41 / 10)
  else if c = "River" then some 0
  else if c = "SeaLake" then some (5 / 10)
  else if c = "Highway" then some (-21 / 10)
  else if c = "Industrial" then some (-87 / 10)
  else if c = "Residential" then some (-34 / 10)
  else none

/-- One element of `carbonByClass`. -/
structure CarbonClass where
  className : String
  beforeArea : ℚ
  afterArea : ℚ
  areaChange : ℚ
  factor : ℚ
  beforeCO2 : ℚ
  afterCO2 : ℚ
  changeCO2 : ℚ
  impact : String
deriving DecidableEq

/-- The object the `data.class_names.map` callback returns. -/
def carbonItem (beforeProbs afterProbs : List ℚ) (assumedAreaKm2 : ℚ) (className : String)
    (index : ℕ) : CarbonClass :=
  let beforeArea := jsOr beforeProbs[index]? 0 * assumedAreaKm2
  let afterArea := jsOr afterProbs[index]? 0 * assumedAreaKm2
  let factor := jsOr (carbonFactors className) 0
  let beforeCO2 := beforeArea * factor
  let afterCO2 := afterArea * factor
  let changeCO2 := afterCO2 - beforeCO2
  { className := className
    beforeArea := beforeArea
    afterArea := afterArea
    areaChange := afterArea - beforeArea
    factor := factor
    beforeCO2 := beforeCO2
    afterCO2 := afterCO2
    changeCO2 := changeCO2
    impact :=
      if changeCO2 > 0 then "positive" else if changeCO2 < 0 then "negative" else "neutral" }

/-- The array under construction by `map` and the two variables its callback updates. -/
structure CarbonAcc where
  items : List CarbonClass
  beforeCarbon : ℚ
  afterCarbon : ℚ

/-- One run of the `map` callback: add to `beforeCarbon` and `afterCarbon`, return the
item. -/
def carbonStep (beforeProbs afterProbs : List ℚ) (assumedAreaKm2 : ℚ) (acc : CarbonAcc)
    (className : String) (index : ℕ) : CarbonAcc :=
  let item := carbonItem beforeProbs afterProbs assumedAreaKm2 className index
  { items := acc.items ++ [item]
    beforeCarbon := acc.beforeCarbon + item.beforeCO2
    afterCarbon := acc.afterCarbon + item.afterCO2 }

/-- The object returned by `calculateCarbonMetrics`. -/
structure CarbonMetrics where
  beforeCarbon : ℚ
  afterCarbon : ℚ
  totalCarbonChange : ℚ
  annualCarbonRate : JsNum
  carbonByClass : List CarbonClass
  sequestrationSources : List CarbonClass
  emissionSources : List CarbonClass
  totalSequestration : ℚ
  totalEmissions : ℚ
  netImpact : ℚ
  assumedAreaKm2 : ℚ
deriving DecidableEq

/-- The closure `calculateCarbonMetrics(data)`; `none` is `null`.  The final `sort` reorders
`carbonByClass` only: the two source arrays were filtered out of it before. -/
def calculateCarbonMetrics (data : Option Analysis) : Option CarbonMetrics :=
  match data with
  | none => none
  | some d =>
    match d.before, d.after, d.class_names with
    | some before, some after, some classNames =>
      let beforeProbs := jsOrObj before.probs []
      let afterProbs := jsOrObj after.probs []
      let assumedAreaKm2 : ℚ := 100
      let acc := forEachIdx (carbonStep beforeProbs afterProbs assumedAreaKm2) classNames 0
        ⟨[], 0, 0⟩
      let carbonByClass := acc.items.filter (fun item => decide (|item.changeCO2| > 1 / 10))
      let totalCarbonChange := acc.afterCarbon - acc.beforeCarbon
      let yearsSpan : ℤ := jsOr d.after_year 2020 - jsOr d.before_year 2010
      let annualCarbonRate := JsNum.fin totalCarbonChange / JsNum.fin yearsSpan
      let sequestrationSources := carbonByClass.filter (fun c => decide (c.changeCO2 > 0))
      let emissionSources := carbonByClass.filter (fun c => decide (c.changeCO2 < 0))
      let totalSequestration := sequestrationSources.foldl (fun sum c => sum + c.changeCO2) 0
      let totalEmissions := |emissionSources.foldl (fun sum c => sum + c.changeCO2) 0|
      let netImpact := totalSequestration - totalEmissions
      some
        { beforeCarbon := acc.beforeCarbon
          afterCarbon := acc.afterCarbon
          totalCarbonChange := totalCarbonChange
          annualCarbonRate := annualCarbonRate
          carbonByClass := jsSort (fun a b => |b.changeCO2| - |a.changeCO2|) carbonByClass
          sequestrationSources := sequestrationSources
          emissionSources := emissionSources
          totalSequestration := totalSequestration
          totalEmissions := totalEmissions
          netImpact := netImpact
          assumedAreaKm2 := assumedAreaKm2 }
    | _, _, _ => none

/-- One element of the array returned by `generateCarbonTimeline`. -/
structure TimelinePoint where
  year : ℤ
  carbonFootprint : JsNum
  sequestration : JsNum
  emissions : JsNum
  cumulative : JsNum
deriving DecidableEq

/-- The local `progress = i / yearsSpan` of the timeline loop. -/
def timelineProgress (i : ℕ) (yearsSpan : ℤ) : JsNum :=
  JsNum.fin i / JsNum.fin yearsSpan

/-- The body of the `for` loop of `generateCarbonTimeline`: the point pushed at step `i`. -/
def timelinePoint (beforeYear yearsSpan : ℤ) (carbonMetrics : CarbonMetrics) (i : ℕ) :
    TimelinePoint :=
  let progress := timelineProgress i yearsSpan
  let year := beforeYear + i
  let carbonValue := JsNum.fin carbonMetrics.beforeCarbon
    + JsNum.fin carbonMetrics.totalCarbonChange * progress
  { year := year
    carbonFootprint := carbonValue
    sequestration := JsNum.fin carbonMetrics.totalSequestration * progress
    emissions := JsNum.fin carbonMetrics.totalEmissions * progress
    cumulative := carbonValue }

/-- The closure `generateCarbonTimeline(data, carbonMetrics)`; the loop
`for (let i = 0; i <= yearsSpan; i++)` runs `yearsSpan + 1` times, and not at all when
`yearsSpan` is negative.  The component calls it with a `data` that is not null. -/
def generateCarbonTimeline (data : Analysis) (carbonMetrics : Option CarbonMetrics) :
    List TimelinePoint :=
  match carbonMetrics with
  | none => []
  | some m =>
    let beforeYear := jsOr data.before_year 2010
    let afterYear := jsOr data.after_year 2020
    let yearsSpan := afterYear - beforeYear
    (List.range (yearsSpan + 1).toNat).map (timelinePoint beforeYear yearsSpan m)

end CarbonImpactTracker

/-! ## `TemporalChangeTimeline.js` -/

namespace TemporalChangeTimeline

/-- One element of `changes`. -/
structure TrendChange where
  className : Option String
  change : ℚ
  velocity : JsNum
  trend : String
deriving DecidableEq

/-- The object returned by `calculateTrendMetrics`. -/
structure TrendMetrics where
  changes : List TrendChange
  significantChanges : List TrendChange
  increasingClasses : ℕ
  decreasingClasses : ℕ
  totalVelocity : JsNum
deriving DecidableEq

/-- The method `Array.prototype.map` with the index argument, for a callback that may
throw. -/
def mapIdxFromE {α β : Type} (f : α → ℕ → Except JsError β) :
    List α → ℕ → Except JsError (List β)
  | [], _ => Except.ok []
  | a :: as, i =>
    match f a i with
    | Except.error e => Except.error e
    | Except.ok b =>
      match mapIdxFromE f as (i + 1) with
      | Except.error e => Except.error e
      | Except.ok bs => Except.ok (b :: bs)

/-- The expression `data.class_names[index]`: a `TypeError` when `class_names` is missing,
`undefined` beyond its end. -/
def classNameAt (class_names : Option (List String)) (index : ℕ) :
    Except JsError (Option String) :=
  match class_names with
  | none => Except.error JsError.typeError
  | some names => Except.ok names[index]?

/-- The callback of `beforeProbs.map` in `calculateTrendMetrics`. -/
def trendChange (afterProbs : List ℚ) (yearsSpan : ℤ) (class_names : Option (List String))
    (beforeValue : ℚ) (index : ℕ) : Except JsError TrendChange :=
  let afterValue := jsOr afterProbs[index]? 0
  let change := afterValue - beforeValue
  let velocity := JsNum.fin change / JsNum.fin yearsSpan
  match classNameAt class_names index with
  | Except.error e => Except.error e
  | Except.ok className =>
    Except.ok
      { className := className
        change := change * 100
        velocity := velocity * JsNum.fin 100
        trend :=
          if change > 1 / 100 then "increasing"
          else if change < -1 / 100 then "decreasing"
          else "stable" }

/-- The closure `calculateTrendMetrics(data)`; `none` is the empty object `{}` returned
when a snapshot is missing. -/
def calculateTrendMetrics (data : Option Analysis) : Except JsError (Option TrendMetrics) :=
  match data with
  | none => Except.ok none
  | some d =>
    match d.before, d.after with
    | some before, some after =>
      let beforeProbs := jsOrObj before.probs []
      let afterProbs := jsOrObj after.probs []
      let yearsSpan : ℤ := jsOr d.after_year 2020 - jsOr d.before_year 2010
      match mapIdxFromE (trendChange afterProbs yearsSpan d.class_names) beforeProbs 0 with
      | Except.error e => Except.error e
      | Except.ok changes =>
        let significantChanges := changes.filter (fun c => decide (|c.change| > 1))
        let increasingClasses := (changes.filter (fun c => c.trend = "increasing")).length
        let decreasingClasses := (changes.filter (fun c => c.trend = "decreasing")).length
        Except.ok (some
          { changes := changes
            significantChanges := significantChanges
            increasingClasses := increasingClasses
            decreasingClasses := decreasingClasses
            totalVelocity :=
              changes.foldl (fun sum c => sum + JsNum.abs c.velocity) (JsNum.fin 0) })
    | _, _ => Except.ok none

end TemporalChangeTimeline

/-! ## IEEE 754 double precision

The definitions above take every product and sum exactly.  The program runs on IEEE 754
binary64 numbers, which round the result of every operation to the nearest representable
value, ties to the even mantissa.  This section models that arithmetic and, on top of it,
the carbon totals of the two carbon calculators, operation for operation in the order of
the source. -/

namespace Binary64

/-- Round to the nearest integer, ties to the even one. -/
def roundHalfEven (x : ℚ) : ℤ :=
  if x - ⌊x⌋ < 1 / 2 then ⌊x⌋
  else if 1 / 2 < x - ⌊x⌋ then ⌊x⌋ + 1
  else if ⌊x⌋ % 2 = 0 then ⌊x⌋
  else ⌊x⌋ + 1

/-- The binary exponent of the last mantissa bit of the double nearest to `x`: 52 places
below the leading bit of `x`, and `-1074` in the subnormal range. -/
def ulpExponent (x : ℚ) : ℤ := max (Int.log 2 |x| - 52) (-1074)

/-- The largest finite double, `(2^53 - 1) * 2^971`. -/
def maxValue : ℚ := (2 ^ 53 - 1) * 2 ^ 971

/-- The double nearest to the real number `x`, ties to even; a result beyond the largest
finite double is an infinity. -/
def round (x : ℚ) : JsNum :=
  if x = 0 then JsNum.fin 0
  else if maxValue < (roundHalfEven (x / 2 ^ ulpExponent x) : ℚ) * 2 ^ ulpExponent x then
    JsNum.posInf
  else if (roundHalfEven (x / 2 ^ ulpExponent x) : ℚ) * 2 ^ ulpExponent x < -maxValue then
    JsNum.negInf
  else JsNum.fin ((roundHalfEven (x / 2 ^ ulpExponent x) : ℚ) * 2 ^ ulpExponent x)

/-- A number as it is written in the source text or in the JSON of an analysis, read as a
double. -/
def literal (q : ℚ) : JsNum := round q

/-- The operator `+` on doubles. -/
def add (a b : JsNum) : JsNum :=
  match a, b with
  | JsNum.fin x, JsNum.fin y => round (x + y)
  | _, _ => a + b

/-- The operator `-` on doubles. -/
def sub (a b : JsNum) : JsNum :=
  match a, b with
  | JsNum.fin x, JsNum.fin y => round (x - y)
  | _, _ => a - b

/-- The operator `*` on doubles. -/
def mul (a b : JsNum) : JsNum :=
  match a, b with
  | JsNum.fin x, JsNum.fin y => round (x * y)
  | _, _ => a * b

/-- The expression `x || d` on a number that may be `undefined`: `undefined`, `0` and
`NaN` are falsy. -/
def orElse (x : Option JsNum) (d : JsNum) : JsNum :=
  match x with
  | none => d
  | some (JsNum.fin q) => if q = 0 then d else JsNum.fin q
  | some JsNum.nan => d
  | some v => v

/-- The helper `km2ToHectares` on doubles. -/
def km2ToHectares (km2 : JsNum) : JsNum := mul km2 (literal 100)

/-- The three carbon totals of the summary of `estimateCarbonAndOxygen`. -/
structure CarbonTotals where
  totalCarbonBefore : JsNum
  totalCarbonAfter : JsNum
  totalCarbonChange : JsNum
deriving DecidableEq

/-- The carbon part of the `classNames.forEach` callback of `estimateCarbonAndOxygen` on
doubles; the state is the pair `(totalCarbonBefore, totalCarbonAfter)`. -/
def classStep (carbonFactors : FactorTable) (assumedAreaKm2 : JsNum)
    (beforeProbs afterProbs : List ℚ) (t : JsNum × JsNum) (className : String) (idx : ℕ) :
    JsNum × JsNum :=
  let beforePct := orElse (beforeProbs[idx]?.map literal) (literal 0)
  let afterPct := orElse (afterProbs[idx]?.map literal) (literal 0)
  let areaBeforeKm2 := mul beforePct assumedAreaKm2
  let areaAfterKm2 := mul afterPct assumedAreaKm2
  let hectaresBefore := km2ToHectares areaBeforeKm2
  let hectaresAfter := km2ToHectares areaAfterKm2
  let carbonFactor := orElse ((carbonFactors className).map literal) (literal 0)
  let carbonBefore := mul hectaresBefore carbonFactor
  let carbonAfter := mul hectaresAfter carbonFactor
  (add t.1 carbonBefore, add t.2 carbonAfter)

/-- The function `estimateCarbonAndOxygen(analysis, options)` on doubles, restricted to
the three carbon totals of its summary; `none` is `null`. -/
def estimateCarbonAndOxygen (analysis : Option Analysis) (options : EstimatorOptions) :
    Option CarbonTotals :=
  match analysis with
  | none => none
  | some a =>
    match a.class_names with
    | none => none
    | some classNames =>
      let carbonFactors := jsOrObj options.carbonFactors DEFAULT_CARBON_FACTORS
      let assumedAreaKm2 := orElse (options.assumedAreaKm2.map literal) (literal 100)
      let beforeProbs := probsOf a.before
      let afterProbs := probsOf a.after
      let t := forEachIdx (classStep carbonFactors assumedAreaKm2 beforeProbs afterProbs)
        classNames 0 (literal 0, literal 0)
      some
        { totalCarbonBefore := t.1
          totalCarbonAfter := t.2
          totalCarbonChange := sub t.2 t.1 }

/-- The fields `beforeCarbon`, `afterCarbon` and `totalCarbonChange` of the object
returned by `calculateCarbonMetrics`. -/
structure TrackerTotals where
  beforeCarbon : JsNum
  afterCarbon : JsNum
  totalCarbonChange : JsNum
deriving DecidableEq

/-- The part of the `data.class_names.map` callback of `calculateCarbonMetrics` that
updates `beforeCarbon` and `afterCarbon`, on doubles. -/
def carbonStep (beforeProbs afterProbs : List ℚ) (assumedAreaKm2 : JsNum)
    (acc : JsNum × JsNum) (className : String) (index : ℕ) : JsNum × JsNum :=
  let beforeArea := mul (orElse (beforeProbs[index]?.map literal) (literal 0)) assumedAreaKm2
  let afterArea := mul (orElse (afterProbs[index]?.map literal) (literal 0)) assumedAreaKm2
  let factor :=
    orElse ((CarbonImpactTracker.carbonFactors className).map literal) (literal 0)
  let beforeCO2 := mul beforeArea factor
  let afterCO2 := mul afterArea factor
  (add acc.1 beforeCO2, add acc.2 afterCO2)

/-- The closure `calculateCarbonMetrics(data)` on doubles, restricted to `beforeCarbon`,
`afterCarbon` and `totalCarbonChange`; `none` is `null`. -/
def calculateCarbonMetrics (data : Option Analysis) : Option TrackerTotals :=
  match data with
  | none => none
  | some d =>
    match d.before, d.after, d.class_names with
    | some before, some after, some classNames =>
      let beforeProbs := jsOrObj before.probs []
      let afterProbs := jsOrObj after.probs []
      let assumedAreaKm2 := literal 100
      let acc := forEachIdx (carbonStep beforeProbs afterProbs assumedAreaKm2) classNames 0
        (literal 0, literal 0)
      some
        { beforeCarbon := acc.1
          afterCarbon := acc.2
          totalCarbonChange := sub acc.2 acc.1 }
    | _, _, _ => none

end Binary64

/-! ## Specification-side vocabulary -/

/-- The factor of a class as the specification words it: the caller's table entry when a
table is supplied, otherwise the default table entry, and `0` when the class is not in the
table. -/
def specFactor (supplied : Option FactorTable) (dflt : FactorTable) (c : String) : ℚ :=
  match supplied with
  | some table => (table c).getD 0
  | none => (dflt c).getD 0

/-- The after-probability of a named class as the specification words it: the entry at the
first position of the class in `classNames`, and `0` when the class or the entry is absent. -/
def specProb (classNames : List String) (probs : List ℚ) (c : String) : ℚ :=
  if c ∈ classNames then probs.getD (classNames.indexOf c) 0 else 0

/-- The records of `resultsByClass` as a plain list: one per class name, the index counting
from `i`. -/
def recordsFrom (carbonFactors oxygenFactors : FactorTable) (assumedAreaKm2 : ℚ)
    (beforeProbs afterProbs : List ℚ) : List String → ℕ → List ClassRecord
  | [], _ => []
  | c :: cs, i =>
    classRecord carbonFactors oxygenFactors assumedAreaKm2 beforeProbs afterProbs c i
      :: recordsFrom carbonFactors oxygenFactors assumedAreaKm2 beforeProbs afterProbs cs (i + 1)

/-- The list `resultsByClass` of an analysis with the given class names, as a plain list. -/
def recordsOf (a : Analysis) (o : EstimatorOptions) (names : List String) : List ClassRecord :=
  recordsFrom (jsOrObj o.carbonFactors DEFAULT_CARBON_FACTORS)
    (jsOrObj o.oxygenFactors DEFAULT_OXYGEN_FACTORS) (jsOr o.assumedAreaKm2 100)
    (probsOf a.before) (probsOf a.after) names 0

/-- The elapsed years `(after_year || 2020) - (before_year || 2010)`. -/
def yearsOf (a : Analysis) : ℤ := jsOr a.after_year 2020 - jsOr a.before_year 2010

/-- The transition strength of the ordered index pair `(i, j)` as the specification words
it, in percentage points. -/
def specStrength (bp ap : List ℚ) (i j : ℕ) : ℚ :=
  min (max 0 (100 * bp.getD i 0 - 100 * ap.getD i 0))
    (max 0 (100 * ap.getD j 0 - 100 * bp.getD j 0))

/-- The reference definition of the transition candidates: over all ordered pairs of
distinct class indices, in row order, the pairs of strength above 0.5, each carrying its
strength. -/
def specQualifying (names : List String) (bp ap : List ℚ) : List Transition :=
  names.enum.flatMap (fun p => names.enum.flatMap (fun q =>
    if p.1 ≠ q.1 ∧ specStrength bp ap p.1 q.1 > 5 / 10 then
      [{ fromClass := p.2
         toClass := q.2
         strength := specStrength bp ap p.1 q.1
         percentage := specStrength bp ap p.1 q.1 }]
    else []))

/-- The probability vector that is one-hot on class `c`: 1 at the positions of `c` and 0
elsewhere. -/
def oneHot (names : List String) (c : String) : List ℚ :=
  names.map (fun n => if n = c then 1 else 0)

/-- The snapshot can be read by `snapshot?.probs[index]`: it is missing, or it carries a
`probs` array. -/
def snapshotReadable (s : Option Snapshot) : Bool :=
  match s with
  | none => true
  | some x => x.probs.isSome

/-- The heatmap entry of a class as the specification words it, from the before and after
probabilities `b` and `a`: the two percentages, their difference in percentage points and
the trend by the one-point deadband; `size` is the mean percentage with the floor of 5
and `area` the mean percentage itself. -/
def specHeatmapEntry (name : String) (b a : ℚ) : HeatmapEntry :=
  { name := name
    before := 100 * b
    after := 100 * a
    change := 100 * a - 100 * b
    absChange := |100 * a - 100 * b|
    size := max ((100 * b + 100 * a) / 2) 5
    trend :=
      if 100 * a - 100 * b > 1 then "increasing"
      else if 100 * a - 100 * b < -1 then "decreasing"
      else "stable"
    intensity := min (2 * |100 * a - 100 * b|) 100
    area := (100 * b + 100 * a) / 2 }

/-- The probability vector with each absent entry below index `n` replaced by 0. -/
def zeroFill (n : ℕ) (probs : List ℚ) : List ℚ :=
  probs ++ List.replicate (n - probs.length) 0

/-- The analysis with the absent probability entries of both snapshots replaced by 0, for
`n` class names. -/
def zeroFillAnalysis (n : ℕ) (d : Analysis) (b af : Snapshot) : Analysis :=
  { d with
    before := some { b with probs := some (zeroFill n (jsOrObj b.probs [])) }
    after := some { af with probs := some (zeroFill n (jsOrObj af.probs [])) } }

/-- The content of a narrative sentence: which template (CO2 or O2), which verb, the
rounded magnitude and the class name. -/
structure SentenceParts where
  carbon : Bool
  lost : Bool
  magnitude : ℤ
  className : String
deriving DecidableEq

/-- The sentence with the given content, in the wording of the two templates. -/
def renderSentence (toLocaleString : ℤ → String) (years : ℤ) (s : SentenceParts) : String :=
  if s.carbon then
    "Region changed " ++ (if s.lost then "lost" else "gained") ++ " approximately "
      ++ toLocaleString s.magnitude ++ " tons CO₂ capacity from " ++ s.className ++ " over "
      ++ yearsText years ++ "."
  else
    "Region " ++ (if s.lost then "lost" else "gained") ++ " approximately "
      ++ toLocaleString s.magnitude ++ " tons O₂ production capacity from " ++ s.className
      ++ " over " ++ yearsText years ++ "."

/-- The same content with the other verb. -/
def SentenceParts.flip (s : SentenceParts) : SentenceParts :=
  { s with lost := !s.lost }

/-- The contents of the sentences that one class record yields: the CO2 sentence when
`|carbonChange| > 1`, then the O2 sentence when `|oxygenChange| > 1`. -/
def partsOf (r : ClassRecord) : List SentenceParts :=
  (if |r.carbonChange| > 1 then
    [{ carbon := true, lost := decide (r.carbonChange < 0),
       magnitude := mathRound |r.carbonChange|, className := r.className }]
  else [])
  ++ (if |r.oxygenChange| > 1 then
    [{ carbon := false, lost := decide (r.oxygenChange < 0),
       magnitude := mathRound |r.oxygenChange|, className := r.className }]
  else [])

/-- The class record with the roles of before and after exchanged. -/
def swapRecord (r : ClassRecord) : ClassRecord :=
  { className := r.className
    areaBeforeKm2 := r.areaAfterKm2
    areaAfterKm2 := r.areaBeforeKm2
    hectaresBefore := r.hectaresAfter
    hectaresAfter := r.hectaresBefore
    carbonBefore := r.carbonAfter
    carbonAfter := r.carbonBefore
    oxygenBefore := r.oxygenAfter
    oxygenAfter := r.oxygenBefore
    carbonChange := -r.carbonChange
    oxygenChange := -r.oxygenChange }

/-- The items the `map` callback of `calculateCarbonMetrics` produces, as a plain list: one
per class name, the index counting from `i`. -/
def carbonItemsFrom (beforeProbs afterProbs : List ℚ) (assumedAreaKm2 : ℚ) :
    List String → ℕ → List CarbonImpactTracker.CarbonClass
  | [], _ => []
  | c :: cs, i =>
    CarbonImpactTracker.carbonItem beforeProbs afterProbs assumedAreaKm2 c i
      :: carbonItemsFrom beforeProbs afterProbs assumedAreaKm2 cs (i + 1)

/-- The per-class items of an analysis whose snapshots are `b` and `af`, before the
threshold filter. -/
def carbonItemsOf (b af : Snapshot) (names : List String) :
    List CarbonImpactTracker.CarbonClass :=
  carbonItemsFrom (jsOrObj b.probs []) (jsOrObj af.probs []) 100 names 0

/-- A class is kept in `carbonByClass` when its `|changeCO2|` exceeds `0.1`. -/
def carbonKept (c : CarbonImpactTracker.CarbonClass) : Bool :=
  decide (|c.changeCO2| > 1 / 10)

/-- A class has a small change when `0 < |changeCO2| ≤ 0.1`. -/
def carbonSmall (c : CarbonImpactTracker.CarbonClass) : Bool :=
  decide (0 < |c.changeCO2| ∧ |c.changeCO2| ≤ 1 / 10)

/-- A number is finite: neither `NaN` nor an infinity. -/
def JsNum.isFinite : JsNum → Bool
  | JsNum.fin _ => true
  | _ => false

/-- The object the `beforeProbs.map` callback of `calculateTrendMetrics` returns when
`class_names` is present. -/
def trendItem (afterProbs : List ℚ) (yearsSpan : ℤ) (names : List String) (beforeValue : ℚ)
    (index : ℕ) : TemporalChangeTimeline.TrendChange :=
  { className := names[index]?
    change := (jsOr afterProbs[index]? 0 - beforeValue) * 100
    velocity :=
      JsNum.fin (jsOr afterProbs[index]? 0 - beforeValue) / JsNum.fin yearsSpan * JsNum.fin 100
    trend :=
      if jsOr afterProbs[index]? 0 - beforeValue > 1 / 100 then "increasing"
      else if jsOr afterProbs[index]? 0 - beforeValue < -1 / 100 then "decreasing"
      else "stable" }

/-! ## Concrete inputs -/

/-- A locale formatter without digit grouping. -/
def plainLocale : ℤ → String := fun n => toString n

/-- The identical-snapshots scenario: `[Forest, Industrial]`, `[0.6, 0.4]` on both sides,
2010 and 2020. -/
def identicalScenario : Analysis :=
  { class_names := some ["Forest", "Industrial"]
    before := some ⟨some [6 / 10, 4 / 10], some (6 / 10)⟩
    after := some ⟨some [6 / 10, 4 / 10], some (6 / 10)⟩
    before_year := some 2010
    after_year := some 2020 }

/-- The full-conversion scenario: `[Forest, Industrial]`, before `[1, 0]`, after `[0, 1]`. -/
def conversionScenario : Analysis :=
  { class_names := some ["Forest", "Industrial"]
    before := some ⟨some [1, 0], some 1⟩
    after := some ⟨some [0, 1], some 1⟩
    before_year := some 2010
    after_year := some 2020 }

/-- An analysis whose class list is the empty array. -/
def emptyClassesScenario : Analysis :=
  { class_names := some []
    before := some ⟨some [], none⟩
    after := some ⟨some [], none⟩
    before_year := some 2010
    after_year := some 2020 }

/-- An analysis without the `class_names` property. -/
def noClassNamesScenario : Analysis :=
  { class_names := none
    before := some ⟨some [1, 0], some 1⟩
    after := some ⟨some [0, 1], some 1⟩
    before_year := some 2010
    after_year := some 2020 }

/-- A three-class analysis in which River does not change and Forest gives way to
Industrial: before `[0.5, 0.2, 0.3]`, after `[0.3, 0.2, 0.5]`, 2019 and 2020. -/
def mixedScenario : Analysis :=
  { class_names := some ["Forest", "River", "Industrial"]
    before := some ⟨some [5 / 10, 2 / 10, 3 / 10], some (5 / 10)⟩
    after := some ⟨some [3 / 10, 2 / 10, 5 / 10], some (5 / 10)⟩
    before_year := some 2019
    after_year := some 2020 }

/-- A valid analysis whose after-probabilities do not sum to 1: River and SeaLake both at
probability 1. -/
def riverSeaScenario : Analysis :=
  { class_names := some ["River", "SeaLake"]
    before := some ⟨some [1, 0], some 1⟩
    after := some ⟨some [1, 1], some 1⟩
    before_year := some 2010
    after_year := some 2020 }

/-- An analysis whose first class name is the empty string: both classes at probability
0.5 before and after. -/
def emptyNameScenario : Analysis :=
  { class_names := some ["", "Forest"]
    before := some ⟨some [5 / 10, 5 / 10], some (5 / 10)⟩
    after := some ⟨some [5 / 10, 5 / 10], some (5 / 10)⟩
    before_year := some 2010
    after_year := some 2020 }

/-- An analysis with a small class: River at probability 0.02 before and after. -/
def smallAreaScenario : Analysis :=
  { class_names := some ["Forest", "River"]
    before := some ⟨some [98 / 100, 2 / 100], some (98 / 100)⟩
    after := some ⟨some [98 / 100, 2 / 100], some (98 / 100)⟩
    before_year := some 2010
    after_year := some 2020 }

/-- A two-class analysis without the Forest class: the River share shrinks and the
Industrial share grows. -/
def noForestScenario : Analysis :=
  { class_names := some ["River", "Industrial"]
    before := some ⟨some [7 / 10, 3 / 10], some (7 / 10)⟩
    after := some ⟨some [5 / 10, 5 / 10], some (5 / 10)⟩
    before_year := some 2010
    after_year := some 2020 }

/-- An analysis whose before snapshot is missing entirely. -/
def noBeforeScenario : Analysis :=
  { class_names := some ["Forest", "Industrial"]
    before := none
    after := some ⟨some [6 / 10, 4 / 10], some (6 / 10)⟩
    before_year := some 2010
    after_year := some 2020 }

/-- An analysis with both snapshots present whose probability vectors are all zero. -/
def allZeroScenario : Analysis :=
  { class_names := some ["Forest", "Industrial"]
    before := some ⟨some [0, 0], some (5 / 10)⟩
    after := some ⟨some [0, 0], some (5 / 10)⟩
    before_year := some 2010
    after_year := some 2020 }

/-- An analysis whose probability vectors are shorter than the class list. -/
def shortVectorScenario : Analysis :=
  { class_names := some ["Forest", "River", "Industrial"]
    before := some ⟨some [6 / 10, 4 / 10], some (6 / 10)⟩
    after := some ⟨some [3 / 10], some (3 / 10)⟩
    before_year := some 2010
    after_year := some 2020 }

/-- The three-class analysis of `mixedScenario` with both years equal to 2015. -/
def sameYearScenario : Analysis :=
  { class_names := some ["Forest", "River", "Industrial"]
    before := some ⟨some [5 / 10, 2 / 10, 3 / 10], some (5 / 10)⟩
    after := some ⟨some [3 / 10, 2 / 10, 5 / 10], some (5 / 10)⟩
    before_year := some 2015
    after_year := some 2015 }

/-- A three-class analysis in which the SeaLake share moves by one thousandth: before
`[0.5, 0.2, 0.3]`, after `[0.4, 0.201, 0.399]`. -/
def tinyChangeScenario : Analysis :=
  { class_names := some ["Forest", "SeaLake", "Industrial"]
    before := some ⟨some [5 / 10, 2 / 10, 3 / 10], some (5 / 10)⟩
    after := some ⟨some [4 / 10, 201 / 1000, 399 / 1000], some (4 / 10)⟩
    before_year := some 2010
    after_year := some 2020 }

/-- The three-class analysis of `mixedScenario` without the two year properties. -/
def noYearsScenario : Analysis :=
  { class_names := some ["Forest", "River", "Industrial"]
    before := some ⟨some [5 / 10, 2 / 10, 3 / 10], some (5 / 10)⟩
    after := some ⟨some [3 / 10, 2 / 10, 5 / 10], some (5 / 10)⟩
    before_year := none
    after_year := none }

/-! ## Lemmas on the primitives -/

theorem jsOr_zero (x : Option ℚ) : jsOr x 0 = x.getD 0 := by
  cases x with
  | none => rfl
  | some v =>
    by_cases h : v = 0
    · simp [jsOr, h]
    · simp [jsOr, h]

theorem jsOr_getElem?_zero (l : List ℚ) (i : ℕ) : jsOr l[i]? 0 = l.getD i 0 := by
  rw [jsOr_zero, List.getD_eq_getElem?_getD]

theorem jsOr_table (supplied : Option FactorTable) (dflt : FactorTable) (c : String) :
    jsOr (jsOrObj supplied dflt c) 0 = specFactor supplied dflt c := by
  cases supplied <;> simp [jsOrObj, specFactor, jsOr_zero]

/-! ## The `classNames.forEach` loop -/

section Loop

variable (cf oxf : FactorTable) (area : ℚ) (bp ap : List ℚ)

theorem forEachIdx_classStep_results (names : List String) (i : ℕ) (t : Totals) :
    (forEachIdx (classStep cf oxf area bp ap) names i t).resultsByClass
      = t.resultsByClass ++ recordsFrom cf oxf area bp ap names i := by
  induction names generalizing i t with
  | nil => simp [forEachIdx, recordsFrom]
  | cons c cs ih => simp [forEachIdx, recordsFrom, ih, classStep]

theorem forEachIdx_classStep_carbonBefore (names : List String) (i : ℕ) (t : Totals) :
    (forEachIdx (classStep cf oxf area bp ap) names i t).totalCarbonBefore
      = t.totalCarbonBefore
        + ((recordsFrom cf oxf area bp ap names i).map (·.carbonBefore)).sum := by
  induction names generalizing i t with
  | nil => simp [forEachIdx, recordsFrom]
  | cons c cs ih => simp [forEachIdx, recordsFrom, ih, classStep, add_assoc]

theorem forEachIdx_classStep_carbonAfter (names : List String) (i : ℕ) (t : Totals) :
    (forEachIdx (classStep cf oxf area bp ap) names i t).totalCarbonAfter
      = t.totalCarbonAfter
        + ((recordsFrom cf oxf area bp ap names i).map (·.carbonAfter)).sum := by
  induction names generalizing i t with
  | nil => simp [forEachIdx, recordsFrom]
  | cons c cs ih => simp [forEachIdx, recordsFrom, ih, classStep, add_assoc]

theorem forEachIdx_classStep_oxygenBefore (names : List String) (i : ℕ) (t : Totals) :
    (forEachIdx (classStep cf oxf area bp ap) names i t).totalOxygenBefore
      = t.totalOxygenBefore
        + ((recordsFrom cf oxf area bp ap names i).map (·.oxygenBefore)).sum := by
  induction names generalizing i t with
  | nil => simp [forEachIdx, recordsFrom]
  | cons c cs ih => simp [forEachIdx, recordsFrom, ih, classStep, add_assoc]

theorem forEachIdx_classStep_oxygenAfter (names : List String) (i : ℕ) (t : Totals) :
    (forEachIdx (classStep cf oxf area bp ap) names i t).totalOxygenAfter
      = t.totalOxygenAfter
        + ((recordsFrom cf oxf area bp ap names i).map (·.oxygenAfter)).sum := by
  induction names generalizing i t with
  | nil => simp [forEachIdx, recordsFrom]
  | cons c cs ih => simp [forEachIdx, recordsFrom, ih, classStep, add_assoc]

theorem recordsFrom_length (names : List String) (i : ℕ) :
    (recordsFrom cf oxf area bp ap names i).length = names.length := by
  induction names generalizing i with
  | nil => rfl
  | cons c cs ih => simp [recordsFrom, ih]

theorem recordsFrom_map_className (names : List String) (i : ℕ) :
    (recordsFrom cf oxf area bp ap names i).map (·.className) = names := by
  induction names generalizing i with
  | nil => rfl
  | cons c cs ih => simp [recordsFrom, ih, classRecord]

theorem recordsFrom_getElem? (names : List String) (i j : ℕ) (hj : j < names.length) :
    (recordsFrom cf oxf area bp ap names i)[j]?
      = some (classRecord cf oxf area bp ap (names.get ⟨j, hj⟩) (i + j)) := by
  induction names generalizing i j with
  | nil => simp at hj
  | cons c cs ih =>
    cases j with
    | zero => simp [recordsFrom]
    | succ k =>
      have hk : k < cs.length := by simpa using hj
      simp only [recordsFrom, List.getElem?_cons_succ, List.get_cons_succ]
      rw [ih (i + 1) k hk]
      congr 2
      omega

theorem recordsFrom_change_of_eq (names : List String) (i : ℕ) :
    ∀ r ∈ recordsFrom cf oxf area bp bp names i, r.carbonChange = 0 ∧ r.oxygenChange = 0 := by
  induction names generalizing i with
  | nil => simp [recordsFrom]
  | cons c cs ih =>
    intro r hr
    simp only [recordsFrom, List.mem_cons] at hr
    rcases hr with rfl | hr
    · simp [classRecord]
    · exact ih (i + 1) r hr

end Loop

theorem recordsFrom_sum_carbonChange (cf oxf : FactorTable) (area : ℚ) (bp ap : List ℚ)
    (names : List String) (i : ℕ) :
    ((recordsFrom cf oxf area bp ap names i).map (·.carbonChange)).sum
      = ((recordsFrom cf oxf area bp ap names i).map (·.carbonAfter)).sum
        - ((recordsFrom cf oxf area bp ap names i).map (·.carbonBefore)).sum := by
  induction names generalizing i with
  | nil => simp [recordsFrom]
  | cons c cs ih =>
    simp only [recordsFrom, List.map_cons, List.sum_cons, ih]
    simp only [classRecord]
    ring

theorem recordsFrom_sum_oxygenChange (cf oxf : FactorTable) (area : ℚ) (bp ap : List ℚ)
    (names : List String) (i : ℕ) :
    ((recordsFrom cf oxf area bp ap names i).map (·.oxygenChange)).sum
      = ((recordsFrom cf oxf area bp ap names i).map (·.oxygenAfter)).sum
        - ((recordsFrom cf oxf area bp ap names i).map (·.oxygenBefore)).sum := by
  induction names generalizing i with
  | nil => simp [recordsFrom]
  | cons c cs ih =>
    simp only [recordsFrom, List.map_cons, List.sum_cons, ih]
    simp only [classRecord]
    ring

/-- The estimator in closed form: with class names present it returns the summary built
from `recordsOf`. -/
theorem estimate_eq (fmt : ℤ → String) (a : Analysis) (o : EstimatorOptions)
    (names : List String) (h : a.class_names = some names) :
    estimateCarbonAndOxygen fmt (some a) o = some
      { totalCarbonBefore := ((recordsOf a o names).map (·.carbonBefore)).sum
        totalCarbonAfter := ((recordsOf a o names).map (·.carbonAfter)).sum
        totalCarbonChange := ((recordsOf a o names).map (·.carbonAfter)).sum
          - ((recordsOf a o names).map (·.carbonBefore)).sum
        totalOxygenBefore := ((recordsOf a o names).map (·.oxygenBefore)).sum
        totalOxygenAfter := ((recordsOf a o names).map (·.oxygenAfter)).sum
        totalOxygenChange := ((recordsOf a o names).map (·.oxygenAfter)).sum
          - ((recordsOf a o names).map (·.oxygenBefore)).sum
        years := yearsOf a
        resultsByClass := recordsOf a o names
        sentences := pushSentences fmt (yearsOf a) (significant (recordsOf a o names)) } := by
  simp only [estimateCarbonAndOxygen, h, forEachIdx_classStep_results,
    forEachIdx_classStep_carbonBefore, forEachIdx_classStep_carbonAfter,
    forEachIdx_classStep_oxygenBefore, forEachIdx_classStep_oxygenAfter, Totals.init,
    List.nil_append, zero_add, recordsOf, yearsOf]

theorem significant_nil_of_no_change (recs : List ClassRecord)
    (h : ∀ r ∈ recs, r.carbonChange = 0 ∧ r.oxygenChange = 0) : significant recs = [] := by
  have hf : recs.filter isSignificant = [] := by
    rw [List.filter_eq_nil_iff]
    intro r hr
    obtain ⟨h1, h2⟩ := h r hr
    simp [isSignificant, h1, h2]
  simp [significant, hf, jsSort]

/-! ## The carbon and oxygen estimator: records and totals -/

/-- C1: for an analysis with class names, `resultsByClass` holds one record per class name
in `class_names` order, and the record at index `i` has the areas `probs[i] * assumedAreaKm2`
(a missing entry reading as 0), hectares `km2 * 100`, carbon and oxygen values
`hectares * factor` and changes `after - before`; the factor is the caller's table entry
when a table is supplied, otherwise the default entry, and 0 when the class is not in the
table.  The area is the caller's value when it is supplied and non-zero, and 100 when it is
not supplied.  The default tables give Forest 10.5 / 6.6 and Industrial -8.7 / -2.5. -/
theorem estimate_resultsByClass_spec (fmt : ℤ → String) (a : Analysis)
    (o : EstimatorOptions) (names : List String) (h : a.class_names = some names) :
    ∃ s, estimateCarbonAndOxygen fmt (some a) o = some s ∧
      s.resultsByClass.length = names.length ∧
      s.resultsByClass.map (·.className) = names ∧
      (∀ i (hi : i < names.length), ∃ r, s.resultsByClass[i]? = some r ∧
        r.className = names.get ⟨i, hi⟩ ∧
        r.areaBeforeKm2 = (probsOf a.before).getD i 0 * jsOr o.assumedAreaKm2 100 ∧
        r.areaAfterKm2 = (probsOf a.after).getD i 0 * jsOr o.assumedAreaKm2 100 ∧
        r.hectaresBefore = r.areaBeforeKm2 * 100 ∧
        r.hectaresAfter = r.areaAfterKm2 * 100 ∧
        r.carbonBefore
          = r.hectaresBefore * specFactor o.carbonFactors DEFAULT_CARBON_FACTORS r.className ∧
        r.carbonAfter
          = r.hectaresAfter * specFactor o.carbonFactors DEFAULT_CARBON_FACTORS r.className ∧
        r.oxygenBefore
          = r.hectaresBefore * specFactor o.oxygenFactors DEFAULT_OXYGEN_FACTORS r.className ∧
        r.oxygenAfter
          = r.hectaresAfter * specFactor o.oxygenFactors DEFAULT_OXYGEN_FACTORS r.className ∧
        r.carbonChange = r.carbonAfter - r.carbonBefore ∧
        r.oxygenChange = r.oxygenAfter - r.oxygenBefore) ∧
      (∀ x, o.assumedAreaKm2 = some x → x ≠ 0 → jsOr o.assumedAreaKm2 100 = x) ∧
      (o.assumedAreaKm2 = none → jsOr o.assumedAreaKm2 100 = 100) ∧
      DEFAULT_CARBON_FACTORS "Forest" = some (105 / 10) ∧
      DEFAULT_OXYGEN_FACTORS "Forest" = some (66 / 10) ∧
      DEFAULT_CARBON_FACTORS "Industrial" = some (-87 / 10) ∧
      DEFAULT_OXYGEN_FACTORS "Industrial" = some (-25 / 10) := by
  refine ⟨_, estimate_eq fmt a o names h, ?_, ?_, ?_, ?_, ?_, ?_, ?_, ?_, ?_⟩
  · exact recordsFrom_length _ _ _ _ _ names 0
  · exact recordsFrom_map_className _ _ _ _ _ names 0
  · intro i hi
    refine ⟨_, recordsFrom_getElem? _ _ _ _ _ names 0 i hi, ?_⟩
    simp only [classRecord, jsOr_getElem?_zero, jsOr_table, km2ToHectares, zero_add]
    simp
  · intro x hx hx0
    simp [hx, jsOr, hx0]
  · intro hx
    simp [hx, jsOr]
  · simp [DEFAULT_CARBON_FACTORS]
  · simp [DEFAULT_OXYGEN_FACTORS]
  · simp [DEFAULT_CARBON_FACTORS]
  · simp [DEFAULT_OXYGEN_FACTORS]

/-- C1 at the identical-snapshots scenario with the default options: two records, named
Forest and Industrial in that order. -/
theorem estimate_resultsByClass_spec_witness :
    identicalScenario.class_names = some ["Forest", "Industrial"] ∧
    ∃ s, estimateCarbonAndOxygen plainLocale (some identicalScenario) EstimatorOptions.empty
        = some s ∧
      s.resultsByClass.length = 2 ∧
      s.resultsByClass.map (·.className) = ["Forest", "Industrial"] := by
  refine ⟨rfl, ?_⟩
  obtain ⟨s, hs, hlen, hnames, _⟩ :=
    estimate_resultsByClass_spec plainLocale identicalScenario EstimatorOptions.empty
      ["Forest", "Industrial"] rfl
  exact ⟨s, hs, hlen, hnames⟩

/-- C2: for an analysis with class names, each total is the sum over all classes of the
per-class value, each total change is `totalAfter - totalBefore`, and it equals the sum of
the per-class changes; for carbon and for oxygen. -/
theorem estimate_totals_spec (fmt : ℤ → String) (a : Analysis) (o : EstimatorOptions)
    (names : List String) (h : a.class_names = some names) :
    ∃ s, estimateCarbonAndOxygen fmt (some a) o = some s ∧
      s.totalCarbonBefore = (s.resultsByClass.map (·.carbonBefore)).sum ∧
      s.totalCarbonAfter = (s.resultsByClass.map (·.carbonAfter)).sum ∧
      s.totalCarbonChange = s.totalCarbonAfter - s.totalCarbonBefore ∧
      s.totalCarbonChange = (s.resultsByClass.map (·.carbonChange)).sum ∧
      s.totalOxygenBefore = (s.resultsByClass.map (·.oxygenBefore)).sum ∧
      s.totalOxygenAfter = (s.resultsByClass.map (·.oxygenAfter)).sum ∧
      s.totalOxygenChange = s.totalOxygenAfter - s.totalOxygenBefore ∧
      s.totalOxygenChange = (s.resultsByClass.map (·.oxygenChange)).sum ∧
      s.resultsByClass.map (·.className) = names := by
  refine ⟨_, estimate_eq fmt a o names h, rfl, rfl, rfl, ?_, rfl, rfl, rfl, ?_, ?_⟩
  · exact (recordsFrom_sum_carbonChange _ _ _ _ _ names 0).symm
  · exact (recordsFrom_sum_oxygenChange _ _ _ _ _ names 0).symm
  · exact recordsFrom_map_className _ _ _ _ _ names 0

/-- C2 at the full-conversion scenario with the default options. -/
theorem estimate_totals_spec_witness :
    conversionScenario.class_names = some ["Forest", "Industrial"] ∧
    ∃ s, estimateCarbonAndOxygen plainLocale (some conversionScenario) EstimatorOptions.empty
        = some s ∧
      s.totalCarbonChange = s.totalCarbonAfter - s.totalCarbonBefore ∧
      s.totalCarbonChange = (s.resultsByClass.map (·.carbonChange)).sum ∧
      s.totalOxygenChange = (s.resultsByClass.map (·.oxygenChange)).sum ∧
      s.resultsByClass.map (·.className) = ["Forest", "Industrial"] := by
  refine ⟨rfl, ?_⟩
  obtain ⟨s, hs, _, _, h3, h4, _, _, _, h8, h9⟩ :=
    estimate_totals_spec plainLocale conversionScenario EstimatorOptions.empty
      ["Forest", "Industrial"] rfl
  exact ⟨s, hs, h3, h4, h8, h9⟩

/-- C3: for an analysis with class names whose before and after probability vectors are
identical, whatever the class list, factor tables, area and years, `totalCarbonChange` and
`totalOxygenChange` are 0 and `sentences` is empty. -/
theorem estimate_identical_snapshots (fmt : ℤ → String) (a : Analysis)
    (o : EstimatorOptions) (names : List String) (h : a.class_names = some names)
    (hp : probsOf a.before = probsOf a.after) :
    ∃ s, estimateCarbonAndOxygen fmt (some a) o = some s ∧
      s.totalCarbonChange = 0 ∧ s.totalOxygenChange = 0 ∧ s.sentences = [] := by
  have hrec : ∀ r ∈ recordsOf a o names, r.carbonChange = 0 ∧ r.oxygenChange = 0 := by
    unfold recordsOf
    rw [hp]
    exact recordsFrom_change_of_eq _ _ _ _ names 0
  refine ⟨_, estimate_eq fmt a o names h, ?_, ?_, ?_⟩
  · show ((recordsOf a o names).map (·.carbonAfter)).sum
      - ((recordsOf a o names).map (·.carbonBefore)).sum = 0
    unfold recordsOf
    rw [← recordsFrom_sum_carbonChange]
    apply List.sum_eq_zero
    intro x hx
    obtain ⟨r, hr, rfl⟩ := List.mem_map.mp hx
    exact (hrec r hr).1
  · show ((recordsOf a o names).map (·.oxygenAfter)).sum
      - ((recordsOf a o names).map (·.oxygenBefore)).sum = 0
    unfold recordsOf
    rw [← recordsFrom_sum_oxygenChange]
    apply List.sum_eq_zero
    intro x hx
    obtain ⟨r, hr, rfl⟩ := List.mem_map.mp hx
    exact (hrec r hr).2
  · show pushSentences fmt (yearsOf a) (significant (recordsOf a o names)) = []
    rw [significant_nil_of_no_change _ hrec]
    rfl

/-- C3 at the scenario of the specification: `[Forest, Industrial]`, `[0.6, 0.4]` on both
sides, 2010 and 2020. -/
theorem estimate_identical_snapshots_witness :
    identicalScenario.class_names = some ["Forest", "Industrial"] ∧
    probsOf identicalScenario.before = probsOf identicalScenario.after ∧
    ∃ s, estimateCarbonAndOxygen plainLocale (some identicalScenario) EstimatorOptions.empty
        = some s ∧
      s.totalCarbonChange = 0 ∧ s.totalOxygenChange = 0 ∧ s.sentences = [] :=
  ⟨rfl, rfl, estimate_identical_snapshots plainLocale identicalScenario EstimatorOptions.empty
    ["Forest", "Industrial"] rfl rfl⟩

/-- C4: the estimator returns `null` when the analysis argument is absent and when the
analysis has no `class_names`; the function is total, so no input makes it throw. -/
theorem estimate_null_without_class_names (fmt : ℤ → String) (o : EstimatorOptions) :
    estimateCarbonAndOxygen fmt none o = none ∧
    ∀ a : Analysis, a.class_names = none → estimateCarbonAndOxygen fmt (some a) o = none := by
  refine ⟨rfl, ?_⟩
  intro a h
  simp [estimateCarbonAndOxygen, h]

/-- C4 at an analysis that has both snapshots but no `class_names`. -/
theorem estimate_null_without_class_names_witness :
    noClassNamesScenario.class_names = none ∧
    estimateCarbonAndOxygen plainLocale (some noClassNamesScenario) EstimatorOptions.empty
      = none :=
  ⟨rfl, (estimate_null_without_class_names plainLocale EstimatorOptions.empty).2
    noClassNamesScenario rfl⟩

/-- C5 as stated fails: for the empty class list the estimator does not return `null`. -/
theorem estimate_empty_class_list_not_null :
    estimateCarbonAndOxygen plainLocale (some emptyClassesScenario) EstimatorOptions.empty
      ≠ none := by
  simp [estimateCarbonAndOxygen, emptyClassesScenario]

/-- C5 amended: for an analysis whose `class_names` is the empty list the estimator returns
a summary (not `null`) whose six totals are 0 and whose `resultsByClass` and `sentences`
are empty; the function is total, so it does not throw.  It returns `null` only when the
analysis or its `class_names` property is absent. -/
theorem estimate_empty_class_list (fmt : ℤ → String) (a : Analysis) (o : EstimatorOptions)
    (h : a.class_names = some []) :
    estimateCarbonAndOxygen fmt (some a) o = some
      { totalCarbonBefore := 0
        totalCarbonAfter := 0
        totalCarbonChange := 0
        totalOxygenBefore := 0
        totalOxygenAfter := 0
        totalOxygenChange := 0
        years := jsOr a.after_year 2020 - jsOr a.before_year 2010
        resultsByClass := []
        sentences := [] }
      ∧ ∀ x : Option Analysis, estimateCarbonAndOxygen fmt x o = none
          ↔ (x = none ∨ ∃ y, x = some y ∧ y.class_names = none) := by
  constructor
  · rw [estimate_eq fmt a o [] h]
    simp [recordsOf, recordsFrom, significant, jsSort, pushSentences, yearsOf]
  · intro x
    cases x with
    | none => simp [estimateCarbonAndOxygen]
    | some y =>
      cases hy : y.class_names with
      | none => simp [estimateCarbonAndOxygen, hy]
      | some names => simp [estimate_eq fmt y o names hy, hy]

/-- C5 amended, at the empty-class-list scenario: a summary with `years = 10`. -/
theorem estimate_empty_class_list_witness :
    emptyClassesScenario.class_names = some [] ∧
    estimateCarbonAndOxygen plainLocale (some emptyClassesScenario) EstimatorOptions.empty
      = some ⟨0, 0, 0, 0, 0, 0, 10, [], []⟩ := by
  refine ⟨rfl, ?_⟩
  rw [(estimate_empty_class_list plainLocale emptyClassesScenario EstimatorOptions.empty
    rfl).1]
  simp [emptyClassesScenario, jsOr]

/-! ## Sorting by a descending key -/

section SortByKey

variable {α : Type} (key : α → ℚ)

theorem jsSort_perm (cmp : α → α → ℚ) (l : List α) : (jsSort cmp l).Perm l :=
  List.perm_insertionSort _ l

/-- Sorting with the comparator `key b - key a` leaves the keys in non-increasing order. -/
theorem jsSort_desc_pairwise (l : List α) :
    (jsSort (fun a b => key b - key a) l).Pairwise (fun x y => key x ≥ key y) := by
  have total : IsTotal α (fun a b => key b - key a ≤ 0) :=
    ⟨fun a b => by
      rcases le_total (key a) (key b) with h | h
      · right; linarith
      · left; linarith⟩
  have trans : IsTrans α (fun a b => key b - key a ≤ 0) :=
    ⟨fun a b c hab hbc => by
      have h1 : key b - key a ≤ 0 := hab
      have h2 : key c - key b ≤ 0 := hbc
      show key c - key a ≤ 0
      linarith⟩
  have hs := List.sorted_insertionSort (fun a b => key b - key a ≤ 0) l
  refine List.Pairwise.imp ?_ hs
  intro a b hab
  have h1 : key b - key a ≤ 0 := hab
  show key b ≤ key a
  linarith

/-- The sort is stable: the elements of any one key value keep their order. -/
theorem jsSort_desc_stable (l : List α) (k : ℚ) :
    (jsSort (fun a b => key b - key a) l).filter (fun x => decide (key x = k))
      = l.filter (fun x => decide (key x = k)) := by
  set p : α → Bool := fun x => decide (key x = k) with hp
  have hsub : List.Sublist (l.filter p) l := List.filter_sublist l
  have hpw : (l.filter p).Pairwise (fun a b => key b - key a ≤ 0) := by
    apply List.pairwise_of_forall_mem_list
    intro a ha b hb
    have h1 : key a = k := by simpa [hp] using (List.mem_filter.mp ha).2
    have h2 : key b = k := by simpa [hp] using (List.mem_filter.mp hb).2
    show key b - key a ≤ 0
    rw [h1, h2]; simp
  have h1 : List.Sublist (l.filter p) (jsSort (fun a b => key b - key a) l) :=
    List.sublist_insertionSort hpw hsub
  have h2 : List.Sublist ((l.filter p).filter p)
      ((jsSort (fun a b => key b - key a) l).filter p) :=
    h1.filter p
  have h3 : (l.filter p).filter p = l.filter p := by
    rw [List.filter_filter]; simp
  rw [h3] at h2
  have hlen : (l.filter p).length = ((jsSort (fun a b => key b - key a) l).filter p).length :=
    ((jsSort_perm _ l).filter p).length_eq.symm
  exact (h2.eq_of_length hlen).symm

end SortByKey

/-! ## The narrative sentences -/

theorem foldl_push_eq_append {α β : Type} (f : α → List β) (l : List α) (init : List β) :
    l.foldl (fun acc r => acc ++ f r) init = init ++ l.flatMap f := by
  induction l generalizing init with
  | nil => simp
  | cons x xs ih => simp [ih, List.flatMap_cons, List.append_assoc]

theorem pushSentences_eq_flatMap (fmt : ℤ → String) (years : ℤ) (sig : List ClassRecord) :
    pushSentences fmt years sig = sig.flatMap (sentencesOf fmt years) := by
  simp [pushSentences, foldl_push_eq_append]

theorem sentencesOf_of_not_significant (fmt : ℤ → String) (years : ℤ) (r : ClassRecord)
    (h : isSignificant r = false) : sentencesOf fmt years r = [] := by
  simp only [isSignificant, Bool.or_eq_false_iff, decide_eq_false_iff_not] at h
  simp [sentencesOf, h.1, h.2]

theorem flatMap_filter_significant (fmt : ℤ → String) (years : ℤ) (l : List ClassRecord) :
    (l.filter isSignificant).flatMap (sentencesOf fmt years)
      = l.flatMap (sentencesOf fmt years) := by
  induction l with
  | nil => rfl
  | cons r rs ih =>
    by_cases h : isSignificant r = true
    · simp [List.filter_cons, h, List.flatMap_cons, ih]
    · have h' : isSignificant r = false := by simpa using h
      simp [List.filter_cons, h', List.flatMap_cons, ih,
        sentencesOf_of_not_significant fmt years r h']

theorem flatMap_sentencesOf_perm (fmt : ℤ → String) (years : ℤ) (l : List ClassRecord) :
    (l.flatMap (sentencesOf fmt years)).Perm
      ((l.filter (fun r => decide (|r.carbonChange| > 1))).map (carbonSentence fmt years)
        ++ (l.filter (fun r => decide (|r.oxygenChange| > 1))).map
            (oxygenSentence fmt years)) := by
  induction l with
  | nil => simp
  | cons r rs ih =>
    rw [List.flatMap_cons]
    by_cases hc : |r.carbonChange| > 1 <;> by_cases ho : |r.oxygenChange| > 1
    · simp only [sentencesOf, hc, ho, if_true, List.filter_cons, decide_True, List.map_cons,
        List.cons_append, List.nil_append, List.singleton_append]
      exact List.Perm.cons _ ((List.Perm.cons _ ih).trans List.perm_middle.symm)
    · simp only [sentencesOf, hc, ho, if_true, if_false, List.filter_cons, decide_True,
        decide_False, List.map_cons, List.cons_append, List.nil_append, List.append_nil,
        Bool.false_eq_true]
      exact List.Perm.cons _ ih
    · simp only [sentencesOf, hc, ho, if_true, if_false, List.filter_cons, decide_True,
        decide_False, List.map_cons, List.cons_append, List.nil_append, List.append_nil,
        Bool.false_eq_true]
      exact (List.Perm.cons _ ih).trans List.perm_middle.symm
    · simp only [sentencesOf, hc, ho, if_false, List.filter_cons, decide_False,
        List.nil_append, Bool.false_eq_true]
      exact ih

theorem sentences_perm (fmt : ℤ → String) (years : ℤ) (recs : List ClassRecord) :
    (pushSentences fmt years (significant recs)).Perm
      ((recs.filter (fun r => decide (|r.carbonChange| > 1))).map (carbonSentence fmt years)
        ++ (recs.filter (fun r => decide (|r.oxygenChange| > 1))).map
            (oxygenSentence fmt years)) := by
  rw [pushSentences_eq_flatMap]
  have h1 : ((significant recs).flatMap (sentencesOf fmt years)).Perm
      ((recs.filter isSignificant).flatMap (sentencesOf fmt years)) :=
    List.Perm.flatMap_right _ (jsSort_perm _ _)
  rw [flatMap_filter_significant] at h1
  exact h1.trans (flatMap_sentencesOf_perm fmt years recs)

theorem mem_significant {recs : List ClassRecord} {r : ClassRecord} :
    r ∈ significant recs ↔ r ∈ recs ∧ (|r.carbonChange| > 1 ∨ |r.oxygenChange| > 1) := by
  rw [significant, (jsSort_perm _ _).mem_iff, List.mem_filter]
  simp [isSignificant]

theorem mem_sentences {fmt : ℤ → String} {years : ℤ} {recs : List ClassRecord} {t : String}
    (ht : t ∈ pushSentences fmt years (significant recs)) :
    ∃ r ∈ recs, (|r.carbonChange| > 1 ∧ t = carbonSentence fmt years r) ∨
      (|r.oxygenChange| > 1 ∧ t = oxygenSentence fmt years r) := by
  rw [pushSentences_eq_flatMap, List.mem_flatMap] at ht
  obtain ⟨r, hr, hmem⟩ := ht
  refine ⟨r, (mem_significant.mp hr).1, ?_⟩
  simp only [sentencesOf, List.mem_append] at hmem
  rcases hmem with hc | ho
  · left
    by_cases h : |r.carbonChange| > 1
    · simp only [h, if_true, List.mem_singleton] at hc
      exact ⟨h, hc⟩
    · simp [h] at hc
  · right
    by_cases h : |r.oxygenChange| > 1
    · simp only [h, if_true, List.mem_singleton] at ho
      exact ⟨h, ho⟩
    · simp [h] at ho

theorem mathRound_nearest (x : ℚ) : |((mathRound x : ℤ) : ℚ) - x| ≤ 1 / 2 := by
  have h1 : ((mathRound x : ℤ) : ℚ) ≤ x + 1 / 2 := Int.floor_le _
  have h2 : x + 1 / 2 < ((mathRound x : ℤ) : ℚ) + 1 := Int.lt_floor_add_one _
  rw [abs_le]
  constructor <;> linarith

/-- C6: for an analysis with class names, `sentences` is, up to order, one CO2 sentence for
each class with `|carbonChange| > 1` together with one O2 sentence for each class with
`|oxygenChange| > 1`, and nothing else; every sentence stems from a class that passes the
threshold of its kind, so a class with both magnitudes at most 1 yields none, and when the
class names are distinct no sentence carries its name. -/
theorem estimate_sentences_selection (fmt : ℤ → String) (a : Analysis)
    (o : EstimatorOptions) (names : List String) (h : a.class_names = some names) :
    ∃ s, estimateCarbonAndOxygen fmt (some a) o = some s ∧
      s.sentences.Perm
        ((s.resultsByClass.filter (fun r => decide (|r.carbonChange| > 1))).map
            (carbonSentence fmt s.years)
          ++ (s.resultsByClass.filter (fun r => decide (|r.oxygenChange| > 1))).map
            (oxygenSentence fmt s.years)) ∧
      (∀ t ∈ s.sentences, ∃ r ∈ s.resultsByClass,
        (|r.carbonChange| > 1 ∧ t = carbonSentence fmt s.years r) ∨
        (|r.oxygenChange| > 1 ∧ t = oxygenSentence fmt s.years r)) ∧
      (names.Nodup → ∀ r ∈ s.resultsByClass, |r.carbonChange| ≤ 1 → |r.oxygenChange| ≤ 1 →
        ∀ t ∈ s.sentences, ∃ r' ∈ s.resultsByClass, r'.className ≠ r.className ∧
          ((|r'.carbonChange| > 1 ∧ t = carbonSentence fmt s.years r') ∨
           (|r'.oxygenChange| > 1 ∧ t = oxygenSentence fmt s.years r'))) := by
  refine ⟨_, estimate_eq fmt a o names h, sentences_perm fmt _ _, ?_, ?_⟩
  · intro t ht
    exact mem_sentences ht
  · intro hnd r hr hc ho t ht
    obtain ⟨r', hr', hcase⟩ := mem_sentences ht
    refine ⟨r', hr', ?_, hcase⟩
    intro hname
    have hmap : ((recordsOf a o names).map (·.className)).Nodup := by
      unfold recordsOf
      rw [recordsFrom_map_className]
      exact hnd
    have heq : r' = r := List.inj_on_of_nodup_map hmap hr' hr hname
    subst heq
    rcases hcase with ⟨h1, _⟩ | ⟨h1, _⟩
    · exact absurd h1 (not_lt.mpr hc)
    · exact absurd h1 (not_lt.mpr ho)

/-- C6 at the three-class scenario: every sentence stems from a class that passes a
threshold. -/
theorem estimate_sentences_selection_witness :
    mixedScenario.class_names = some ["Forest", "River", "Industrial"] ∧
    ∃ s, estimateCarbonAndOxygen plainLocale (some mixedScenario) EstimatorOptions.empty
        = some s ∧
      ∀ t ∈ s.sentences, ∃ r ∈ s.resultsByClass,
        (|r.carbonChange| > 1 ∧ t = carbonSentence plainLocale s.years r) ∨
        (|r.oxygenChange| > 1 ∧ t = oxygenSentence plainLocale s.years r) := by
  refine ⟨rfl, ?_⟩
  obtain ⟨s, hs, _, hsel, _⟩ :=
    estimate_sentences_selection plainLocale mixedScenario EstimatorOptions.empty
      ["Forest", "River", "Industrial"] rfl
  exact ⟨s, hs, hsel⟩

/-- C7: for an analysis with class names, the sentences are emitted class by class along
the list `significant`: each class contributes its CO2 sentence (when `|carbonChange| > 1`)
immediately followed by its O2 sentence (when `|oxygenChange| > 1`), every class of the
list contributes at least one sentence, the classes come in non-increasing order of
`|carbonChange|`, and the classes of any one `|carbonChange|` value come in their
`class_names` order. -/
theorem estimate_sentences_order (fmt : ℤ → String) (a : Analysis)
    (o : EstimatorOptions) (names : List String) (h : a.class_names = some names) :
    ∃ s, estimateCarbonAndOxygen fmt (some a) o = some s ∧
      ∃ sig : List ClassRecord,
        s.sentences = sig.flatMap (fun r =>
          (if |r.carbonChange| > 1 then [carbonSentence fmt s.years r] else [])
            ++ (if |r.oxygenChange| > 1 then [oxygenSentence fmt s.years r] else [])) ∧
        (∀ r ∈ sig, |r.carbonChange| > 1 ∨ |r.oxygenChange| > 1) ∧
        sig.Pairwise (fun x y => |x.carbonChange| ≥ |y.carbonChange|) ∧
        ∀ k : ℚ, sig.filter (fun r => decide (|r.carbonChange| = k))
          = s.resultsByClass.filter (fun r =>
              decide ((|r.carbonChange| > 1 ∨ |r.oxygenChange| > 1) ∧ |r.carbonChange| = k)) := by
  refine ⟨_, estimate_eq fmt a o names h, significant (recordsOf a o names), ?_, ?_, ?_, ?_⟩
  · exact pushSentences_eq_flatMap fmt _ _
  · intro r hr
    exact (mem_significant.mp hr).2
  · exact jsSort_desc_pairwise (fun r : ClassRecord => |r.carbonChange|) _
  · intro k
    show (significant (recordsOf a o names)).filter _ = (recordsOf a o names).filter _
    rw [significant, jsSort_desc_stable (fun r : ClassRecord => |r.carbonChange|),
      List.filter_filter]
    apply List.filter_congr
    intro r _
    simp [isSignificant, and_comm]

/-- C8: for an analysis with class names, every emitted sentence is one of the two
templates filled in for a class of `resultsByClass`: the verb is "lost" when the change is
negative and "gained" otherwise, the magnitude is `Math.round` of `|change|` (an integer
within 1/2 of it), followed by the unit, the class name and, before the final full stop,
the phrase "<years> years", which reads "1 year" when `years = 1`. -/
theorem estimate_sentence_wording (fmt : ℤ → String) (a : Analysis)
    (o : EstimatorOptions) (names : List String) (h : a.class_names = some names) :
    ∃ s, estimateCarbonAndOxygen fmt (some a) o = some s ∧
      s.years = jsOr a.after_year 2020 - jsOr a.before_year 2010 ∧
      (∀ t ∈ s.sentences, ∃ r ∈ s.resultsByClass,
        (|r.carbonChange| > 1 ∧
          abs (((mathRound |r.carbonChange| : ℤ) : ℚ) - |r.carbonChange|) ≤ 1 / 2 ∧
          t = "Region changed " ++ (if r.carbonChange < 0 then "lost" else "gained")
            ++ " approximately " ++ fmt (mathRound |r.carbonChange|)
            ++ " tons CO₂ capacity from " ++ r.className ++ " over "
            ++ (toString s.years ++ " " ++ (if s.years = 1 then "year" else "years"))
            ++ ".") ∨
        (|r.oxygenChange| > 1 ∧
          abs (((mathRound |r.oxygenChange| : ℤ) : ℚ) - |r.oxygenChange|) ≤ 1 / 2 ∧
          t = "Region " ++ (if r.oxygenChange < 0 then "lost" else "gained")
            ++ " approximately " ++ fmt (mathRound |r.oxygenChange|)
            ++ " tons O₂ production capacity from " ++ r.className ++ " over "
            ++ (toString s.years ++ " " ++ (if s.years = 1 then "year" else "years"))
            ++ ".")) ∧
      yearsText 1 = "1 year" := by
  refine ⟨_, estimate_eq fmt a o names h, rfl, ?_, by decide⟩
  intro t ht
  obtain ⟨r, hr, hcase⟩ := mem_sentences ht
  refine ⟨r, hr, ?_⟩
  rcases hcase with ⟨h1, h2⟩ | ⟨h1, h2⟩
  · exact Or.inl ⟨h1, mathRound_nearest _, h2⟩
  · exact Or.inr ⟨h1, mathRound_nearest _, h2⟩

/-- C7 at the three-class scenario. -/
theorem estimate_sentences_order_witness :
    mixedScenario.class_names = some ["Forest", "River", "Industrial"] ∧
    ∃ s, estimateCarbonAndOxygen plainLocale (some mixedScenario) EstimatorOptions.empty
        = some s ∧
      ∃ sig : List ClassRecord,
        s.sentences = sig.flatMap (fun r =>
          (if |r.carbonChange| > 1 then [carbonSentence plainLocale s.years r] else [])
            ++ (if |r.oxygenChange| > 1 then [oxygenSentence plainLocale s.years r] else [])) ∧
        sig.Pairwise (fun x y => |x.carbonChange| ≥ |y.carbonChange|) := by
  refine ⟨rfl, ?_⟩
  obtain ⟨s, hs, sig, h1, _, h3, _⟩ :=
    estimate_sentences_order plainLocale mixedScenario EstimatorOptions.empty
      ["Forest", "River", "Industrial"] rfl
  exact ⟨s, hs, sig, h1, h3⟩

/-- C8 at the three-class scenario, whose elapsed time is one year. -/
theorem estimate_sentence_wording_witness :
    mixedScenario.class_names = some ["Forest", "River", "Industrial"] ∧
    ∃ s, estimateCarbonAndOxygen plainLocale (some mixedScenario) EstimatorOptions.empty
        = some s ∧
      s.years = 1 ∧ yearsText 1 = "1 year" := by
  refine ⟨rfl, ?_⟩
  obtain ⟨s, hs, hy, _, h1⟩ :=
    estimate_sentence_wording plainLocale mixedScenario EstimatorOptions.empty
      ["Forest", "River", "Industrial"] rfl
  refine ⟨s, hs, ?_, h1⟩
  rw [hy]
  decide

/-! ## The environmental health scorer -/

theorem indexOfFrom_eq (c : String) (names : List String) (i : ℤ) :
    indexOfFrom c names i = if c ∈ names then i + (names.indexOf c : ℕ) else -1 := by
  induction names generalizing i with
  | nil => simp [indexOfFrom]
  | cons x xs ih =>
    by_cases hx : x = c
    · subst hx
      simp [indexOfFrom]
    · have hx' : ¬ c = x := fun h => hx h.symm
      simp only [indexOfFrom, hx, if_false, ih, List.mem_cons, hx', false_or,
        List.indexOf_cons_ne _ hx]
      by_cases hmem : c ∈ xs
      · simp only [hmem, if_true]
        push_cast
        ring
      · simp [hmem]

/-- The scorer's lookup `afterProbs[getClassIndex(c)] || 0` is the probability of the
class as the specification words it. -/
theorem lookup_eq_specProb (names : List String) (probs : List ℚ) (c : String) :
    jsOr (probAt probs (getClassIndex names c)) 0 = specProb names probs c := by
  rw [getClassIndex, indexOfFrom_eq, specProb]
  by_cases hmem : c ∈ names
  · simp only [hmem, if_true, zero_add, probAt]
    have hneg : ¬ ((names.indexOf c : ℕ) : ℤ) < 0 := by omega
    rw [if_neg hneg, Int.toNat_ofNat, jsOr_getElem?_zero]
  · simp only [hmem, if_false, probAt]
    simp [jsOr]

theorem specProb_nonneg (names : List String) (probs : List ℚ) (c : String)
    (hp : ∀ x ∈ probs, 0 ≤ x) : 0 ≤ specProb names probs c := by
  unfold specProb
  split
  · rw [List.getD_eq_getElem?_getD]
    cases hget : probs[names.indexOf c]? with
    | none => simp
    | some v => exact hp v (List.getElem?_mem hget)
  · exact le_refl 0

theorem sumClasses_water (names : List String) (probs : List ℚ) :
    sumClasses names probs waterClasses
      = specProb names probs "River" + specProb names probs "SeaLake" := by
  simp [sumClasses, waterClasses, lookup_eq_specProb]

theorem sumClasses_veg (names : List String) (probs : List ℚ) :
    sumClasses names probs vegClasses
      = specProb names probs "Forest" + specProb names probs "HerbaceousVegetation"
        + specProb names probs "Pasture" + specProb names probs "PermanentCrop" := by
  simp [sumClasses, vegClasses, lookup_eq_specProb]

theorem sumClasses_pollution (names : List String) (probs : List ℚ) :
    sumClasses names probs pollutionClasses
      = specProb names probs "Industrial" + specProb names probs "Highway" := by
  simp [sumClasses, pollutionClasses, lookup_eq_specProb]

/-- The scorer in closed form, the lookups rewritten to `specProb`. -/
theorem metrics_eq (d : Analysis) (b af : Snapshot) (hb : d.before = some b)
    (ha : d.after = some af) :
    calculateEnvironmentalMetrics (some d) = some
      { waterQuality := min 100
          ((specProb (jsOrObj d.class_names []) (jsOrObj af.probs []) "River"
            + specProb (jsOrObj d.class_names []) (jsOrObj af.probs []) "SeaLake") * 100)
        vegetationHealth := min 100
          ((specProb (jsOrObj d.class_names []) (jsOrObj af.probs []) "Forest"
            + specProb (jsOrObj d.class_names []) (jsOrObj af.probs []) "HerbaceousVegetation"
            + specProb (jsOrObj d.class_names []) (jsOrObj af.probs []) "Pasture"
            + specProb (jsOrObj d.class_names []) (jsOrObj af.probs []) "PermanentCrop") * 100)
        airQuality := min 100 (max 0 (100 -
          (specProb (jsOrObj d.class_names []) (jsOrObj af.probs []) "Industrial"
            + specProb (jsOrObj d.class_names []) (jsOrObj af.probs []) "Highway") * 100))
        biodiversity := min 100
          (((naturalClasses.filter (fun c => decide
            (specProb (jsOrObj d.class_names []) (jsOrObj af.probs []) c > 5 / 100))).length
            : ℕ) * 25)
        overallHealth := min 100
          (((specProb (jsOrObj d.class_names []) (jsOrObj af.probs []) "River"
              + specProb (jsOrObj d.class_names []) (jsOrObj af.probs []) "SeaLake") * 100
            + (specProb (jsOrObj d.class_names []) (jsOrObj af.probs []) "Forest"
              + specProb (jsOrObj d.class_names []) (jsOrObj af.probs []) "HerbaceousVegetation"
              + specProb (jsOrObj d.class_names []) (jsOrObj af.probs []) "Pasture"
              + specProb (jsOrObj d.class_names []) (jsOrObj af.probs []) "PermanentCrop") * 100
            + max 0 (100 -
              (specProb (jsOrObj d.class_names []) (jsOrObj af.probs []) "Industrial"
                + specProb (jsOrObj d.class_names []) (jsOrObj af.probs []) "Highway") * 100)
            + (((naturalClasses.filter (fun c => decide
                (specProb (jsOrObj d.class_names []) (jsOrObj af.probs []) c > 5 / 100))).length
                : ℕ) * 25)) / 4) } := by
  simp only [calculateEnvironmentalMetrics, hb, ha, sumClasses_water, sumClasses_veg,
    sumClasses_pollution, lookup_eq_specProb]

theorem specProb_cons (n : String) (ns : List String) (q : ℚ) (qs : List ℚ) (c : String) :
    specProb (n :: ns) (q :: qs) c = if c = n then q else specProb ns qs c := by
  unfold specProb
  by_cases h : c = n
  · subst h
    simp
  · have h' : n ≠ c := fun e => h e.symm
    simp only [List.mem_cons, h, false_or, if_false, List.indexOf_cons_ne _ h']
    by_cases hmem : c ∈ ns
    · simp [hmem]
    · simp [hmem]

theorem specProb_nil_left (probs : List ℚ) (c : String) : specProb [] probs c = 0 := by
  simp [specProb]

theorem specProb_nil_right (names : List String) (c : String) : specProb names [] c = 0 := by
  simp [specProb]

/-- The probabilities of pairwise distinct classes are entries at distinct positions, so
they sum to at most the sum of the whole vector when no entry is negative. -/
theorem sum_specProb_le (names : List String) (probs : List ℚ) (hp : ∀ x ∈ probs, 0 ≤ x)
    (C : List String) (hC : C.Nodup) :
    (C.map (specProb names probs)).sum ≤ probs.sum := by
  induction names generalizing probs C with
  | nil =>
    have h0 : (C.map (specProb [] probs)).sum = 0 := by
      apply List.sum_eq_zero
      intro x hx
      obtain ⟨c, _, rfl⟩ := List.mem_map.mp hx
      exact specProb_nil_left probs c
    rw [h0]
    exact List.sum_nonneg hp
  | cons n ns ih =>
    cases probs with
    | nil =>
      have h0 : (C.map (specProb (n :: ns) [])).sum = 0 := by
        apply List.sum_eq_zero
        intro x hx
        obtain ⟨c, _, rfl⟩ := List.mem_map.mp hx
        exact specProb_nil_right _ c
      rw [h0]
      simp
    | cons q qs =>
      have hq : 0 ≤ q := hp q (List.mem_cons_self q qs)
      have hqs : ∀ x ∈ qs, 0 ≤ x := fun x hx => hp x (List.mem_cons_of_mem q hx)
      by_cases hn : n ∈ C
      · have hperm := List.perm_cons_erase hn
        rw [(hperm.map _).sum_eq, List.map_cons, List.sum_cons, List.sum_cons]
        have hmap : (C.erase n).map (specProb (n :: ns) (q :: qs))
            = (C.erase n).map (specProb ns qs) := by
          apply List.map_congr_left
          intro c hc
          have hne : c ≠ n := ((List.Nodup.mem_erase_iff hC).mp hc).1
          rw [specProb_cons, if_neg hne]
        rw [hmap, specProb_cons, if_pos rfl]
        have := ih qs hqs (C.erase n) (hC.erase n)
        linarith
      · have hmap : C.map (specProb (n :: ns) (q :: qs)) = C.map (specProb ns qs) := by
          apply List.map_congr_left
          intro c hc
          have hne : c ≠ n := fun e => hn (e ▸ hc)
          rw [specProb_cons, if_neg hne]
        rw [hmap, List.sum_cons]
        have := ih qs hqs C hC
        linarith
theorem naturalClasses_filter_length_le (q : String → Bool) :
    (naturalClasses.filter q).length ≤ 4 :=
  (List.length_filter_le q naturalClasses).trans (le_of_eq rfl)

/-- C9: for an analysis with both snapshots present and every after-probability in
`[0, 1]`, with `p c` the after-probability of class `c` (0 when the class or its entry is
absent): `waterQuality = min(100, 100 * (p River + p SeaLake))`,
`vegetationHealth = min(100, 100 * (p Forest + p HerbaceousVegetation + p Pasture
+ p PermanentCrop))`, `airQuality = max(0, 100 - 100 * (p Industrial + p Highway))` and
`biodiversity = 25 *` the number of classes among Forest, HerbaceousVegetation, River and
SeaLake with `p > 0.05`. -/
theorem metrics_spec (d : Analysis) (b af : Snapshot) (names : List String) (probs : List ℚ)
    (hb : d.before = some b) (ha : d.after = some af)
    (hn : jsOrObj d.class_names [] = names) (hpr : jsOrObj af.probs [] = probs)
    (hp : ∀ x ∈ probs, 0 ≤ x ∧ x ≤ 1) :
    ∃ m, calculateEnvironmentalMetrics (some d) = some m ∧
      m.waterQuality
        = min 100 (100 * (specProb names probs "River" + specProb names probs "SeaLake")) ∧
      m.vegetationHealth
        = min 100 (100 * (specProb names probs "Forest"
            + specProb names probs "HerbaceousVegetation" + specProb names probs "Pasture"
            + specProb names probs "PermanentCrop")) ∧
      m.airQuality
        = max 0 (100 - 100 * (specProb names probs "Industrial"
            + specProb names probs "Highway")) ∧
      m.biodiversity
        = 25 * ((["Forest", "HerbaceousVegetation", "River", "SeaLake"].filter
            (fun c => decide (specProb names probs c > 5 / 100))).length : ℕ) := by
  have hnn : ∀ c, 0 ≤ specProb names probs c :=
    fun c => specProb_nonneg names probs c (fun x hx => (hp x hx).1)
  refine ⟨_, metrics_eq d b af hb ha, ?_, ?_, ?_, ?_⟩
  · simp only [hn, hpr]
    rw [mul_comm]
  · simp only [hn, hpr]
    rw [mul_comm]
  · simp only [hn, hpr]
    have h1 := hnn "Industrial"
    have h2 := hnn "Highway"
    rw [mul_comm, min_eq_right]
    apply max_le <;> linarith
  · simp only [hn, hpr]
    have hlen := naturalClasses_filter_length_le
      (fun c => decide (specProb names probs c > 5 / 100))
    have hlen' : (((naturalClasses.filter
        (fun c => decide (specProb names probs c > 5 / 100))).length : ℕ) : ℚ) ≤ 4 := by
      exact_mod_cast hlen
    rw [min_eq_right (by linarith), mul_comm]
    rfl

/-- C9 at the scenario of the specification: `[Forest, Industrial]` with after-probabilities
`[0.6, 0.4]` gives `vegetationHealth = 60` and `airQuality = 60`. -/
theorem metrics_spec_witness :
    (∀ x ∈ ([6 / 10, 4 / 10] : List ℚ), 0 ≤ x ∧ x ≤ 1) ∧
    ∃ m, calculateEnvironmentalMetrics (some identicalScenario) = some m ∧
      m.vegetationHealth = 60 ∧ m.airQuality = 60 := by
  have hp : ∀ x ∈ ([6 / 10, 4 / 10] : List ℚ), 0 ≤ x ∧ x ≤ 1 := by
    intro x hx
    simp only [List.mem_cons, List.mem_singleton, List.not_mem_nil, or_false] at hx
    rcases hx with rfl | rfl <;> norm_num
  refine ⟨hp, ?_⟩
  obtain ⟨m, hm, _, hveg, hair, _⟩ :=
    metrics_spec identicalScenario ⟨some [6 / 10, 4 / 10], some (6 / 10)⟩
      ⟨some [6 / 10, 4 / 10], some (6 / 10)⟩ ["Forest", "Industrial"] [6 / 10, 4 / 10]
      rfl rfl rfl rfl hp
  refine ⟨m, hm, ?_, ?_⟩
  · rw [hveg]
    simp [specProb, List.indexOf_cons]
    norm_num
  · rw [hair]
    simp [specProb, List.indexOf_cons]
    norm_num

/-- C10 as stated fails: with River and SeaLake both at after-probability 1 (each entry in
`[0, 1]`) the scorer returns the indices 100, 0, 100 and 50, whose mean is 62.5, and an
`overallHealth` of 87.5. -/
theorem metrics_overall_not_mean_of_returned :
    (∀ x ∈ ([1, 1] : List ℚ), 0 ≤ x ∧ x ≤ 1) ∧
    calculateEnvironmentalMetrics (some riverSeaScenario) = some ⟨100, 0, 100, 50, 175 / 2⟩ ∧
    (175 / 2 : ℚ) ≠ (100 + 0 + 100 + 50) / 4 := by
  refine ⟨?_, ?_, by norm_num⟩
  · intro x hx
    simp only [List.mem_cons, List.mem_singleton, List.not_mem_nil, or_false, or_self] at hx
    subst hx
    norm_num
  · simp [calculateEnvironmentalMetrics, riverSeaScenario, jsOrObj, sumClasses, waterClasses,
      vegClasses, pollutionClasses, getClassIndex, indexOfFrom, probAt, jsOr, naturalClasses,
      List.filter_cons]
    norm_num

/-- C10 amended: for an analysis with both snapshots present and every after-probability in
`[0, 1]`, `overallHealth` is `min(100, ·)` of the mean of the unclamped water and
vegetation sums (times 100), `airQuality` and `biodiversity`; it equals the mean of the
four returned indices whenever the River and SeaLake probabilities sum to at most 1 and
the four vegetation probabilities sum to at most 1, in particular whenever the
after-probabilities sum to at most 1. -/
theorem metrics_overall_spec (d : Analysis) (b af : Snapshot) (names : List String)
    (probs : List ℚ) (hb : d.before = some b) (ha : d.after = some af)
    (hn : jsOrObj d.class_names [] = names) (hpr : jsOrObj af.probs [] = probs)
    (hp : ∀ x ∈ probs, 0 ≤ x ∧ x ≤ 1) :
    ∃ m, calculateEnvironmentalMetrics (some d) = some m ∧
      m.overallHealth = min 100
        ((100 * (specProb names probs "River" + specProb names probs "SeaLake")
          + 100 * (specProb names probs "Forest"
            + specProb names probs "HerbaceousVegetation" + specProb names probs "Pasture"
            + specProb names probs "PermanentCrop")
          + m.airQuality + m.biodiversity) / 4) ∧
      (specProb names probs "River" + specProb names probs "SeaLake" ≤ 1 →
        specProb names probs "Forest" + specProb names probs "HerbaceousVegetation"
          + specProb names probs "Pasture" + specProb names probs "PermanentCrop" ≤ 1 →
        m.overallHealth
          = (m.waterQuality + m.vegetationHealth + m.airQuality + m.biodiversity) / 4) ∧
      (probs.sum ≤ 1 →
        m.overallHealth
          = (m.waterQuality + m.vegetationHealth + m.airQuality + m.biodiversity) / 4) := by
  have hnn : ∀ c, 0 ≤ specProb names probs c :=
    fun c => specProb_nonneg names probs c (fun x hx => (hp x hx).1)
  have hI := hnn "Industrial"
  have hH := hnn "Highway"
  have hlen := naturalClasses_filter_length_le
    (fun c => decide (specProb names probs c > 5 / 100))
  have hlen' : (((naturalClasses.filter
      (fun c => decide (specProb names probs c > 5 / 100))).length : ℕ) : ℚ) ≤ 4 := by
    exact_mod_cast hlen
  have hlen0 : (0 : ℚ) ≤ (((naturalClasses.filter
      (fun c => decide (specProb names probs c > 5 / 100))).length : ℕ) : ℚ) :=
    Nat.cast_nonneg _
  have hair : max 0 (100 - (specProb names probs "Industrial"
      + specProb names probs "Highway") * 100) ≤ (100 : ℚ) := by
    apply max_le <;> linarith
  have hA : min 100 (max 0 (100 - (specProb names probs "Industrial"
      + specProb names probs "Highway") * 100)) = max 0 (100 - (specProb names probs "Industrial"
      + specProb names probs "Highway") * 100) := min_eq_right hair
  have hB : min (100 : ℚ) (((naturalClasses.filter
      (fun c => decide (specProb names probs c > 5 / 100))).length : ℕ) * 25)
      = ((naturalClasses.filter
        (fun c => decide (specProb names probs c > 5 / 100))).length : ℕ) * 25 :=
    min_eq_right (by linarith)
  have key : specProb names probs "River" + specProb names probs "SeaLake" ≤ 1 →
      specProb names probs "Forest" + specProb names probs "HerbaceousVegetation"
        + specProb names probs "Pasture" + specProb names probs "PermanentCrop" ≤ 1 →
      min 100
        (((specProb names probs "River" + specProb names probs "SeaLake") * 100
          + (specProb names probs "Forest" + specProb names probs "HerbaceousVegetation"
            + specProb names probs "Pasture" + specProb names probs "PermanentCrop") * 100
          + max 0 (100 - (specProb names probs "Industrial"
            + specProb names probs "Highway") * 100)
          + (((naturalClasses.filter
            (fun c => decide (specProb names probs c > 5 / 100))).length : ℕ) * 25)) / 4)
      = (min 100 ((specProb names probs "River" + specProb names probs "SeaLake") * 100)
        + min 100 ((specProb names probs "Forest" + specProb names probs "HerbaceousVegetation"
            + specProb names probs "Pasture" + specProb names probs "PermanentCrop") * 100)
        + min 100 (max 0 (100 - (specProb names probs "Industrial"
            + specProb names probs "Highway") * 100))
        + min (100 : ℚ) ((((naturalClasses.filter
            (fun c => decide (specProb names probs c > 5 / 100))).length : ℕ) : ℚ) * 25)) / 4 := by
    intro hw hv
    have hW : min (100 : ℚ) ((specProb names probs "River"
        + specProb names probs "SeaLake") * 100)
        = (specProb names probs "River" + specProb names probs "SeaLake") * 100 :=
      min_eq_right (by linarith)
    have hV : min (100 : ℚ) ((specProb names probs "Forest"
        + specProb names probs "HerbaceousVegetation" + specProb names probs "Pasture"
        + specProb names probs "PermanentCrop") * 100)
        = (specProb names probs "Forest" + specProb names probs "HerbaceousVegetation"
          + specProb names probs "Pasture" + specProb names probs "PermanentCrop") * 100 :=
      min_eq_right (by linarith)
    rw [hA, hB, hW, hV]
    apply min_eq_right
    linarith
  refine ⟨_, metrics_eq d b af hb ha, ?_, ?_, ?_⟩
  · simp only [hn, hpr]
    rw [hA, hB]
    congr 1
    ring
  · intro hw hv
    simp only [hn, hpr]
    exact key hw hv
  · intro hsum
    simp only [hn, hpr]
    have hp0 : ∀ x ∈ probs, 0 ≤ x := fun x hx => (hp x hx).1
    have hw := sum_specProb_le names probs hp0 ["River", "SeaLake"] (by decide)
    have hv := sum_specProb_le names probs hp0
      ["Forest", "HerbaceousVegetation", "Pasture", "PermanentCrop"] (by decide)
    simp only [List.map_cons, List.map_nil, List.sum_cons, List.sum_nil, add_zero] at hw hv
    exact key (by linarith) (by linarith)

/-- C10 amended, at the identical-snapshots scenario: the mean of 0, 60, 60 and 25. -/
theorem metrics_overall_spec_witness :
    (∀ x ∈ ([6 / 10, 4 / 10] : List ℚ), 0 ≤ x ∧ x ≤ 1) ∧
    ∃ m, calculateEnvironmentalMetrics (some identicalScenario) = some m ∧
      m.overallHealth
        = (m.waterQuality + m.vegetationHealth + m.airQuality + m.biodiversity) / 4 := by
  have hp : ∀ x ∈ ([6 / 10, 4 / 10] : List ℚ), 0 ≤ x ∧ x ≤ 1 := by
    intro x hx
    simp only [List.mem_cons, List.mem_singleton, List.not_mem_nil, or_false] at hx
    rcases hx with rfl | rfl <;> norm_num
  refine ⟨hp, ?_⟩
  obtain ⟨m, hm, _, hmean, _⟩ :=
    metrics_overall_spec identicalScenario ⟨some [6 / 10, 4 / 10], some (6 / 10)⟩
      ⟨some [6 / 10, 4 / 10], some (6 / 10)⟩ ["Forest", "Industrial"] [6 / 10, 4 / 10]
      rfl rfl rfl rfl hp
  refine ⟨m, hm, hmean ?_ ?_⟩
  · simp [specProb, List.indexOf_cons]
  · simp [specProb, List.indexOf_cons]
    norm_num

/-! ## The health scorer: bounds, missing classes, independence of the before snapshot -/

/-- C11: for an analysis with both snapshots present and every after-probability in
`[0, 1]`, whether or not the probabilities sum to 1, each of `waterQuality`,
`vegetationHealth`, `airQuality`, `biodiversity` and `overallHealth` lies in `[0, 100]`. -/
theorem metrics_bounds (d : Analysis) (b af : Snapshot) (hb : d.before = some b)
    (ha : d.after = some af) (hp : ∀ x ∈ jsOrObj af.probs [], 0 ≤ x ∧ x ≤ 1) :
    ∃ m, calculateEnvironmentalMetrics (some d) = some m ∧
      (0 ≤ m.waterQuality ∧ m.waterQuality ≤ 100) ∧
      (0 ≤ m.vegetationHealth ∧ m.vegetationHealth ≤ 100) ∧
      (0 ≤ m.airQuality ∧ m.airQuality ≤ 100) ∧
      (0 ≤ m.biodiversity ∧ m.biodiversity ≤ 100) ∧
      (0 ≤ m.overallHealth ∧ m.overallHealth ≤ 100) := by
  have hnn : ∀ c, 0 ≤ specProb (jsOrObj d.class_names []) (jsOrObj af.probs []) c :=
    fun c => specProb_nonneg _ _ c (fun x hx => (hp x hx).1)
  have hR := hnn "River"
  have hS := hnn "SeaLake"
  have hF := hnn "Forest"
  have hHe := hnn "HerbaceousVegetation"
  have hPa := hnn "Pasture"
  have hPe := hnn "PermanentCrop"
  have hlen0 : (0 : ℚ) ≤ (((naturalClasses.filter (fun c => decide
      (specProb (jsOrObj d.class_names []) (jsOrObj af.probs []) c > 5 / 100))).length : ℕ)
        : ℚ) := Nat.cast_nonneg _
  have hair0 : (0 : ℚ) ≤ max 0 (100 -
      (specProb (jsOrObj d.class_names []) (jsOrObj af.probs []) "Industrial"
        + specProb (jsOrObj d.class_names []) (jsOrObj af.probs []) "Highway") * 100) :=
    le_max_left _ _
  refine ⟨_, metrics_eq d b af hb ha, ⟨?_, min_le_left _ _⟩, ⟨?_, min_le_left _ _⟩,
    ⟨?_, min_le_left _ _⟩, ⟨?_, min_le_left _ _⟩, ⟨?_, min_le_left _ _⟩⟩
  · apply le_min (by norm_num); linarith
  · apply le_min (by norm_num); linarith
  · exact le_min (by norm_num) hair0
  · apply le_min (by norm_num); linarith
  · apply le_min (by norm_num)
    apply div_nonneg _ (by norm_num)
    linarith

/-- C11 at the scenario whose after-probabilities sum to 2: the scores are 100, 0, 100,
50 and 87.5. -/
theorem metrics_bounds_witness :
    (∀ x ∈ ([1, 1] : List ℚ), 0 ≤ x ∧ x ≤ 1) ∧
    ∃ m, calculateEnvironmentalMetrics (some riverSeaScenario) = some m ∧
      (0 ≤ m.waterQuality ∧ m.waterQuality ≤ 100) ∧
      (0 ≤ m.overallHealth ∧ m.overallHealth ≤ 100) := by
  have hp : ∀ x ∈ ([1, 1] : List ℚ), 0 ≤ x ∧ x ≤ 1 := by
    intro x hx
    simp only [List.mem_cons, List.mem_singleton, List.not_mem_nil, or_false, or_self] at hx
    subst hx
    norm_num
  refine ⟨hp, ?_⟩
  obtain ⟨m, hm, hw, _, _, _, ho⟩ :=
    metrics_bounds riverSeaScenario ⟨some [1, 0], some 1⟩ ⟨some [1, 1], some 1⟩ rfl rfl hp
  exact ⟨m, hm, hw, ho⟩

theorem specProb_of_not_mem (names : List String) (probs : List ℚ) (c : String)
    (hc : c ∉ names) : specProb names probs c = 0 := by
  simp [specProb, hc]

/-- Appending a class whose entry reads as 0, the entries of the old classes unchanged,
changes no lookup. -/
theorem specProb_extend (names : List String) (probs probs' : List ℚ) (c x : String)
    (hagree : ∀ i < names.length, probs'.getD i 0 = probs.getD i 0)
    (hzero : probs'.getD names.length 0 = 0) :
    specProb (names ++ [c]) probs' x = specProb names probs x := by
  unfold specProb
  by_cases hx : x ∈ names
  · have hx' : x ∈ names ++ [c] := List.mem_append_left _ hx
    rw [if_pos hx', if_pos hx, List.indexOf_append_of_mem hx]
    exact hagree _ (List.indexOf_lt_length.mpr hx)
  · rw [if_neg hx]
    by_cases hxc : x = c
    · subst hxc
      have hx' : x ∈ names ++ [x] := List.mem_append_right _ (List.mem_singleton_self x)
      rw [if_pos hx', List.indexOf_append_of_not_mem hx, List.indexOf_cons_self, add_zero]
      exact hzero
    · have hx' : x ∉ names ++ [c] := by
        simp [hx, hxc]
      rw [if_neg hx']

theorem getD_append_zero (names : List String) (probs : List ℚ)
    (hlen : probs.length ≤ names.length) :
    (∀ i < names.length, (probs ++ [0]).getD i 0 = probs.getD i 0) ∧
      (probs ++ [0]).getD names.length 0 = 0 := by
  constructor
  · intro i _
    by_cases hi : i < probs.length
    · rw [List.getD_append _ _ _ _ hi]
    · have hi' : probs.length ≤ i := not_lt.mp hi
      rw [List.getD_append_right _ _ _ _ hi', List.getD_eq_default _ _ hi']
      cases h : i - probs.length with
      | zero => simp
      | succ k => simp
  · by_cases hi : names.length < probs.length
    · omega
    · have hi' : probs.length ≤ names.length := hlen
      rw [List.getD_append_right _ _ _ _ hi']
      cases h : names.length - probs.length with
      | zero => simp
      | succ k => simp

/-- The scorer depends on the analysis only through the class names and the
after-probabilities, once both snapshots are present. -/
theorem metrics_congr (d d' : Analysis) (b af b' af' : Snapshot) (hb : d.before = some b)
    (ha : d.after = some af) (hb' : d'.before = some b') (ha' : d'.after = some af')
    (h : ∀ x, specProb (jsOrObj d'.class_names []) (jsOrObj af'.probs []) x
      = specProb (jsOrObj d.class_names []) (jsOrObj af.probs []) x) :
    calculateEnvironmentalMetrics (some d') = calculateEnvironmentalMetrics (some d) := by
  rw [metrics_eq d b af hb ha, metrics_eq d' b' af' hb' ha']
  simp only [h]

/-- C12: for an analysis (both snapshots present) whose class names do not contain the
class `c`, the scorer returns scores, the lookup of `c` contributes 0, and the scores are
exactly those of the analysis extended with `c`: `c` appended to `class_names`, the
after-probability at its index reading as 0 and the entries of the other classes
unchanged; when the after-vector is no longer than `class_names` this is the analysis
with `c` appended to `class_names` and `0` appended to `after.probs`. -/
theorem metrics_missing_class (d : Analysis) (b af : Snapshot) (names : List String)
    (probs : List ℚ) (c : String) (hb : d.before = some b) (ha : d.after = some af)
    (hn : jsOrObj d.class_names [] = names) (hpr : jsOrObj af.probs [] = probs)
    (hc : c ∉ names) :
    ∃ m, calculateEnvironmentalMetrics (some d) = some m ∧
      jsOr (probAt probs (getClassIndex names c)) 0 = 0 ∧
      (∀ probs' : List ℚ, (∀ i < names.length, probs'.getD i 0 = probs.getD i 0) →
        probs'.getD names.length 0 = 0 →
        calculateEnvironmentalMetrics (some
          { d with class_names := some (names ++ [c])
                   after := some { af with probs := some probs' } }) = some m) ∧
      (probs.length ≤ names.length →
        calculateEnvironmentalMetrics (some
          { d with class_names := some (names ++ [c])
                   after := some { af with probs := some (probs ++ [0]) } }) = some m) := by
  have key : ∀ probs' : List ℚ, (∀ i < names.length, probs'.getD i 0 = probs.getD i 0) →
      probs'.getD names.length 0 = 0 →
      calculateEnvironmentalMetrics (some
        { d with class_names := some (names ++ [c])
                 after := some { af with probs := some probs' } })
        = calculateEnvironmentalMetrics (some d) := by
    intro probs' hagree hzero
    refine metrics_congr d
      { d with class_names := some (names ++ [c])
               after := some { af with probs := some probs' } }
      b af b { af with probs := some probs' } hb ha hb rfl ?_
    intro x
    show specProb (names ++ [c]) probs' x = _
    rw [hn, hpr]
    exact specProb_extend names probs probs' c x hagree hzero
  refine ⟨_, metrics_eq d b af hb ha, ?_, ?_, ?_⟩
  · rw [lookup_eq_specProb]
    exact specProb_of_not_mem names probs c hc
  · intro probs' hagree hzero
    rw [key probs' hagree hzero]
    exact metrics_eq d b af hb ha
  · intro hlen
    obtain ⟨hagree, hzero⟩ := getD_append_zero names probs hlen
    rw [key (probs ++ [0]) hagree hzero]
    exact metrics_eq d b af hb ha

/-- C12 at an analysis without the Forest class, extended by `Forest` at probability 0:
the vegetation index is 0 either way. -/
theorem metrics_missing_class_witness :
    "Forest" ∉ ["River", "Industrial"] ∧
    ∃ m, calculateEnvironmentalMetrics (some noForestScenario) = some m ∧
      calculateEnvironmentalMetrics (some
        { noForestScenario with
          class_names := some (["River", "Industrial"] ++ ["Forest"])
          after := some ⟨some ([5 / 10, 5 / 10] ++ [0]), some (5 / 10)⟩ }) = some m := by
  have hc : "Forest" ∉ ["River", "Industrial"] := by decide
  refine ⟨hc, ?_⟩
  obtain ⟨m, hm, _, _, happ⟩ :=
    metrics_missing_class noForestScenario ⟨some [7 / 10, 3 / 10], some (7 / 10)⟩
      ⟨some [5 / 10, 5 / 10], some (5 / 10)⟩ ["River", "Industrial"] [5 / 10, 5 / 10]
      "Forest" rfl rfl rfl rfl hc
  exact ⟨m, hm, happ (by decide)⟩

/-- C13: two analyses with the same class names and the same after-probabilities, each
with both snapshots present, get identical scores, whatever probabilities and confidence
their before snapshots hold (and whatever confidence the after snapshots report). -/
theorem metrics_after_only (d₁ d₂ : Analysis) (b₁ b₂ a₁ a₂ : Snapshot)
    (hn : d₁.class_names = d₂.class_names) (hb₁ : d₁.before = some b₁)
    (hb₂ : d₂.before = some b₂) (ha₁ : d₁.after = some a₁) (ha₂ : d₂.after = some a₂)
    (hp : a₁.probs = a₂.probs) :
    ∃ m, calculateEnvironmentalMetrics (some d₁) = some m ∧
      calculateEnvironmentalMetrics (some d₂) = some m := by
  refine ⟨_, metrics_eq d₁ b₁ a₁ hb₁ ha₁, ?_⟩
  rw [← metrics_eq d₁ b₁ a₁ hb₁ ha₁]
  apply metrics_congr d₁ d₂ b₁ a₁ b₂ a₂ hb₁ ha₁ hb₂ ha₂
  intro x
  rw [hn, hp]

/-- C13 at the full-conversion scenario and a variant of it with another before
snapshot. -/
theorem metrics_after_only_witness :
    ∃ m, calculateEnvironmentalMetrics (some conversionScenario) = some m ∧
      calculateEnvironmentalMetrics (some
        { conversionScenario with before := some ⟨some [3 / 10, 7 / 10], some (7 / 10)⟩ })
        = some m :=
  metrics_after_only conversionScenario
    { conversionScenario with before := some ⟨some [3 / 10, 7 / 10], some (7 / 10)⟩ }
    ⟨some [1, 0], some 1⟩ ⟨some [3 / 10, 7 / 10], some (7 / 10)⟩ ⟨some [0, 1], some 1⟩
    ⟨some [0, 1], some 1⟩ rfl rfl rfl rfl rfl rfl

/-! ## The heatmap data -/

theorem heatmapItem_eq (bp ap : List ℚ) (name : String) (i : ℕ) (hname : name ≠ "") :
    heatmapItem bp ap name i = some (specHeatmapEntry name (bp.getD i 0) (ap.getD i 0)) := by
  have h1 : (ap.getD i 0 - bp.getD i 0) * 100 = 100 * ap.getD i 0 - 100 * bp.getD i 0 := by
    ring
  have h2 : (bp.getD i 0 + ap.getD i 0) / 2 * 100
      = (100 * bp.getD i 0 + 100 * ap.getD i 0) / 2 := by ring
  simp only [heatmapItem, hname, if_false, jsOr_getElem?_zero, specHeatmapEntry, h1, h2,
    mul_comm (bp.getD i 0) 100, mul_comm (ap.getD i 0) 100,
    mul_comm |100 * ap.getD i 0 - 100 * bp.getD i 0| 2]

theorem specHeatmapEntry_area_pos_iff (name : String) (b a : ℚ) :
    0 < (specHeatmapEntry name b a).area ↔ 0 < (b + a) / 2 := by
  simp only [specHeatmapEntry]
  constructor <;> intro h <;> linarith

theorem heatmapKeep_of_pos (e : HeatmapEntry) (h1 : 0 < e.area) (h2 : e.name ≠ "") :
    heatmapKeep (some e) = some e := by
  simp [heatmapKeep, h1, h2]

theorem heatmapKeep_of_not_pos (e : HeatmapEntry) (h1 : ¬ 0 < e.area) :
    heatmapKeep (some e) = none := by
  simp [heatmapKeep, h1]

/-- The `map` followed by the `filter`, as a filter on the indexed class names followed by
a map. -/
theorem heatmap_loop (bp ap : List ℚ) (names : List String) (k : ℕ) :
    (mapIdxFrom (heatmapItem bp ap) names k).filterMap heatmapKeep
      = ((names.enumFrom k).filter (fun p =>
          decide (p.2 ≠ "" ∧ 0 < (bp.getD p.1 0 + ap.getD p.1 0) / 2))).map
          (fun p => specHeatmapEntry p.2 (bp.getD p.1 0) (ap.getD p.1 0)) := by
  induction names generalizing k with
  | nil => rfl
  | cons n ns ih =>
    rw [mapIdxFrom, List.enumFrom_cons]
    by_cases hname : n = ""
    · have hitem : heatmapItem bp ap n k = none := by simp [heatmapItem, hname]
      have hP : (fun p : ℕ × String =>
          decide (p.2 ≠ "" ∧ 0 < (bp.getD p.1 0 + ap.getD p.1 0) / 2)) (k, n) = false := by
        simp [hname]
      rw [hitem, @List.filter_cons_of_neg _ (fun p : ℕ × String =>
          decide (p.2 ≠ "" ∧ 0 < (bp.getD p.1 0 + ap.getD p.1 0) / 2)) (k, n) _
        (by rw [hP]; exact Bool.false_ne_true), List.filterMap_cons]
      exact ih (k + 1)
    · rw [heatmapItem_eq bp ap n k hname]
      by_cases hpos : 0 < (bp.getD k 0 + ap.getD k 0) / 2
      · have harea := (specHeatmapEntry_area_pos_iff n (bp.getD k 0) (ap.getD k 0)).mpr hpos
        have hP : (fun p : ℕ × String =>
            decide (p.2 ≠ "" ∧ 0 < (bp.getD p.1 0 + ap.getD p.1 0) / 2)) (k, n) = true :=
          decide_eq_true ⟨hname, hpos⟩
        rw [@List.filter_cons_of_pos _ (fun p : ℕ × String =>
          decide (p.2 ≠ "" ∧ 0 < (bp.getD p.1 0 + ap.getD p.1 0) / 2)) (k, n) _ hP, List.filterMap_cons,
          heatmapKeep_of_pos _ harea hname, List.map_cons, ih (k + 1)]
      · have harea : ¬ 0 < (specHeatmapEntry n (bp.getD k 0) (ap.getD k 0)).area :=
          fun h => hpos ((specHeatmapEntry_area_pos_iff n _ _).mp h)
        have hP : ¬ (fun p : ℕ × String =>
            decide (p.2 ≠ "" ∧ 0 < (bp.getD p.1 0 + ap.getD p.1 0) / 2)) (k, n) = true := by
          intro h
          exact hpos (of_decide_eq_true h).2
        rw [@List.filter_cons_of_neg _ (fun p : ℕ × String =>
          decide (p.2 ≠ "" ∧ 0 < (bp.getD p.1 0 + ap.getD p.1 0) / 2)) (k, n) _ hP, List.filterMap_cons,
          heatmapKeep_of_not_pos _ harea]
        exact ih (k + 1)

/-- The heatmap data in closed form. -/
theorem heatmap_eq (d : Analysis) (b af : Snapshot) (names : List String)
    (hb : d.before = some b) (ha : d.after = some af) (hn : d.class_names = some names) :
    generateHeatmapData (some d)
      = (names.enum.filter (fun p => decide (p.2 ≠ "" ∧
          0 < ((jsOrObj b.probs []).getD p.1 0 + (jsOrObj af.probs []).getD p.1 0) / 2))).map
          (fun p => specHeatmapEntry p.2 ((jsOrObj b.probs []).getD p.1 0)
            ((jsOrObj af.probs []).getD p.1 0)) := by
  simp only [generateHeatmapData, hb, ha, hn]
  exact heatmap_loop _ _ names 0

theorem mem_heatmap {data : Option Analysis} {e : HeatmapEntry}
    (he : e ∈ generateHeatmapData data) :
    ∃ (name : String) (b a : ℚ), e = specHeatmapEntry name b a ∧ 0 < (b + a) / 2 := by
  cases data with
  | none => simp [generateHeatmapData] at he
  | some d =>
    cases hb : d.before with
    | none => simp [generateHeatmapData, hb] at he
    | some b =>
      cases ha : d.after with
      | none => simp [generateHeatmapData, hb, ha] at he
      | some af =>
        cases hn : d.class_names with
        | none => simp [generateHeatmapData, hb, ha, hn] at he
        | some names =>
          rw [heatmap_eq d b af names hb ha hn, List.mem_map] at he
          obtain ⟨p, hp, rfl⟩ := he
          have hp2 := (List.mem_filter.mp hp).2
          simp only [decide_eq_true_eq] at hp2
          exact ⟨_, _, _, rfl, hp2.2⟩

/-- C14 as stated fails: the first class of this analysis has the positive average
probability 0.5, but its name is the empty string and the heatmap lists Forest only. -/
theorem heatmap_drops_empty_name :
    emptyNameScenario.class_names = some ["", "Forest"] ∧
    (0 : ℚ) < (5 / 10 + 5 / 10) / 2 ∧
    (generateHeatmapData (some emptyNameScenario)).map (·.name) = ["Forest"] := by
  refine ⟨rfl, by norm_num, ?_⟩
  simp [generateHeatmapData, emptyNameScenario, jsOrObj, mapIdxFrom, heatmapItem,
    heatmapKeep, jsOr]

/-- C14 amended: with both snapshots and the class names present, the heatmap lists, in
`class_names` order, exactly the classes with a non-empty name whose average of before and
after probability is positive; the entry of a class has `before = 100 * before.probs[i]`,
`after = 100 * after.probs[i]`, `change = after - before`, and the trend `increasing` when
`change > 1`, `decreasing` when `change < -1` and `stable` otherwise, so also at a change
of exactly 1 or -1. -/
theorem heatmap_entries_spec (d : Analysis) (b af : Snapshot) (names : List String)
    (bp ap : List ℚ) (hb : d.before = some b) (ha : d.after = some af)
    (hn : d.class_names = some names) (hbp : jsOrObj b.probs [] = bp)
    (hap : jsOrObj af.probs [] = ap) :
    generateHeatmapData (some d)
      = (names.enum.filter (fun p =>
          decide (p.2 ≠ "" ∧ 0 < (bp.getD p.1 0 + ap.getD p.1 0) / 2))).map
          (fun p => specHeatmapEntry p.2 (bp.getD p.1 0) (ap.getD p.1 0)) ∧
    ∀ (name : String) (x y : ℚ),
      (specHeatmapEntry name x y).name = name ∧
      (specHeatmapEntry name x y).before = 100 * x ∧
      (specHeatmapEntry name x y).after = 100 * y ∧
      (specHeatmapEntry name x y).change
        = (specHeatmapEntry name x y).after - (specHeatmapEntry name x y).before ∧
      ((specHeatmapEntry name x y).change > 1 →
        (specHeatmapEntry name x y).trend = "increasing") ∧
      ((specHeatmapEntry name x y).change < -1 →
        (specHeatmapEntry name x y).trend = "decreasing") ∧
      (-1 ≤ (specHeatmapEntry name x y).change → (specHeatmapEntry name x y).change ≤ 1 →
        (specHeatmapEntry name x y).trend = "stable") := by
  refine ⟨?_, ?_⟩
  · rw [← hbp, ← hap]
    exact heatmap_eq d b af names hb ha hn
  · intro name x y
    refine ⟨rfl, rfl, rfl, rfl, ?_, ?_, ?_⟩
    · intro h
      have h' : 100 * y - 100 * x > 1 := h
      simp [specHeatmapEntry, h']
    · intro h
      have h' : 100 * y - 100 * x < -1 := h
      have h'' : ¬ 100 * y - 100 * x > 1 := by linarith
      simp only [specHeatmapEntry, if_neg h'', if_pos h']
    · intro h1 h2
      have h1' : ¬ 100 * y - 100 * x < -1 := not_lt.mpr h1
      have h2' : ¬ 100 * y - 100 * x > 1 := not_lt.mpr h2
      simp only [specHeatmapEntry, if_neg h1', if_neg h2']

/-- C14 amended, at the three-class scenario: Forest falls by 20 points, River is stable
and Industrial rises by 20 points. -/
theorem heatmap_entries_spec_witness :
    (generateHeatmapData (some mixedScenario)).map (fun e => (e.name, e.change, e.trend))
      = [("Forest", -20, "decreasing"), ("River", 0, "stable"),
          ("Industrial", 20, "increasing")] := by
  rw [(heatmap_entries_spec mixedScenario ⟨some [5 / 10, 2 / 10, 3 / 10], some (5 / 10)⟩
    ⟨some [3 / 10, 2 / 10, 5 / 10], some (5 / 10)⟩ ["Forest", "River", "Industrial"]
    [5 / 10, 2 / 10, 3 / 10] [3 / 10, 2 / 10, 5 / 10] rfl rfl rfl rfl rfl).1]
  simp [List.enum, List.enumFrom, List.filter_cons, specHeatmapEntry]
  norm_num

/-- C15 as stated fails: the River entry of this analysis has the area weight 2, below the
floor of 5 that only `size` has. -/
theorem heatmap_area_below_floor :
    ∃ e ∈ generateHeatmapData (some smallAreaScenario),
      e.name = "River" ∧ e.area = 2 ∧ e.size = 5 ∧
      e.area ≠ max ((e.before + e.after) / 2) 5 := by
  refine ⟨specHeatmapEntry "River" (2 / 100) (2 / 100), ?_, rfl, ?_, ?_, ?_⟩
  · simp [generateHeatmapData, smallAreaScenario, jsOrObj, mapIdxFrom, heatmapItem,
      heatmapKeep, jsOr, specHeatmapEntry]
    norm_num
  · simp [specHeatmapEntry]
    norm_num
  · simp [specHeatmapEntry]
    norm_num
  · simp [specHeatmapEntry]
    norm_num

/-- C15 amended: for every returned entry, `size = max((before + after) / 2, 5)`, so no
returned size is below 5, while `area = (before + after) / 2` without a floor: the area
weight is positive and can be below 5. -/
theorem heatmap_size_area_spec (data : Option Analysis) (e : HeatmapEntry)
    (he : e ∈ generateHeatmapData data) :
    e.size = max ((e.before + e.after) / 2) 5 ∧ 5 ≤ e.size ∧
    e.area = (e.before + e.after) / 2 ∧ 0 < e.area := by
  obtain ⟨name, x, y, rfl, hpos⟩ := mem_heatmap he
  refine ⟨rfl, le_max_right _ _, rfl, ?_⟩
  exact (specHeatmapEntry_area_pos_iff name x y).mpr hpos

/-- C15 amended, at the River entry of the small-class scenario: size 5, area 2. -/
theorem heatmap_size_area_spec_witness :
    specHeatmapEntry "River" (2 / 100) (2 / 100)
      ∈ generateHeatmapData (some smallAreaScenario) ∧
    5 ≤ (specHeatmapEntry "River" (2 / 100) (2 / 100)).size ∧
    0 < (specHeatmapEntry "River" (2 / 100) (2 / 100)).area := by
  have hmem : specHeatmapEntry "River" (2 / 100) (2 / 100)
      ∈ generateHeatmapData (some smallAreaScenario) := by
    simp [generateHeatmapData, smallAreaScenario, jsOrObj, mapIdxFrom, heatmapItem,
      heatmapKeep, jsOr, specHeatmapEntry]
    norm_num
  have h := heatmap_size_area_spec (some smallAreaScenario) _ hmem
  exact ⟨hmem, h.2.1, h.2.2.2⟩

/-! ## The change matrix -/

theorem optChainProb_of_readable (s : Option Snapshot) (i : ℕ)
    (h : snapshotReadable s = true) : optChainProb s i = Except.ok (probsOf s)[i]? := by
  cases s with
  | none => rfl
  | some x =>
    cases hx : x.probs with
    | none => simp [snapshotReadable, hx] at h
    | some ps => simp [optChainProb, probsOf, jsOrObj, hx]

/-- The list the inner callback pushes for the ordered pair `(i, j)`. -/
theorem transitionStep_of_readable (d : Analysis) (hb : snapshotReadable d.before = true)
    (ha : snapshotReadable d.after = true) (fromClass toClass : String) (i j : ℕ)
    (matrix : List Transition) :
    transitionStep d fromClass i matrix toClass j
      = Except.ok (matrix ++
          (if i ≠ j ∧ specStrength (probsOf d.before) (probsOf d.after) i j > 5 / 10 then
            [{ fromClass := fromClass
               toClass := toClass
               strength := specStrength (probsOf d.before) (probsOf d.after) i j
               percentage := specStrength (probsOf d.before) (probsOf d.after) i j }]
          else [])) := by
  have hs : min (max 0 ((probsOf d.before).getD i 0 * 100 - (probsOf d.after).getD i 0 * 100))
      (max 0 ((probsOf d.after).getD j 0 * 100 - (probsOf d.before).getD j 0 * 100))
      = specStrength (probsOf d.before) (probsOf d.after) i j := by
    simp only [specStrength, mul_comm]
  by_cases hij : i = j
  · simp [transitionStep, hij]
  · simp only [transitionStep, optChainProb_of_readable _ _ hb, optChainProb_of_readable _ _ ha,
      jsOr_getElem?_zero, hs, ne_eq, hij, not_false_eq_true, if_true, true_and]
    split <;> simp

theorem forEachIdxE_push {α β : Type} (f : List β → α → ℕ → Except JsError (List β))
    (g : α → ℕ → List β) (hf : ∀ s a i, f s a i = Except.ok (s ++ g a i)) (l : List α)
    (k : ℕ) (s : List β) :
    forEachIdxE f l k s = Except.ok (s ++ (l.enumFrom k).flatMap (fun p => g p.2 p.1)) := by
  induction l generalizing k s with
  | nil => simp [forEachIdxE]
  | cons a as ih =>
    simp only [forEachIdxE, hf, ih, List.enumFrom_cons, List.flatMap_cons, List.append_assoc]

/-- The change matrix in closed form, when both snapshots can be read: the reference list
of candidates, sorted by descending strength and cut to ten. -/
theorem changeMatrix_eq (d : Analysis) (names : List String)
    (hn : d.class_names = some names) (hb : snapshotReadable d.before = true)
    (ha : snapshotReadable d.after = true) :
    generateChangeMatrix (some d)
      = Except.ok ((jsSort (fun a b => b.strength - a.strength)
          (specQualifying names (probsOf d.before) (probsOf d.after))).take 10) := by
  have inner : ∀ (matrix : List Transition) (fromClass : String) (i : ℕ),
      forEachIdxE (transitionStep d fromClass i) names 0 matrix
        = Except.ok (matrix ++ names.enum.flatMap (fun q =>
            if i ≠ q.1 ∧ specStrength (probsOf d.before) (probsOf d.after) i q.1 > 5 / 10 then
              [{ fromClass := fromClass
                 toClass := q.2
                 strength := specStrength (probsOf d.before) (probsOf d.after) i q.1
                 percentage := specStrength (probsOf d.before) (probsOf d.after) i q.1 }]
            else [])) := by
    intro matrix fromClass i
    exact forEachIdxE_push _ _
      (fun s a j => transitionStep_of_readable d hb ha fromClass a i j s) names 0 matrix
  have outer := forEachIdxE_push
    (fun matrix fromClass fromIndex =>
      forEachIdxE (transitionStep d fromClass fromIndex) names 0 matrix)
    (fun fromClass i => names.enum.flatMap (fun q =>
      if i ≠ q.1 ∧ specStrength (probsOf d.before) (probsOf d.after) i q.1 > 5 / 10 then
        [{ fromClass := fromClass
           toClass := q.2
           strength := specStrength (probsOf d.before) (probsOf d.after) i q.1
           percentage := specStrength (probsOf d.before) (probsOf d.after) i q.1 }]
      else []))
    inner names 0 []
  simp only [generateChangeMatrix, hn, outer, List.nil_append]
  rfl

/-- Whatever the input, a returned list is a sorted array cut to ten. -/
theorem changeMatrix_ok_form (data : Option Analysis) (l : List Transition)
    (h : generateChangeMatrix data = Except.ok l) :
    ∃ matrix, l = (jsSort (fun a b => b.strength - a.strength) matrix).take 10 := by
  cases data with
  | none =>
    simp only [generateChangeMatrix, Except.ok.injEq] at h
    exact ⟨[], by simp [← h, jsSort]⟩
  | some d =>
    cases hn : d.class_names with
    | none =>
      simp only [generateChangeMatrix, hn, Except.ok.injEq] at h
      exact ⟨[], by simp [← h, jsSort]⟩
    | some names =>
      simp only [generateChangeMatrix, hn] at h
      split at h
      · exact absurd h (by simp)
      · simp only [Except.ok.injEq] at h
        exact ⟨_, h.symm⟩

theorem mem_specQualifying {names : List String} {bp ap : List ℚ} {t : Transition}
    (ht : t ∈ specQualifying names bp ap) :
    ∃ i j, i ≠ j ∧ names[i]? = some t.fromClass ∧ names[j]? = some t.toClass ∧
      t.strength = specStrength bp ap i j ∧ t.strength > 5 / 10 := by
  simp only [specQualifying, List.mem_flatMap] at ht
  obtain ⟨p, hp, q, hq, hmem⟩ := ht
  by_cases hc : p.1 ≠ q.1 ∧ specStrength bp ap p.1 q.1 > 5 / 10
  · rw [if_pos hc, List.mem_singleton] at hmem
    subst hmem
    exact ⟨p.1, q.1, hc.1, List.mem_enum_iff_getElem?.mp hp,
      List.mem_enum_iff_getElem?.mp hq, rfl, hc.2⟩
  · rw [if_neg hc] at hmem
    exact absurd hmem (List.not_mem_nil _)

/-- C16: when the class names are present and each snapshot is missing or carries its
`probs` array, `generateChangeMatrix` returns a list that refines the reference definition
`specQualifying` (all ordered pairs of distinct class indices with strength
`min(max(0, beforePct[from] - afterPct[from]), max(0, afterPct[to] - beforePct[to]))`
above 0.5): every returned element is such a pair with its strength; the returned and the
omitted candidates together are exactly the reference list; the result holds
`min(10, number of candidates)` elements, so all of them when at most 10 qualify; and no
omitted candidate is stronger than a returned one. -/
theorem changeMatrix_reference (d : Analysis) (names : List String)
    (hn : d.class_names = some names) (hb : snapshotReadable d.before = true)
    (ha : snapshotReadable d.after = true) :
    ∃ result omitted : List Transition,
      generateChangeMatrix (some d) = Except.ok result ∧
      (∀ t ∈ result, ∃ i j, i ≠ j ∧ names[i]? = some t.fromClass ∧
        names[j]? = some t.toClass ∧
        t.strength = specStrength (probsOf d.before) (probsOf d.after) i j ∧
        t.strength > 5 / 10) ∧
      (result ++ omitted).Perm (specQualifying names (probsOf d.before) (probsOf d.after)) ∧
      result.length
        = min 10 (specQualifying names (probsOf d.before) (probsOf d.after)).length ∧
      ((specQualifying names (probsOf d.before) (probsOf d.after)).length ≤ 10 →
        result.Perm (specQualifying names (probsOf d.before) (probsOf d.after))) ∧
      (∀ r ∈ result, ∀ o ∈ omitted, o.strength ≤ r.strength) := by
  have hperm := jsSort_perm (fun a b : Transition => b.strength - a.strength)
    (specQualifying names (probsOf d.before) (probsOf d.after))
  have hsorted := jsSort_desc_pairwise (fun t : Transition => t.strength)
    (specQualifying names (probsOf d.before) (probsOf d.after))
  refine ⟨_, (jsSort (fun a b => b.strength - a.strength)
    (specQualifying names (probsOf d.before) (probsOf d.after))).drop 10,
    changeMatrix_eq d names hn hb ha, ?_, ?_, ?_, ?_, ?_⟩
  · intro t ht
    exact mem_specQualifying (hperm.mem_iff.mp (List.mem_of_mem_take ht))
  · rw [List.take_append_drop]
    exact hperm
  · rw [List.length_take, hperm.length_eq]
  · intro hlen
    rw [List.take_of_length_le (by rw [hperm.length_eq]; exact hlen)]
    exact hperm
  · intro r hr o ho
    exact List.Sorted.rel_of_mem_take_of_mem_drop hsorted hr ho

/-- C16 at the three-class scenario: the one candidate, Forest to Industrial with
strength 20, is returned. -/
theorem changeMatrix_reference_witness :
    mixedScenario.class_names = some ["Forest", "River", "Industrial"] ∧
    snapshotReadable mixedScenario.before = true ∧
    snapshotReadable mixedScenario.after = true ∧
    ∃ result omitted : List Transition,
      generateChangeMatrix (some mixedScenario) = Except.ok result ∧
      (result ++ omitted).Perm (specQualifying ["Forest", "River", "Industrial"]
        (probsOf mixedScenario.before) (probsOf mixedScenario.after)) ∧
      (∀ r ∈ result, ∀ o ∈ omitted, o.strength ≤ r.strength) := by
  refine ⟨rfl, rfl, rfl, ?_⟩
  obtain ⟨result, omitted, h1, _, h3, _, _, h6⟩ :=
    changeMatrix_reference mixedScenario ["Forest", "River", "Industrial"] rfl rfl rfl
  exact ⟨result, omitted, h1, h3, h6⟩

/-- C17: whatever the input, a list returned by `generateChangeMatrix` has at most 10
elements and is sorted by non-increasing strength; and a list is returned whenever each
snapshot of the input is missing or carries its `probs` array. -/
theorem changeMatrix_cap_sorted (data : Option Analysis) :
    (∀ l, generateChangeMatrix data = Except.ok l →
      l.length ≤ 10 ∧ l.Pairwise (fun x y => x.strength ≥ y.strength)) ∧
    ((∀ d, data = some d →
        snapshotReadable d.before = true ∧ snapshotReadable d.after = true) →
      ∃ l, generateChangeMatrix data = Except.ok l) := by
  constructor
  · intro l hl
    obtain ⟨matrix, rfl⟩ := changeMatrix_ok_form data l hl
    constructor
    · rw [List.length_take]
      exact min_le_left _ _
    · exact (jsSort_desc_pairwise (fun t : Transition => t.strength) matrix).sublist
        (List.take_sublist 10 _)
  · intro hread
    cases data with
    | none => exact ⟨[], rfl⟩
    | some d =>
      cases hn : d.class_names with
      | none => exact ⟨[], by simp [generateChangeMatrix, hn]⟩
      | some names =>
        exact ⟨_, changeMatrix_eq d names hn (hread d rfl).1 (hread d rfl).2⟩

/-- C17 at the three-class scenario. -/
theorem changeMatrix_cap_sorted_witness :
    ∃ l, generateChangeMatrix (some mixedScenario) = Except.ok l ∧
      l.length ≤ 10 ∧ l.Pairwise (fun x y => x.strength ≥ y.strength) := by
  obtain ⟨hprop, hret⟩ := changeMatrix_cap_sorted (some mixedScenario)
  obtain ⟨l, hl⟩ := hret (by
    intro d hd
    cases hd
    exact ⟨rfl, rfl⟩)
  exact ⟨l, hl, hprop l hl⟩

/-! ## Full conversion between two classes -/

theorem oneHot_getD_of_mem_enum (names : List String) (c : String) (p : ℕ × String)
    (hp : p ∈ names.enum) : (oneHot names c).getD p.1 0 = if p.2 = c then 1 else 0 := by
  have h := List.mem_enum_iff_getElem?.mp hp
  rw [List.getD_eq_getElem?_getD, oneHot, List.getElem?_map, h]
  rfl

theorem specStrength_oneHot (names : List String) (A B : String) (hAB : A ≠ B)
    (p q : ℕ × String) (hp : p ∈ names.enum) (hq : q ∈ names.enum) :
    specStrength (oneHot names A) (oneHot names B) p.1 q.1
      = if p.2 = A ∧ q.2 = B then 100 else 0 := by
  simp only [specStrength, oneHot_getD_of_mem_enum names _ p hp,
    oneHot_getD_of_mem_enum names _ q hq]
  by_cases h1 : p.2 = A
  · have h1' : ¬ p.2 = B := fun h => hAB (h1.symm.trans h)
    by_cases h2 : q.2 = B
    · have h2' : ¬ q.2 = A := fun h => hAB (h.symm.trans h2)
      simp only [if_pos h1, if_pos h2, if_neg h1', if_neg h2', if_pos (And.intro h1 h2)]
      norm_num
    · have h12 : ¬ (p.2 = A ∧ q.2 = B) := fun h => h2 h.2
      simp only [if_pos h1, if_neg h2, if_neg h1', if_neg h12]
      by_cases h3 : q.2 = A
      · simp only [if_pos h3]
        norm_num
      · simp only [if_neg h3]
        norm_num
  · have h12 : ¬ (p.2 = A ∧ q.2 = B) := fun h => h1 h.1
    simp only [if_neg h1, if_neg h12]
    by_cases h4 : p.2 = B
    · simp only [if_pos h4]
      norm_num
    · simp only [if_neg h4]
      norm_num

theorem flatMap_enumFrom_snd {β : Type} (f : String → List β) (names : List String) (k : ℕ) :
    (names.enumFrom k).flatMap (fun q => f q.2) = names.flatMap f := by
  induction names generalizing k with
  | nil => rfl
  | cons n ns ih => simp only [List.enumFrom_cons, List.flatMap_cons, ih]

theorem flatMap_ite_eq_nil {β : Type} (names : List String) (x : String) (L : List β)
    (hx : x ∉ names) : names.flatMap (fun n => if n = x then L else []) = [] := by
  rw [List.flatMap_eq_nil_iff]
  intro n hn
  have hne : n ≠ x := fun h => hx (h ▸ hn)
  rw [if_neg hne]

theorem flatMap_ite_eq {β : Type} (names : List String) (x : String) (L : List β)
    (hnd : names.Nodup) (hx : x ∈ names) :
    names.flatMap (fun n => if n = x then L else []) = L := by
  induction names with
  | nil => exact absurd hx (List.not_mem_nil _)
  | cons n ns ih =>
    rw [List.flatMap_cons]
    have hnd' := List.nodup_cons.mp hnd
    by_cases hn : n = x
    · subst hn
      rw [if_pos rfl, flatMap_ite_eq_nil ns n L hnd'.1, List.append_nil]
    · rw [if_neg hn, List.nil_append]
      rcases List.mem_cons.mp hx with h | h
      · exact absurd h.symm hn
      · exact ih hnd'.2 h

/-- The reference list of a full conversion from `A` to `B` is the single candidate from
`A` to `B` with strength 100. -/
theorem specQualifying_oneHot (names : List String) (A B : String) (hnd : names.Nodup)
    (hA : A ∈ names) (hB : B ∈ names) (hAB : A ≠ B) :
    specQualifying names (oneHot names A) (oneHot names B)
      = [{ fromClass := A, toClass := B, strength := 100, percentage := 100 }] := by
  have hinner : ∀ p ∈ names.enum, ∀ q ∈ names.enum,
      (if p.1 ≠ q.1 ∧ specStrength (oneHot names A) (oneHot names B) p.1 q.1 > 5 / 10 then
        [({ fromClass := p.2
            toClass := q.2
            strength := specStrength (oneHot names A) (oneHot names B) p.1 q.1
            percentage := specStrength (oneHot names A) (oneHot names B) p.1 q.1 }
          : Transition)]
      else [])
      = if p.2 = A then
          (if q.2 = B then
            [({ fromClass := A, toClass := B, strength := 100, percentage := 100 }
              : Transition)]
          else [])
        else [] := by
    intro p hp q hq
    rw [specStrength_oneHot names A B hAB p q hp hq]
    by_cases h1 : p.2 = A
    · by_cases h2 : q.2 = B
      · have hidx : p.1 ≠ q.1 := by
          intro h
          have e1 := List.mem_enum_iff_getElem?.mp hp
          have e2 := List.mem_enum_iff_getElem?.mp hq
          rw [h, e2] at e1
          have : q.2 = p.2 := Option.some.inj e1
          exact hAB (h1.symm.trans (this.symm.trans h2))
        have hc : p.1 ≠ q.1 ∧ (if p.2 = A ∧ q.2 = B then (100 : ℚ) else 0) > 5 / 10 := by
          refine ⟨hidx, ?_⟩
          rw [if_pos ⟨h1, h2⟩]
          norm_num
        rw [if_pos hc, if_pos h1, if_pos h2, if_pos ⟨h1, h2⟩, h1, h2]
      · have hc : ¬ (p.1 ≠ q.1 ∧ (if p.2 = A ∧ q.2 = B then (100 : ℚ) else 0) > 5 / 10) := by
          rw [if_neg (fun h => h2 h.2)]
          intro h
          norm_num at h
        rw [if_neg hc, if_pos h1, if_neg h2]
    · have hc : ¬ (p.1 ≠ q.1 ∧ (if p.2 = A ∧ q.2 = B then (100 : ℚ) else 0) > 5 / 10) := by
        rw [if_neg (fun h => h1 h.1)]
        intro h
        norm_num at h
      rw [if_neg hc, if_neg h1]
  have hstep : specQualifying names (oneHot names A) (oneHot names B)
      = names.enum.flatMap (fun p => names.enum.flatMap (fun q =>
          if p.2 = A then
            (if q.2 = B then
              [({ fromClass := A, toClass := B, strength := 100, percentage := 100 }
                : Transition)]
            else [])
          else [])) := by
    unfold specQualifying
    apply List.flatMap_congr
    intro p hp
    apply List.flatMap_congr
    intro q hq
    exact hinner p hp q hq
  have hrow : ∀ p : ℕ × String,
      names.enum.flatMap (fun q =>
          if p.2 = A then
            (if q.2 = B then
              [({ fromClass := A, toClass := B, strength := 100, percentage := 100 }
                : Transition)]
            else [])
          else [])
        = if p.2 = A then
            [({ fromClass := A, toClass := B, strength := 100, percentage := 100 }
              : Transition)]
          else [] := by
    intro p
    by_cases h1 : p.2 = A
    · simp only [h1, if_true]
      rw [List.enum, flatMap_enumFrom_snd (fun n => if n = B then
        [({ fromClass := A, toClass := B, strength := 100, percentage := 100 }
          : Transition)] else []) names 0]
      exact flatMap_ite_eq names B _ hnd hB
    · simp only [h1, if_false]
      rw [List.flatMap_eq_nil_iff]
      intro _ _
      trivial
  rw [hstep]
  simp only [hrow]
  rw [List.enum, flatMap_enumFrom_snd (fun n => if n = A then
    [({ fromClass := A, toClass := B, strength := 100, percentage := 100 }
      : Transition)] else []) names 0]
  exact flatMap_ite_eq names A _ hnd hA

theorem specProb_oneHot (names : List String) (B c : String) (hB : B ∈ names) :
    specProb names (oneHot names B) c = if c = B then 1 else 0 := by
  unfold specProb
  by_cases hc : c ∈ names
  · rw [if_pos hc, List.getD_eq_getElem?_getD, oneHot, List.getElem?_map]
    have hlt : names.indexOf c < names.length := List.indexOf_lt_length.mpr hc
    rw [List.getElem?_eq_getElem hlt, List.getElem_indexOf hlt]
    rfl
  · have hne : c ≠ B := fun h => hc (h ▸ hB)
    rw [if_neg hc, if_neg hne]

theorem jsSort_singleton {α : Type} (cmp : α → α → ℚ) (a : α) : jsSort cmp [a] = [a] := by
  simp [jsSort]

/-- C18: for a class list with distinct names and two distinct classes `A` and `B` of it,
when `before.probs` is one-hot on `A` and `after.probs` is one-hot on `B`,
`generateChangeMatrix` returns exactly one transition candidate, from `A` to `B` with
strength 100; and for a conversion from Forest to Industrial
`calculateEnvironmentalMetrics` gives `vegetationHealth = 0` and `airQuality = 0`. -/
theorem full_conversion (d : Analysis) (b af : Snapshot) (names : List String)
    (A B : String) (hn : d.class_names = some names) (hb : d.before = some b)
    (ha : d.after = some af) (hbp : b.probs = some (oneHot names A))
    (hap : af.probs = some (oneHot names B)) (hnd : names.Nodup) (hA : A ∈ names)
    (hB : B ∈ names) (hAB : A ≠ B) :
    generateChangeMatrix (some d)
      = Except.ok [{ fromClass := A, toClass := B, strength := 100, percentage := 100 }] ∧
    (A = "Forest" → B = "Industrial" →
      ∃ m, calculateEnvironmentalMetrics (some d) = some m ∧
        m.vegetationHealth = 0 ∧ m.airQuality = 0) := by
  have hrb : snapshotReadable d.before = true := by simp [snapshotReadable, hb, hbp]
  have hra : snapshotReadable d.after = true := by simp [snapshotReadable, ha, hap]
  have hpb : probsOf d.before = oneHot names A := by simp [probsOf, jsOrObj, hb, hbp]
  have hpa : probsOf d.after = oneHot names B := by simp [probsOf, jsOrObj, ha, hap]
  constructor
  · rw [changeMatrix_eq d names hn hrb hra, hpb, hpa,
      specQualifying_oneHot names A B hnd hA hB hAB, jsSort_singleton]
    rfl
  · intro _ hBI
    subst hBI
    refine ⟨_, metrics_eq d b af hb ha, ?_, ?_⟩
    · simp only [hn, hap, jsOrObj, specProb_oneHot names "Industrial" _ hB]
      simp
    · simp only [hn, hap, jsOrObj, specProb_oneHot names "Industrial" _ hB]
      simp

/-- C18 at the scenario of the specification: `[Forest, Industrial]`, before `[1, 0]`,
after `[0, 1]`. -/
theorem full_conversion_witness :
    generateChangeMatrix (some conversionScenario)
      = Except.ok [{ fromClass := "Forest", toClass := "Industrial", strength := 100,
                     percentage := 100 }] ∧
    ∃ m, calculateEnvironmentalMetrics (some conversionScenario) = some m ∧
      m.vegetationHealth = 0 ∧ m.airQuality = 0 := by
  have h := full_conversion conversionScenario ⟨some [1, 0], some 1⟩ ⟨some [0, 1], some 1⟩
    ["Forest", "Industrial"] "Forest" "Industrial" rfl rfl rfl (by simp [oneHot])
    (by simp [oneHot]) (by decide) (by decide) (by decide) (by decide)
  exact ⟨h.1, h.2 rfl rfl⟩

/-! ## The model-confidence analytics -/

namespace JsNum

theorem fin_add (a b : ℚ) : fin a + fin b = fin (a + b) := rfl

theorem fin_sub (a b : ℚ) : fin a - fin b = fin (a - b) := by
  show add (fin a) (neg (fin b)) = fin (a - b)
  simp [add, neg, sub_eq_add_neg]

theorem fin_mul (a b : ℚ) : fin a * fin b = fin (a * b) := rfl

theorem fin_div (a b : ℚ) (hb : b ≠ 0) : fin a / fin b = fin (a / b) := by
  show div (fin a) (fin b) = fin (a / b)
  simp [div, hb]

theorem abs_fin (a : ℚ) : abs (fin a) = fin |a| := rfl

end JsNum

theorem foldl_max_ge_init (xs : List ℚ) (x : ℚ) : x ≤ xs.foldl max x := by
  induction xs generalizing x with
  | nil => exact le_refl x
  | cons y ys ih => exact (le_max_left x y).trans (ih (max x y))

theorem foldl_max_ge_mem (xs : List ℚ) (x : ℚ) : ∀ y ∈ xs, y ≤ xs.foldl max x := by
  induction xs generalizing x with
  | nil => intro y hy; exact absurd hy (List.not_mem_nil _)
  | cons z zs ih =>
    intro y hy
    rcases List.mem_cons.mp hy with h | h
    · subst h
      exact (le_max_right x y).trans (foldl_max_ge_init zs (max x y))
    · exact ih (max x z) y h

theorem foldl_max_mem (xs : List ℚ) (x : ℚ) : xs.foldl max x ∈ x :: xs := by
  induction xs generalizing x with
  | nil => exact List.mem_singleton_self x
  | cons z zs ih =>
    have h := ih (max x z)
    rcases List.mem_cons.mp h with h1 | h1
    · rcases max_choice x z with h2 | h2
      · rw [List.foldl_cons, h1, h2]
        exact List.mem_cons_self x _
      · rw [List.foldl_cons, h1, h2]
        exact List.mem_cons_of_mem x (List.mem_cons_self z zs)
    · exact List.mem_cons_of_mem x (List.mem_cons_of_mem z h1)

/-- The call `Math.max(...l)` returns the greatest element of a non-empty array. -/
theorem mathMax_eq_of_greatest (l : List ℚ) (m : ℚ) (hm : m ∈ l) (hle : ∀ x ∈ l, x ≤ m) :
    mathMax l = JsNum.fin m := by
  cases l with
  | nil => exact absurd hm (List.not_mem_nil _)
  | cons x xs =>
    have h1 : xs.foldl max x ≤ m := hle _ (foldl_max_mem xs x)
    have h2 : m ≤ xs.foldl max x := by
      rcases List.mem_cons.mp hm with h | h
      · rw [h]; exact foldl_max_ge_init xs x
      · exact foldl_max_ge_mem xs x m h
    simp only [mathMax, le_antisymm h1 h2]

/-- The first element of the copy sorted in descending order is the greatest element. -/
theorem sortedTop_eq_of_greatest (l : List ℚ) (m : ℚ) (hm : m ∈ l) (hle : ∀ x ∈ l, x ≤ m) :
    ((sortedCopyDesc l).2.take 3)[0]? = some m := by
  have hperm := jsSort_perm (fun a b : ℚ => b - a) l
  have hsorted := jsSort_desc_pairwise (fun x : ℚ => x) l
  show ((jsSort (fun a b : ℚ => b - a) l).take 3)[0]? = some m
  cases hs : jsSort (fun a b : ℚ => b - a) l with
  | nil =>
    rw [hs] at hperm
    rw [List.nil_perm.mp hperm] at hm
    exact absurd hm (List.not_mem_nil _)
  | cons t rest =>
    rw [hs] at hperm hsorted
    have ht : t ∈ l := hperm.mem_iff.mp (List.mem_cons_self t rest)
    have hmt : m ≤ t := by
      have hm' : m ∈ t :: rest := hperm.mem_iff.mpr hm
      rcases List.mem_cons.mp hm' with h | h
      · exact le_of_eq h
      · exact (List.pairwise_cons.mp hsorted).1 m h
    have : t = m := le_antisymm (hle t ht) hmt
    simp [this]

/-- The analytics in closed form for non-empty probability vectors with greatest elements
`mb` and `ma`: every returned number is finite. -/
theorem performance_eq (log2 : ℚ → ℚ) (d : Analysis) (b af : Snapshot) (mb ma : ℚ)
    (hb : d.before = some b) (ha : d.after = some af)
    (hmb : mb ∈ jsOrObj b.probs []) (hmb' : ∀ x ∈ jsOrObj b.probs [], x ≤ mb)
    (hma : ma ∈ jsOrObj af.probs []) (hma' : ∀ x ∈ jsOrObj af.probs [], x ≤ ma) :
    calculatePerformanceMetrics log2 (some d) = some
      { avgConfidence :=
          JsNum.fin ((jsOr b.confidence 0 + jsOr af.confidence 0) / 2 * 100)
        avgCertainty := JsNum.fin ((mb + ma) / 2 * 100)
        consistency := JsNum.fin ((1 - |mb - ma|) * 100)
        entropy := JsNum.fin ((calculateEntropy log2 (jsOrObj b.probs [])
          + calculateEntropy log2 (jsOrObj af.probs [])) / 2)
        qualityScore := JsNum.fin
          (((jsOr b.confidence 0 + jsOr af.confidence 0) / 2 * (4 / 10)
            + (mb + ma) / 2 * (4 / 10) + (1 - |mb - ma|) * (2 / 10)) * 100)
        beforeConf := JsNum.fin (jsOr b.confidence 0 * 100)
        afterConf := JsNum.fin (jsOr af.confidence 0 * 100)
        beforeCertainty := JsNum.fin (mb * 100)
        afterCertainty := JsNum.fin (ma * 100) } := by
  have h2 : (2 : ℚ) ≠ 0 := by norm_num
  simp only [calculatePerformanceMetrics, hb, ha,
    mathMax_eq_of_greatest _ mb hmb hmb', mathMax_eq_of_greatest _ ma hma hma',
    sortedTop_eq_of_greatest _ mb hmb hmb', sortedTop_eq_of_greatest _ ma hma hma',
    JsNum.ofUndefined, JsNum.fin_add, JsNum.fin_sub, JsNum.fin_mul, JsNum.fin_div _ _ h2,
    JsNum.abs_fin]

/-- A non-empty vector has a greatest element. -/
theorem exists_greatest (l : List ℚ) (hl : l ≠ []) : ∃ m, m ∈ l ∧ ∀ x ∈ l, x ≤ m := by
  cases l with
  | nil => exact absurd rfl hl
  | cons x xs =>
    refine ⟨xs.foldl max x, foldl_max_mem xs x, ?_⟩
    intro y hy
    rcases List.mem_cons.mp hy with h | h
    · rw [h]; exact foldl_max_ge_init xs x
    · exact foldl_max_ge_mem xs x y h

/-- C19: for an analysis with both snapshots present and non-empty probability vectors,
`avgConfidence = 100 * (before.confidence + after.confidence) / 2` (a missing confidence
counting as 0) and `avgCertainty = 100 * (max(before.probs) + max(after.probs)) / 2`; the
certainty does not change when the two confidence fields are replaced by any other
values. -/
theorem performance_confidence_certainty (log2 : ℚ → ℚ) (d : Analysis) (b af : Snapshot)
    (bp ap : List ℚ) (hb : d.before = some b) (ha : d.after = some af)
    (hbp : jsOrObj b.probs [] = bp) (hap : jsOrObj af.probs [] = ap)
    (hbne : bp ≠ []) (hane : ap ≠ []) :
    ∃ (m : PerformanceMetrics) (mb ma : ℚ),
      calculatePerformanceMetrics log2 (some d) = some m ∧
      (mb ∈ bp ∧ ∀ x ∈ bp, x ≤ mb) ∧ (ma ∈ ap ∧ ∀ x ∈ ap, x ≤ ma) ∧
      m.avgConfidence
        = JsNum.fin (100 * (b.confidence.getD 0 + af.confidence.getD 0) / 2) ∧
      m.avgCertainty = JsNum.fin (100 * (mb + ma) / 2) ∧
      ∀ c₁ c₂ : Option ℚ, ∃ m', calculatePerformanceMetrics log2 (some
          { d with before := some { b with confidence := c₁ }
                   after := some { af with confidence := c₂ } }) = some m' ∧
        m'.avgCertainty = m.avgCertainty := by
  obtain ⟨mb, hmb, hmb'⟩ := exists_greatest bp hbne
  obtain ⟨ma, hma, hma'⟩ := exists_greatest ap hane
  subst hbp hap
  refine ⟨_, mb, ma, performance_eq log2 d b af mb ma hb ha hmb hmb' hma hma',
    ⟨hmb, hmb'⟩, ⟨hma, hma'⟩, ?_, ?_, ?_⟩
  · show JsNum.fin _ = JsNum.fin _
    rw [jsOr_zero, jsOr_zero]
    congr 1
    ring
  · show JsNum.fin _ = JsNum.fin _
    congr 1
    ring
  · intro c₁ c₂
    exact ⟨_, performance_eq log2
      { d with before := some { b with confidence := c₁ }
               after := some { af with confidence := c₂ } }
      { b with confidence := c₁ } { af with confidence := c₂ } mb ma rfl rfl
      hmb hmb' hma hma', rfl⟩

/-- C19 at the three-class scenario: confidences 0.5 and 0.5, maxima 0.5 and 0.5. -/
theorem performance_confidence_certainty_witness :
    ∃ m, calculatePerformanceMetrics (fun _ => 0) (some mixedScenario) = some m ∧
      m.avgConfidence = JsNum.fin 50 ∧ m.avgCertainty = JsNum.fin 50 := by
  obtain ⟨m, mb, ma, hm, ⟨hmb, hmb'⟩, ⟨hma, hma'⟩, hconf, hcert, _⟩ :=
    performance_confidence_certainty (fun _ => 0) mixedScenario
      ⟨some [5 / 10, 2 / 10, 3 / 10], some (5 / 10)⟩
      ⟨some [3 / 10, 2 / 10, 5 / 10], some (5 / 10)⟩
      [5 / 10, 2 / 10, 3 / 10] [3 / 10, 2 / 10, 5 / 10] rfl rfl rfl rfl
      (by simp) (by simp)
  have e1 : mb = 5 / 10 :=
    le_antisymm (by
      simp only [List.mem_cons, List.mem_singleton, List.not_mem_nil, or_false] at hmb
      rcases hmb with h | h | h <;> exact h.le.trans (by norm_num))
      (hmb' _ (by simp))
  have e2 : ma = 5 / 10 :=
    le_antisymm (by
      simp only [List.mem_cons, List.mem_singleton, List.not_mem_nil, or_false] at hma
      rcases hma with h | h | h <;> exact h.le.trans (by norm_num))
      (hma' _ (by simp))
  refine ⟨m, hm, ?_, ?_⟩
  · rw [hconf]
    congr 1
    norm_num
  · rw [hcert, e1, e2]
    congr 1
    norm_num

/-- C20: for an analysis with both snapshots present and non-empty probability vectors,
the first elements `tb` and `ta` of the copies sorted in descending order are the maxima
of the vectors, `consistency = 100 * (1 - |tb - ta|)`, which in the returned percent
fields is `100 - |beforeCertainty - afterCertainty|`; the sort runs on spread copies, so
the input vectors keep their order. -/
theorem performance_consistency (log2 : ℚ → ℚ) (d : Analysis) (b af : Snapshot)
    (bp ap : List ℚ) (hb : d.before = some b) (ha : d.after = some af)
    (hbp : jsOrObj b.probs [] = bp) (hap : jsOrObj af.probs [] = ap)
    (hbne : bp ≠ []) (hane : ap ≠ []) :
    ∃ (m : PerformanceMetrics) (tb ta : ℚ),
      calculatePerformanceMetrics log2 (some d) = some m ∧
      (sortedCopyDesc bp).2[0]? = some tb ∧ (sortedCopyDesc ap).2[0]? = some ta ∧
      (sortedCopyDesc bp).2.Pairwise (fun x y => x ≥ y) ∧
      (sortedCopyDesc ap).2.Pairwise (fun x y => x ≥ y) ∧
      (tb ∈ bp ∧ ∀ x ∈ bp, x ≤ tb) ∧ (ta ∈ ap ∧ ∀ x ∈ ap, x ≤ ta) ∧
      m.consistency = JsNum.fin (100 * (1 - |tb - ta|)) ∧
      m.beforeCertainty = JsNum.fin (100 * tb) ∧
      m.afterCertainty = JsNum.fin (100 * ta) ∧
      m.consistency = JsNum.fin (100 - |100 * tb - 100 * ta|) ∧
      (sortedCopyDesc bp).1 = bp ∧ (sortedCopyDesc ap).1 = ap := by
  obtain ⟨mb, hmb, hmb'⟩ := exists_greatest bp hbne
  obtain ⟨ma, hma, hma'⟩ := exists_greatest ap hane
  subst hbp hap
  have htb := sortedTop_eq_of_greatest _ mb hmb hmb'
  have hta := sortedTop_eq_of_greatest _ ma hma hma'
  rw [List.getElem?_take_of_lt (by norm_num)] at htb hta
  refine ⟨_, mb, ma, performance_eq log2 d b af mb ma hb ha hmb hmb' hma hma',
    htb, hta, jsSort_desc_pairwise (fun x : ℚ => x) _,
    jsSort_desc_pairwise (fun x : ℚ => x) _, ⟨hmb, hmb'⟩, ⟨hma, hma'⟩,
    ?_, ?_, ?_, ?_, rfl, rfl⟩
  · show JsNum.fin _ = JsNum.fin _
    congr 1
    ring
  · show JsNum.fin _ = JsNum.fin _
    congr 1
    ring
  · show JsNum.fin _ = JsNum.fin _
    congr 1
    ring
  · show JsNum.fin _ = JsNum.fin _
    congr 1
    have h : |100 * mb - 100 * ma| = 100 * |mb - ma| := by
      rw [← mul_sub, abs_mul, abs_of_pos (by norm_num : (0 : ℚ) < 100)]
    rw [h]
    ring

/-- C20 at the full-conversion scenario: both maxima are 1, the consistency is 100. -/
theorem performance_consistency_witness :
    ∃ m, calculatePerformanceMetrics (fun _ => 0) (some conversionScenario) = some m ∧
      m.consistency = JsNum.fin 100 ∧ m.beforeCertainty = JsNum.fin 100 ∧
      m.afterCertainty = JsNum.fin 100 := by
  obtain ⟨m, tb, ta, hm, _, _, _, _, ⟨htb, htb'⟩, ⟨hta, hta'⟩, hcons, hbc, hac, _⟩ :=
    performance_consistency (fun _ => 0) conversionScenario ⟨some [1, 0], some 1⟩
      ⟨some [0, 1], some 1⟩ [1, 0] [0, 1] rfl rfl rfl rfl (by simp) (by simp)
  have e1 : tb = 1 :=
    le_antisymm (by
      simp only [List.mem_cons, List.mem_singleton, List.not_mem_nil, or_false] at htb
      rcases htb with h | h <;> exact h.le.trans (by norm_num))
      (htb' _ (by simp))
  have e2 : ta = 1 :=
    le_antisymm (by
      simp only [List.mem_cons, List.mem_singleton, List.not_mem_nil, or_false] at hta
      rcases hta with h | h <;> exact h.le.trans (by norm_num))
      (hta' _ (by simp))
  refine ⟨m, hm, ?_, ?_, ?_⟩
  · rw [hcons, e1, e2]
    congr 1
    norm_num
  · rw [hbc, e1]
    congr 1
    norm_num
  · rw [hac, e2]
    congr 1
    norm_num

/-- C22: for an analysis with both snapshots present and non-empty probability vectors,
the returned `qualityScore` is `0.4 * avgConfidence + 0.4 * avgCertainty
+ 0.2 * consistency` over the returned 0-100 fields, all of them finite. -/
theorem performance_quality_blend (log2 : ℚ → ℚ) (d : Analysis) (b af : Snapshot)
    (bp ap : List ℚ) (hb : d.before = some b) (ha : d.after = some af)
    (hbp : jsOrObj b.probs [] = bp) (hap : jsOrObj af.probs [] = ap)
    (hbne : bp ≠ []) (hane : ap ≠ []) :
    ∃ (m : PerformanceMetrics) (conf cert cons : ℚ),
      calculatePerformanceMetrics log2 (some d) = some m ∧
      m.avgConfidence = JsNum.fin conf ∧ m.avgCertainty = JsNum.fin cert ∧
      m.consistency = JsNum.fin cons ∧
      m.qualityScore = JsNum.fin (4 / 10 * conf + 4 / 10 * cert + 2 / 10 * cons) := by
  obtain ⟨mb, hmb, hmb'⟩ := exists_greatest bp hbne
  obtain ⟨ma, hma, hma'⟩ := exists_greatest ap hane
  subst hbp hap
  refine ⟨_, _, _, _, performance_eq log2 d b af mb ma hb ha hmb hmb' hma hma',
    rfl, rfl, rfl, ?_⟩
  show JsNum.fin _ = JsNum.fin _
  congr 1
  ring

/-- C22 at the three-class scenario: confidence 50, certainty 50, consistency 100, quality
`0.4 * 50 + 0.4 * 50 + 0.2 * 100`. -/
theorem performance_quality_blend_witness :
    ∃ (m : PerformanceMetrics) (conf cert cons : ℚ),
      calculatePerformanceMetrics (fun _ => 0) (some mixedScenario) = some m ∧
      m.avgConfidence = JsNum.fin conf ∧ m.avgCertainty = JsNum.fin cert ∧
      m.consistency = JsNum.fin cons ∧
      m.qualityScore = JsNum.fin (4 / 10 * conf + 4 / 10 * cert + 2 / 10 * cons) :=
  performance_quality_blend (fun _ => 0) mixedScenario
    ⟨some [5 / 10, 2 / 10, 3 / 10], some (5 / 10)⟩
    ⟨some [3 / 10, 2 / 10, 5 / 10], some (5 / 10)⟩
    [5 / 10, 2 / 10, 3 / 10] [3 / 10, 2 / 10, 5 / 10] rfl rfl rfl rfl (by simp) (by simp)

theorem jsOr_zero_mem_unit (c : Option ℚ) (h : ∀ x, c = some x → 0 ≤ x ∧ x ≤ 1) :
    0 ≤ jsOr c 0 ∧ jsOr c 0 ≤ 1 := by
  rw [jsOr_zero]
  cases c with
  | none => simp
  | some x => exact h x rfl

/-- C29: for an analysis with both snapshots present, confidences and probabilities in
`[0, 1]` and non-empty probability vectors, `avgConfidence`, `avgCertainty`, `consistency`
and `qualityScore` are finite numbers in `[0, 100]`. -/
theorem performance_bounds (log2 : ℚ → ℚ) (d : Analysis) (b af : Snapshot)
    (bp ap : List ℚ) (hb : d.before = some b) (ha : d.after = some af)
    (hbp : jsOrObj b.probs [] = bp) (hap : jsOrObj af.probs [] = ap)
    (hbne : bp ≠ []) (hane : ap ≠ [])
    (hcb : ∀ x, b.confidence = some x → 0 ≤ x ∧ x ≤ 1)
    (hca : ∀ x, af.confidence = some x → 0 ≤ x ∧ x ≤ 1)
    (hpb : ∀ x ∈ bp, 0 ≤ x ∧ x ≤ 1) (hpa : ∀ x ∈ ap, 0 ≤ x ∧ x ≤ 1) :
    ∃ (m : PerformanceMetrics) (conf cert cons quality : ℚ),
      calculatePerformanceMetrics log2 (some d) = some m ∧
      m.avgConfidence = JsNum.fin conf ∧ m.avgCertainty = JsNum.fin cert ∧
      m.consistency = JsNum.fin cons ∧ m.qualityScore = JsNum.fin quality ∧
      (0 ≤ conf ∧ conf ≤ 100) ∧ (0 ≤ cert ∧ cert ≤ 100) ∧
      (0 ≤ cons ∧ cons ≤ 100) ∧ (0 ≤ quality ∧ quality ≤ 100) := by
  obtain ⟨mb, hmb, hmb'⟩ := exists_greatest bp hbne
  obtain ⟨ma, hma, hma'⟩ := exists_greatest ap hane
  subst hbp hap
  obtain ⟨hb0, hb1⟩ := jsOr_zero_mem_unit b.confidence hcb
  obtain ⟨ha0, ha1⟩ := jsOr_zero_mem_unit af.confidence hca
  obtain ⟨hmb0, hmb1⟩ := hpb mb hmb
  obtain ⟨hma0, hma1⟩ := hpa ma hma
  have habs0 : 0 ≤ |mb - ma| := abs_nonneg _
  have habs1 : |mb - ma| ≤ 1 := by
    rw [abs_le]
    constructor <;> linarith
  refine ⟨_, _, _, _, _, performance_eq log2 d b af mb ma hb ha hmb hmb' hma hma',
    rfl, rfl, rfl, rfl, ⟨?_, ?_⟩, ⟨?_, ?_⟩, ⟨?_, ?_⟩, ⟨?_, ?_⟩⟩ <;> nlinarith

/-- C29 at the three-class scenario. -/
theorem performance_bounds_witness :
    ∃ (m : PerformanceMetrics) (quality : ℚ),
      calculatePerformanceMetrics (fun _ => 0) (some mixedScenario) = some m ∧
      m.qualityScore = JsNum.fin quality ∧ 0 ≤ quality ∧ quality ≤ 100 := by
  have hunit : ∀ x : ℚ, (5 : ℚ) / 10 = x → 0 ≤ x ∧ x ≤ 1 := by
    intro x hx
    rw [← hx]
    norm_num
  obtain ⟨m, _, _, _, quality, hm, _, _, _, hq, _, _, _, hbound⟩ :=
    performance_bounds (fun _ => 0) mixedScenario
      ⟨some [5 / 10, 2 / 10, 3 / 10], some (5 / 10)⟩
      ⟨some [3 / 10, 2 / 10, 5 / 10], some (5 / 10)⟩
      [5 / 10, 2 / 10, 3 / 10] [3 / 10, 2 / 10, 5 / 10] rfl rfl rfl rfl (by simp) (by simp)
      (fun x hx => hunit x (Option.some.inj hx)) (fun x hx => hunit x (Option.some.inj hx))
      (by
        intro x hx
        simp only [List.mem_cons, List.mem_singleton, List.not_mem_nil, or_false] at hx
        rcases hx with h | h | h <;> rw [h] <;> norm_num)
      (by
        intro x hx
        simp only [List.mem_cons, List.mem_singleton, List.not_mem_nil, or_false] at hx
        rcases hx with h | h | h <;> rw [h] <;> norm_num)
  exact ⟨m, quality, hm, hq, hbound.1, hbound.2⟩

namespace JsNum

theorem nan_add (x : JsNum) : nan + x = nan := by
  cases x <;> rfl

theorem add_nan (x : JsNum) : x + nan = nan := by
  cases x <;> rfl

theorem nan_sub (x : JsNum) : nan - x = nan := by
  cases x <;> rfl

theorem sub_nan (x : JsNum) : x - nan = nan := by
  cases x <;> rfl

theorem nan_mul (x : JsNum) : nan * x = nan := by
  cases x <;> rfl

theorem mul_nan (x : JsNum) : x * nan = nan := by
  cases x <;> rfl

theorem abs_nan : abs nan = nan := rfl

theorem negInf_add_negInf : negInf + negInf = negInf := rfl

theorem negInf_div_fin (b : ℚ) (hb : 0 < b) : negInf / fin b = negInf := by
  show div negInf (fin b) = negInf
  simp [div, not_lt.mpr hb.le]

theorem negInf_mul_fin (b : ℚ) (hb : 0 < b) : negInf * fin b = negInf := by
  show mul negInf (fin b) = negInf
  simp [mul, sign, hb]

/-- A finite dividend over a zero divisor: `NaN` for `0 / 0`, an infinity otherwise. -/
theorem fin_div_zero (a : ℚ) :
    fin a / fin 0 = if 0 < a then posInf else if a < 0 then negInf else nan := by
  show div (fin a) (fin 0) = _
  simp [div]

theorem fin_div_zero_ne_fin (a q : ℚ) : fin a / fin 0 ≠ fin q := by
  rw [fin_div_zero]
  split_ifs <;> simp

end JsNum

/-- C25, the failing input: with empty probability vectors `Math.max()` is `-Infinity` and
`beforeTop3[0] - afterTop3[0]` is `NaN`, so the certainties are `-Infinity` and the
consistency and the quality score are `NaN`. -/
theorem performance_empty_vectors_not_finite (log2 : ℚ → ℚ) :
    calculatePerformanceMetrics log2 (some emptyClassesScenario) = some
      { avgConfidence := JsNum.fin 0
        avgCertainty := JsNum.negInf
        consistency := JsNum.nan
        entropy := JsNum.fin 0
        qualityScore := JsNum.nan
        beforeConf := JsNum.fin 0
        afterConf := JsNum.fin 0
        beforeCertainty := JsNum.negInf
        afterCertainty := JsNum.negInf } := by
  have h2 : (2 : ℚ) ≠ 0 := by norm_num
  simp only [calculatePerformanceMetrics, emptyClassesScenario, jsOrObj, jsOr, mathMax,
    sortedCopyDesc, jsSort, calculateEntropy, List.insertionSort, List.take_nil,
    List.foldl_nil, neg_zero, JsNum.fin_add, JsNum.fin_mul, List.getElem?_nil,
    JsNum.ofUndefined, JsNum.fin_div _ _ h2, add_zero, zero_div, zero_mul,
    JsNum.negInf_add_negInf, JsNum.negInf_div_fin 2 (by norm_num),
    JsNum.negInf_mul_fin 100 (by norm_num), JsNum.negInf_mul_fin (4 / 10) (by norm_num),
    JsNum.nan_sub, JsNum.sub_nan, JsNum.abs_nan, JsNum.nan_mul, JsNum.add_nan]

/-! ## Missing snapshots and missing entries -/

theorem recordsFrom_before_nil (cf oxf : FactorTable) (area : ℚ) (ap : List ℚ)
    (names : List String) (i : ℕ) :
    ∀ r ∈ recordsFrom cf oxf area [] ap names i,
      r.areaBeforeKm2 = 0 ∧ r.carbonBefore = 0 ∧ r.oxygenBefore = 0 := by
  induction names generalizing i with
  | nil => simp [recordsFrom]
  | cons c cs ih =>
    intro r hr
    simp only [recordsFrom, List.mem_cons] at hr
    rcases hr with rfl | hr
    · simp [classRecord, jsOr, km2ToHectares]
    · exact ih (i + 1) r hr

theorem recordsFrom_after_nil (cf oxf : FactorTable) (area : ℚ) (bp : List ℚ)
    (names : List String) (i : ℕ) :
    ∀ r ∈ recordsFrom cf oxf area bp [] names i,
      r.areaAfterKm2 = 0 ∧ r.carbonAfter = 0 ∧ r.oxygenAfter = 0 := by
  induction names generalizing i with
  | nil => simp [recordsFrom]
  | cons c cs ih =>
    intro r hr
    simp only [recordsFrom, List.mem_cons] at hr
    rcases hr with rfl | hr
    · simp [classRecord, jsOr, km2ToHectares]
    · exact ih (i + 1) r hr

/-- C26 as stated fails: with the before snapshot missing entirely and the class names
present, the estimator does not return `null`. -/
theorem estimate_not_null_without_before :
    noBeforeScenario.before = none ∧
    estimateCarbonAndOxygen plainLocale (some noBeforeScenario) EstimatorOptions.empty
      ≠ none := by
  refine ⟨rfl, ?_⟩
  rw [estimate_eq plainLocale noBeforeScenario EstimatorOptions.empty
    ["Forest", "Industrial"] rfl]
  simp

/-- C26 amended: for an analysis whose before or after snapshot is missing entirely,
`calculateEnvironmentalMetrics` returns `null` and `generateHeatmapData` returns the empty
list; `estimateCarbonAndOxygen` returns `null` only when `class_names` is missing, and
otherwise returns a summary with one record per class in which the missing snapshot counts
as an empty probability vector: its areas, carbon and oxygen values and totals are 0.  The
three functions are total, so none of them throws. -/
theorem no_data_condition (fmt : ℤ → String) (o : EstimatorOptions) (a : Analysis)
    (h : a.before = none ∨ a.after = none) :
    calculateEnvironmentalMetrics (some a) = none ∧
    generateHeatmapData (some a) = [] ∧
    (a.class_names = none → estimateCarbonAndOxygen fmt (some a) o = none) ∧
    (∀ names, a.class_names = some names →
      ∃ s, estimateCarbonAndOxygen fmt (some a) o = some s ∧
        s.resultsByClass.length = names.length ∧
        (a.before = none → s.totalCarbonBefore = 0 ∧ s.totalOxygenBefore = 0 ∧
          ∀ r ∈ s.resultsByClass,
            r.areaBeforeKm2 = 0 ∧ r.carbonBefore = 0 ∧ r.oxygenBefore = 0) ∧
        (a.after = none → s.totalCarbonAfter = 0 ∧ s.totalOxygenAfter = 0 ∧
          ∀ r ∈ s.resultsByClass,
            r.areaAfterKm2 = 0 ∧ r.carbonAfter = 0 ∧ r.oxygenAfter = 0)) := by
  refine ⟨?_, ?_, ?_, ?_⟩
  · rcases h with h | h
    · simp [calculateEnvironmentalMetrics, h]
    · cases hb : a.before <;> simp [calculateEnvironmentalMetrics, h, hb]
  · rcases h with h | h
    · simp [generateHeatmapData, h]
    · cases hb : a.before <;> simp [generateHeatmapData, h, hb]
  · intro hn
    simp [estimateCarbonAndOxygen, hn]
  · intro names hn
    refine ⟨_, estimate_eq fmt a o names hn, recordsFrom_length _ _ _ _ _ names 0, ?_, ?_⟩
    · intro hb
      have hrec : ∀ r ∈ recordsOf a o names,
          r.areaBeforeKm2 = 0 ∧ r.carbonBefore = 0 ∧ r.oxygenBefore = 0 := by
        have hp : probsOf a.before = [] := by simp [probsOf, hb, jsOrObj]
        unfold recordsOf
        rw [hp]
        exact recordsFrom_before_nil _ _ _ _ names 0
      refine ⟨?_, ?_, hrec⟩
      · apply List.sum_eq_zero
        intro x hx
        obtain ⟨r, hr, rfl⟩ := List.mem_map.mp hx
        exact (hrec r hr).2.1
      · apply List.sum_eq_zero
        intro x hx
        obtain ⟨r, hr, rfl⟩ := List.mem_map.mp hx
        exact (hrec r hr).2.2
    · intro hb
      have hrec : ∀ r ∈ recordsOf a o names,
          r.areaAfterKm2 = 0 ∧ r.carbonAfter = 0 ∧ r.oxygenAfter = 0 := by
        have hp : probsOf a.after = [] := by simp [probsOf, hb, jsOrObj]
        unfold recordsOf
        rw [hp]
        exact recordsFrom_after_nil _ _ _ _ names 0
      refine ⟨?_, ?_, hrec⟩
      · apply List.sum_eq_zero
        intro x hx
        obtain ⟨r, hr, rfl⟩ := List.mem_map.mp hx
        exact (hrec r hr).2.1
      · apply List.sum_eq_zero
        intro x hx
        obtain ⟨r, hr, rfl⟩ := List.mem_map.mp hx
        exact (hrec r hr).2.2

/-- C26 amended, at the analysis without a before snapshot. -/
theorem no_data_condition_witness :
    noBeforeScenario.before = none ∧
    calculateEnvironmentalMetrics (some noBeforeScenario) = none ∧
    generateHeatmapData (some noBeforeScenario) = [] ∧
    ∃ s, estimateCarbonAndOxygen plainLocale (some noBeforeScenario) EstimatorOptions.empty
        = some s ∧
      s.resultsByClass.length = 2 ∧ s.totalCarbonBefore = 0 := by
  obtain ⟨h1, h2, _, h4⟩ :=
    no_data_condition plainLocale EstimatorOptions.empty noBeforeScenario (Or.inl rfl)
  obtain ⟨s, hs, hlen, hbefore, _⟩ := h4 ["Forest", "Industrial"] rfl
  exact ⟨rfl, h1, h2, s, hs, hlen, (hbefore rfl).1⟩

theorem getD_zeroFill (n : ℕ) (probs : List ℚ) (i : ℕ) :
    (zeroFill n probs).getD i 0 = probs.getD i 0 := by
  unfold zeroFill
  by_cases hi : i < probs.length
  · rw [List.getD_append _ _ _ _ hi]
  · have hi' : probs.length ≤ i := not_lt.mp hi
    rw [List.getD_append_right _ _ _ _ hi', List.getD_eq_default _ _ hi',
      List.getD_eq_getElem?_getD]
    cases h : (List.replicate (n - probs.length) (0 : ℚ))[i - probs.length]? with
    | none => rfl
    | some v =>
      have hv := List.getElem?_mem h
      rw [List.eq_of_mem_replicate hv]
      rfl

theorem classRecord_zeroFill (cf oxf : FactorTable) (area : ℚ) (bp ap : List ℚ) (n : ℕ)
    (c : String) (i : ℕ) :
    classRecord cf oxf area (zeroFill n bp) (zeroFill n ap) c i
      = classRecord cf oxf area bp ap c i := by
  simp only [classRecord, jsOr_getElem?_zero, getD_zeroFill]

theorem recordsFrom_zeroFill (cf oxf : FactorTable) (area : ℚ) (bp ap : List ℚ) (n : ℕ)
    (names : List String) (i : ℕ) :
    recordsFrom cf oxf area (zeroFill n bp) (zeroFill n ap) names i
      = recordsFrom cf oxf area bp ap names i := by
  induction names generalizing i with
  | nil => rfl
  | cons c cs ih => simp only [recordsFrom, classRecord_zeroFill, ih]

/-- C23: for an analysis with class names and both snapshots present, replacing every
absent probability entry (an index at or beyond the end of the vector, or the `probs`
array missing altogether) by 0 changes neither the result of `estimateCarbonAndOxygen` nor
the result of `generateHeatmapData`; the filled vectors reach at least the length of
`class_names`. -/
theorem zero_fill_invariance (fmt : ℤ → String) (o : EstimatorOptions) (d : Analysis)
    (b af : Snapshot) (names : List String) (hn : d.class_names = some names)
    (hb : d.before = some b) (ha : d.after = some af) :
    estimateCarbonAndOxygen fmt (some (zeroFillAnalysis names.length d b af)) o
      = estimateCarbonAndOxygen fmt (some d) o ∧
    generateHeatmapData (some (zeroFillAnalysis names.length d b af))
      = generateHeatmapData (some d) ∧
    names.length ≤ (zeroFill names.length (jsOrObj b.probs [])).length ∧
    names.length ≤ (zeroFill names.length (jsOrObj af.probs [])).length ∧
    (∀ i, (jsOrObj b.probs []).length ≤ i →
      (zeroFill names.length (jsOrObj b.probs [])).getD i 0 = 0) ∧
    (∀ i, i < (jsOrObj b.probs []).length →
      (zeroFill names.length (jsOrObj b.probs [])).getD i 0 = (jsOrObj b.probs []).getD i 0) := by
  refine ⟨?_, ?_, ?_, ?_, ?_, ?_⟩
  · rw [estimate_eq fmt d o names hn,
      estimate_eq fmt (zeroFillAnalysis names.length d b af) o names hn]
    have hrec : recordsOf (zeroFillAnalysis names.length d b af) o names
        = recordsOf d o names := by
      have h1 : probsOf (zeroFillAnalysis names.length d b af).before
          = zeroFill names.length (probsOf d.before) := by
        simp [zeroFillAnalysis, probsOf, jsOrObj, hb]
      have h2 : probsOf (zeroFillAnalysis names.length d b af).after
          = zeroFill names.length (probsOf d.after) := by
        simp [zeroFillAnalysis, probsOf, jsOrObj, ha]
      unfold recordsOf
      rw [h1, h2]
      exact recordsFrom_zeroFill _ _ _ _ _ _ names 0
    have hyears : yearsOf (zeroFillAnalysis names.length d b af) = yearsOf d := rfl
    rw [hrec, hyears]
  · rw [heatmap_eq d b af names hb ha hn,
      heatmap_eq (zeroFillAnalysis names.length d b af)
        { b with probs := some (zeroFill names.length (jsOrObj b.probs [])) }
        { af with probs := some (zeroFill names.length (jsOrObj af.probs [])) }
        names rfl rfl hn]
    simp only [jsOrObj, getD_zeroFill]
  · simp only [zeroFill, List.length_append, List.length_replicate]
    omega
  · simp only [zeroFill, List.length_append, List.length_replicate]
    omega
  · intro i hi
    rw [getD_zeroFill, List.getD_eq_default _ _ hi]
  · intro i _
    exact getD_zeroFill _ _ i

/-- C23 at an analysis whose vectors are shorter than its three class names. -/
theorem zero_fill_invariance_witness :
    estimateCarbonAndOxygen plainLocale (some
        { shortVectorScenario with
          before := some ⟨some [6 / 10, 4 / 10, 0], some (6 / 10)⟩
          after := some ⟨some [3 / 10, 0, 0], some (3 / 10)⟩ }) EstimatorOptions.empty
      = estimateCarbonAndOxygen plainLocale (some shortVectorScenario)
          EstimatorOptions.empty ∧
    generateHeatmapData (some
        { shortVectorScenario with
          before := some ⟨some [6 / 10, 4 / 10, 0], some (6 / 10)⟩
          after := some ⟨some [3 / 10, 0, 0], some (3 / 10)⟩ })
      = generateHeatmapData (some shortVectorScenario) := by
  have h := zero_fill_invariance plainLocale EstimatorOptions.empty shortVectorScenario
    ⟨some [6 / 10, 4 / 10], some (6 / 10)⟩ ⟨some [3 / 10], some (3 / 10)⟩
    ["Forest", "River", "Industrial"] rfl rfl rfl
  exact ⟨h.1, h.2.1⟩

/-! ## The entropy -/

theorem foldl_add_eq_sum {K : Type} [LinearOrderedField K] (f : K → K) (l : List K)
    (init : K) : l.foldl (fun sum p => sum + f p) init = init + (l.map f).sum := by
  induction l generalizing init with
  | nil => simp
  | cons x xs ih => simp [ih, add_assoc]

theorem calculateEntropy_eq_sum {K : Type} [LinearOrderedField K] (log2 : K → K)
    (l : List K) :
    calculateEntropy log2 l = -(l.map (fun p => if p > 0 then p * log2 p else 0)).sum := by
  rw [calculateEntropy, foldl_add_eq_sum (fun p => if p > 0 then p * log2 p else 0), zero_add]

theorem sum_map_ite_pos {K : Type} [LinearOrderedField K] (g : K → K) (l : List K) :
    (l.map (fun p => if p > 0 then g p else 0)).sum
      = ((l.filter (fun p => decide (p > 0))).map g).sum := by
  induction l with
  | nil => rfl
  | cons x xs ih =>
    by_cases hx : x > 0
    · simp [List.filter_cons, hx, ih]
    · simp [List.filter_cons, hx, ih]

theorem sum_map_affine (A B : ℝ) (l : List ℝ) :
    (l.map (fun p => p * A + B)).sum = l.sum * A + l.length * B := by
  induction l with
  | nil => simp
  | cons x xs ih =>
    simp only [List.map_cons, List.sum_cons, List.length_cons, ih]
    push_cast
    ring

theorem sum_map_neg (f : ℝ → ℝ) (l : List ℝ) :
    (l.map (fun p => -f p)).sum = -(l.map f).sum := by
  induction l with
  | nil => simp
  | cons x xs ih =>
    simp only [List.map_cons, List.sum_cons, ih]
    ring

theorem entropy_term_nonpos (p : ℝ) (h0 : 0 ≤ p) (h1 : p ≤ 1) :
    (if p > 0 then p * Real.logb 2 p else 0) ≤ 0 := by
  split
  · exact mul_nonpos_of_nonneg_of_nonpos h0 (Real.logb_nonpos (by norm_num) h0 h1)
  · exact le_refl 0

theorem entropy_term_gibbs (N : ℝ) (hN : 0 < N) (p : ℝ) (h0 : 0 ≤ p) :
    -(if p > 0 then p * Real.logb 2 p else 0)
      ≤ p * (Real.logb 2 N - 1 / Real.log 2) + 1 / (N * Real.log 2) := by
  have hlog2 : 0 < Real.log 2 := Real.log_pos (by norm_num)
  by_cases hp : p > 0
  · rw [if_pos hp]
    have hNp : 0 < N * p := mul_pos hN hp
    have hkey : Real.log (N * p)⁻¹ ≤ (N * p)⁻¹ - 1 :=
      Real.log_le_sub_one_of_pos (inv_pos.mpr hNp)
    rw [Real.log_inv, Real.log_mul hN.ne' hp.ne'] at hkey
    have hmul : p * (-(Real.log N + Real.log p)) ≤ p * ((N * p)⁻¹ - 1) :=
      mul_le_mul_of_nonneg_left hkey h0
    have hsimp : p * ((N * p)⁻¹ - 1) = 1 / N - p := by
      field_simp
      ring
    rw [hsimp] at hmul
    have hdiv : (p * (-(Real.log N + Real.log p))) / Real.log 2 ≤ (1 / N - p) / Real.log 2 :=
      div_le_div_of_nonneg_right hmul hlog2.le
    have e1 : -(p * Real.logb 2 p)
        = (p * (-(Real.log N + Real.log p))) / Real.log 2 + p * Real.logb 2 N := by
      simp only [Real.logb]
      field_simp
      ring
    have e2 : p * (Real.logb 2 N - 1 / Real.log 2) + 1 / (N * Real.log 2)
        = (1 / N - p) / Real.log 2 + p * Real.logb 2 N := by
      field_simp
      ring
    rw [e1, e2]
    linarith
  · rw [if_neg hp]
    have hp0 : p = 0 := le_antisymm (not_lt.mp hp) h0
    rw [hp0]
    have : 0 < 1 / (N * Real.log 2) := by positivity
    simp only [neg_zero, zero_mul, zero_add]
    exact this.le

theorem entropy_bounds (l : List ℝ) (hne : l ≠ []) (hnn : ∀ p ∈ l, 0 ≤ p)
    (hsum : l.sum = 1) :
    0 ≤ calculateEntropy (Real.logb 2) l ∧
      calculateEntropy (Real.logb 2) l ≤ Real.logb 2 l.length := by
  have hlog2 : 0 < Real.log 2 := Real.log_pos (by norm_num)
  have hlen : 0 < (l.length : ℝ) := by
    have : 0 < l.length := List.length_pos.mpr hne
    exact_mod_cast this
  rw [calculateEntropy_eq_sum]
  constructor
  · rw [neg_nonneg]
    have h := List.sum_le_sum (l := l)
      (f := fun p => if p > 0 then p * Real.logb 2 p else 0) (g := fun _ => (0 : ℝ))
      (fun p hp => entropy_term_nonpos p (hnn p hp)
        (hsum ▸ List.single_le_sum hnn p hp))
    simpa using h
  · have h := List.sum_le_sum (l := l)
      (f := fun p => -(if p > 0 then p * Real.logb 2 p else 0))
      (g := fun p => p * (Real.logb 2 l.length - 1 / Real.log 2)
        + 1 / (l.length * Real.log 2))
      (fun p hp => entropy_term_gibbs l.length hlen p (hnn p hp))
    rw [sum_map_affine, hsum] at h
    rw [sum_map_neg] at h
    have e : 1 * (Real.logb 2 l.length - 1 / Real.log 2)
        + l.length * (1 / (l.length * Real.log 2)) = Real.logb 2 l.length := by
      field_simp
      ring
    rw [e] at h
    exact h
theorem entropy_one_hot (l : List ℝ) (h : ∀ p ∈ l, p = 0 ∨ p = 1) :
    calculateEntropy (Real.logb 2) l = 0 := by
  rw [calculateEntropy_eq_sum, neg_eq_zero]
  apply List.sum_eq_zero
  intro x hx
  obtain ⟨p, hp, rfl⟩ := List.mem_map.mp hx
  rcases h p hp with h0 | h1
  · simp [h0]
  · simp [h1]

theorem entropy_uniform (N : ℕ) (hN : 1 ≤ N) :
    calculateEntropy (Real.logb 2) (List.replicate N (1 / (N : ℝ))) = Real.logb 2 N := by
  have hN0 : (0 : ℝ) < N := by exact_mod_cast hN
  have hpos : (1 : ℝ) / N > 0 := by positivity
  rw [calculateEntropy_eq_sum, List.map_replicate, List.sum_replicate, if_pos hpos,
    one_div, Real.logb_inv, nsmul_eq_mul]
  field_simp


theorem performance_entropy_mean (log2 : ℚ → ℚ) (d : Analysis) (b af : Snapshot)
    (hb : d.before = some b) (ha : d.after = some af) :
    ∃ m, calculatePerformanceMetrics log2 (some d) = some m ∧
      m.entropy = JsNum.fin ((calculateEntropy log2 (jsOrObj b.probs [])
        + calculateEntropy log2 (jsOrObj af.probs [])) / 2) := by
  have h2 : (2 : ℚ) ≠ 0 := by norm_num
  simp only [calculatePerformanceMetrics, hb, ha]
  refine ⟨_, rfl, ?_⟩
  simp only [JsNum.fin_add, JsNum.fin_div _ _ h2]

/-- C21: `calculateEntropy` computes minus the sum of `p * log2(p)` over the entries with
`p > 0`, the other entries contributing 0; over the real numbers with the base-2
logarithm, for a vector of length `N ≥ 1` with non-negative entries summing to 1, the
result lies in `[0, log2(N)]`, it is 0 for a vector of zeros and ones (so for a one-hot
vector) and `log2(N)` for the uniform vector; and the entropy reported by
`calculatePerformanceMetrics` is the mean of the before and the after entropy. -/
theorem entropy_spec :
    (∀ (K : Type) [LinearOrderedField K] (log2 : K → K) (l : List K),
      calculateEntropy log2 l
        = -((l.filter (fun p => decide (p > 0))).map (fun p => p * log2 p)).sum) ∧
    (∀ l : List ℝ, l ≠ [] → (∀ p ∈ l, 0 ≤ p) → l.sum = 1 →
      0 ≤ calculateEntropy (Real.logb 2) l ∧
        calculateEntropy (Real.logb 2) l ≤ Real.logb 2 l.length) ∧
    (∀ l : List ℝ, (∀ p ∈ l, p = 0 ∨ p = 1) → calculateEntropy (Real.logb 2) l = 0) ∧
    (∀ N : ℕ, 1 ≤ N →
      calculateEntropy (Real.logb 2) (List.replicate N (1 / (N : ℝ))) = Real.logb 2 N) ∧
    (∀ (log2 : ℚ → ℚ) (d : Analysis) (b af : Snapshot), d.before = some b →
      d.after = some af →
      ∃ m, calculatePerformanceMetrics log2 (some d) = some m ∧
        m.entropy = JsNum.fin ((calculateEntropy log2 (jsOrObj b.probs [])
          + calculateEntropy log2 (jsOrObj af.probs [])) / 2)) := by
  refine ⟨?_, entropy_bounds, entropy_one_hot, entropy_uniform, performance_entropy_mean⟩
  intro K _ log2 l
  rw [calculateEntropy_eq_sum, sum_map_ite_pos]

/-- C21 at the uniform vector of length 2, whose entropy is one bit, and at the one-hot
vector `[1, 0]`, whose entropy is 0. -/
theorem entropy_spec_witness :
    calculateEntropy (Real.logb 2) (List.replicate 2 (1 / ((2 : ℕ) : ℝ))) = 1 ∧
    calculateEntropy (Real.logb 2) [1, 0] = 0 := by
  obtain ⟨_, _, hone, huni, _⟩ := entropy_spec
  refine ⟨?_, ?_⟩
  · rw [huni 2 (by norm_num)]
    exact_mod_cast Real.logb_self_eq_one (by norm_num : (1 : ℝ) < 2)
  · apply hone
    intro p hp
    simp only [List.mem_cons, List.mem_singleton, List.not_mem_nil, or_false] at hp
    rcases hp with h | h
    · exact Or.inr h
    · exact Or.inl h

/-! ## Exchanging the two snapshots -/

theorem classRecord_swap (cf oxf : FactorTable) (area : ℚ) (bp ap : List ℚ) (c : String)
    (i : ℕ) :
    classRecord cf oxf area ap bp c i = swapRecord (classRecord cf oxf area bp ap c i) := by
  simp only [classRecord, swapRecord, neg_sub]

theorem recordsFrom_swap (cf oxf : FactorTable) (area : ℚ) (bp ap : List ℚ)
    (names : List String) (i : ℕ) :
    recordsFrom cf oxf area ap bp names i
      = (recordsFrom cf oxf area bp ap names i).map swapRecord := by
  induction names generalizing i with
  | nil => rfl
  | cons c cs ih =>
    show classRecord cf oxf area ap bp c i :: recordsFrom cf oxf area ap bp cs (i + 1)
      = swapRecord (classRecord cf oxf area bp ap c i)
        :: (recordsFrom cf oxf area bp ap cs (i + 1)).map swapRecord
    rw [classRecord_swap cf oxf area bp ap c i, ih (i + 1)]

theorem isSignificant_swap (r : ClassRecord) : isSignificant (swapRecord r) = isSignificant r := by
  simp only [isSignificant, swapRecord, abs_neg]

theorem significant_swap (recs : List ClassRecord) :
    significant (recs.map swapRecord) = (significant recs).map swapRecord := by
  unfold significant jsSort
  have hfilter : (recs.map swapRecord).filter isSignificant
      = (recs.filter isSignificant).map swapRecord := by
    rw [List.filter_map]
    congr 1
    apply List.filter_congr
    intro r _
    exact isSignificant_swap r
  rw [hfilter]
  symm
  apply List.map_insertionSort
  intro a _ b _
  simp only [swapRecord, abs_neg]

theorem sentencesOf_eq_parts (fmt : ℤ → String) (years : ℤ) (r : ClassRecord) :
    sentencesOf fmt years r = (partsOf r).map (renderSentence fmt years) := by
  by_cases hc : |r.carbonChange| > 1 <;> by_cases ho : |r.oxygenChange| > 1 <;>
    by_cases hcn : r.carbonChange < 0 <;> by_cases hon : r.oxygenChange < 0 <;>
    simp [sentencesOf, partsOf, hc, ho, hcn, hon, renderSentence, carbonSentence,
      oxygenSentence]

theorem partsOf_swap (r : ClassRecord) :
    partsOf (swapRecord r) = (partsOf r).map SentenceParts.flip := by
  have hflip : ∀ x : ℚ, |x| > 1 → decide (-x < 0) = !decide (x < 0) := by
    intro x hx
    have hx0 : x ≠ 0 := by
      intro h
      rw [h, abs_zero] at hx
      norm_num at hx
    rcases lt_or_gt_of_ne hx0 with h | h
    · have h' : ¬ -x < 0 := by linarith
      simp [h, h']
    · have h' : ¬ x < 0 := by linarith
      have h'' : -x < 0 := by linarith
      simp [h', h'']
  by_cases hc : |r.carbonChange| > 1 <;> by_cases ho : |r.oxygenChange| > 1
  · simp only [partsOf, swapRecord, abs_neg, hc, ho, if_true, List.map_append,
      List.map_cons, List.map_nil, SentenceParts.flip, hflip _ hc, hflip _ ho]
  · simp only [partsOf, swapRecord, abs_neg, hc, ho, if_true, if_false, List.map_append,
      List.map_cons, List.map_nil, SentenceParts.flip, hflip _ hc]
  · simp only [partsOf, swapRecord, abs_neg, hc, ho, if_true, if_false, List.map_append,
      List.map_cons, List.map_nil, SentenceParts.flip, hflip _ ho]
  · simp only [partsOf, swapRecord, abs_neg, hc, ho, if_false, List.map_append,
      List.map_nil]

theorem sentences_eq_parts (fmt : ℤ → String) (years : ℤ) (recs : List ClassRecord) :
    pushSentences fmt years (significant recs)
      = ((significant recs).flatMap partsOf).map (renderSentence fmt years) := by
  rw [pushSentences_eq_flatMap, List.map_flatMap]
  apply List.flatMap_congr
  intro r _
  exact sentencesOf_eq_parts fmt years r

theorem sentences_swap_eq_parts (fmt : ℤ → String) (years : ℤ) (recs : List ClassRecord) :
    pushSentences fmt years (significant (recs.map swapRecord))
      = ((significant recs).flatMap partsOf).map
          (fun s => renderSentence fmt years s.flip) := by
  rw [sentences_eq_parts, significant_swap, List.flatMap_map, List.map_flatMap,
    List.map_flatMap]
  apply List.flatMap_congr
  intro r _
  rw [partsOf_swap, List.map_map]
  rfl

/-- C28: for two analyses with the same class names and years, the second having the
probability vectors of the first with before and after exchanged, the estimator's results
are mirror images: every per-class `carbonChange` and `oxygenChange` and both total changes
are negated, the before and after totals are exchanged, and the sentences of the second
are the sentences of the first, one for one and in the same order, with `gained` and
`lost` exchanged. -/
theorem estimate_swap_antisymmetric (fmt : ℤ → String) (o : EstimatorOptions)
    (a a' : Analysis) (names : List String) (hn : a.class_names = some names)
    (hn' : a'.class_names = some names) (hyb : a'.before_year = a.before_year)
    (hya : a'.after_year = a.after_year) (h1 : probsOf a'.before = probsOf a.after)
    (h2 : probsOf a'.after = probsOf a.before) :
    ∃ s s', estimateCarbonAndOxygen fmt (some a) o = some s ∧
      estimateCarbonAndOxygen fmt (some a') o = some s' ∧
      s'.resultsByClass.map (·.className) = s.resultsByClass.map (·.className) ∧
      s'.resultsByClass.map (·.carbonChange)
        = s.resultsByClass.map (fun r => -r.carbonChange) ∧
      s'.resultsByClass.map (·.oxygenChange)
        = s.resultsByClass.map (fun r => -r.oxygenChange) ∧
      s'.totalCarbonChange = -s.totalCarbonChange ∧
      s'.totalOxygenChange = -s.totalOxygenChange ∧
      s'.totalCarbonBefore = s.totalCarbonAfter ∧
      s'.totalCarbonAfter = s.totalCarbonBefore ∧
      s'.totalOxygenBefore = s.totalOxygenAfter ∧
      s'.totalOxygenAfter = s.totalOxygenBefore ∧
      s'.sentences.length = s.sentences.length ∧
      ∃ parts : List SentenceParts,
        s.sentences = parts.map (renderSentence fmt s.years) ∧
        s'.sentences = parts.map (fun p => renderSentence fmt s.years p.flip) := by
  have hrec : recordsOf a' o names = (recordsOf a o names).map swapRecord := by
    unfold recordsOf
    rw [h1, h2]
    exact recordsFrom_swap _ _ _ _ _ names 0
  have hyears : yearsOf a' = yearsOf a := by
    unfold yearsOf
    rw [hyb, hya]
  have hcb : ((recordsOf a' o names).map (·.carbonBefore))
      = (recordsOf a o names).map (·.carbonAfter) := by
    rw [hrec, List.map_map]; rfl
  have hca : ((recordsOf a' o names).map (·.carbonAfter))
      = (recordsOf a o names).map (·.carbonBefore) := by
    rw [hrec, List.map_map]; rfl
  have hob : ((recordsOf a' o names).map (·.oxygenBefore))
      = (recordsOf a o names).map (·.oxygenAfter) := by
    rw [hrec, List.map_map]; rfl
  have hoa : ((recordsOf a' o names).map (·.oxygenAfter))
      = (recordsOf a o names).map (·.oxygenBefore) := by
    rw [hrec, List.map_map]; rfl
  refine ⟨_, _, estimate_eq fmt a o names hn, estimate_eq fmt a' o names hn',
    ?_, ?_, ?_, ?_, ?_, ?_, ?_, ?_, ?_, ?_, ?_⟩
  · show (recordsOf a' o names).map (·.className) = (recordsOf a o names).map (·.className)
    rw [hrec, List.map_map]; rfl
  · show (recordsOf a' o names).map (·.carbonChange) = _
    rw [hrec, List.map_map]; rfl
  · show (recordsOf a' o names).map (·.oxygenChange) = _
    rw [hrec, List.map_map]; rfl
  · show ((recordsOf a' o names).map (·.carbonAfter)).sum
        - ((recordsOf a' o names).map (·.carbonBefore)).sum
      = -(((recordsOf a o names).map (·.carbonAfter)).sum
        - ((recordsOf a o names).map (·.carbonBefore)).sum)
    rw [hcb, hca]; ring
  · show ((recordsOf a' o names).map (·.oxygenAfter)).sum
        - ((recordsOf a' o names).map (·.oxygenBefore)).sum
      = -(((recordsOf a o names).map (·.oxygenAfter)).sum
        - ((recordsOf a o names).map (·.oxygenBefore)).sum)
    rw [hob, hoa]; ring
  · show ((recordsOf a' o names).map (·.carbonBefore)).sum = _
    rw [hcb]
  · show ((recordsOf a' o names).map (·.carbonAfter)).sum = _
    rw [hca]
  · show ((recordsOf a' o names).map (·.oxygenBefore)).sum = _
    rw [hob]
  · show ((recordsOf a' o names).map (·.oxygenAfter)).sum = _
    rw [hoa]
  · show (pushSentences fmt (yearsOf a') (significant (recordsOf a' o names))).length
      = (pushSentences fmt (yearsOf a) (significant (recordsOf a o names))).length
    rw [hrec, hyears, sentences_swap_eq_parts, sentences_eq_parts, List.length_map,
      List.length_map]
  · refine ⟨(significant (recordsOf a o names)).flatMap partsOf, ?_, ?_⟩
    · exact sentences_eq_parts fmt (yearsOf a) _
    · show pushSentences fmt (yearsOf a') (significant (recordsOf a' o names)) = _
      rw [hrec, hyears]
      exact sentences_swap_eq_parts fmt (yearsOf a) _

/-- C28 at the three-class scenario and its mirror image. -/
theorem estimate_swap_antisymmetric_witness :
    ∃ s s', estimateCarbonAndOxygen plainLocale (some mixedScenario) EstimatorOptions.empty
        = some s ∧
      estimateCarbonAndOxygen plainLocale (some
        { mixedScenario with
          before := some ⟨some [3 / 10, 2 / 10, 5 / 10], some (5 / 10)⟩
          after := some ⟨some [5 / 10, 2 / 10, 3 / 10], some (5 / 10)⟩ })
        EstimatorOptions.empty = some s' ∧
      s'.totalCarbonChange = -s.totalCarbonChange ∧
      s'.sentences.length = s.sentences.length := by
  obtain ⟨s, s', hs, hs', _, _, _, hc, _, _, _, _, _, hlen, _⟩ :=
    estimate_swap_antisymmetric plainLocale EstimatorOptions.empty mixedScenario
      { mixedScenario with
        before := some ⟨some [3 / 10, 2 / 10, 5 / 10], some (5 / 10)⟩
        after := some ⟨some [5 / 10, 2 / 10, 3 / 10], some (5 / 10)⟩ }
      ["Forest", "River", "Industrial"] rfl rfl rfl rfl rfl rfl
  exact ⟨s, s', hs, hs', hc, hlen⟩


/-! ## The carbon impact tracker -/

theorem forEachIdx_carbonStep_items (bp ap : List ℚ) (area : ℚ) (names : List String) (i : ℕ)
    (acc : CarbonImpactTracker.CarbonAcc) :
    (forEachIdx (CarbonImpactTracker.carbonStep bp ap area) names i acc).items
      = acc.items ++ carbonItemsFrom bp ap area names i := by
  induction names generalizing i acc with
  | nil => simp [forEachIdx, carbonItemsFrom]
  | cons c cs ih => simp [forEachIdx, carbonItemsFrom, ih, CarbonImpactTracker.carbonStep]

theorem forEachIdx_carbonStep_before (bp ap : List ℚ) (area : ℚ) (names : List String) (i : ℕ)
    (acc : CarbonImpactTracker.CarbonAcc) :
    (forEachIdx (CarbonImpactTracker.carbonStep bp ap area) names i acc).beforeCarbon
      = acc.beforeCarbon + ((carbonItemsFrom bp ap area names i).map (·.beforeCO2)).sum := by
  induction names generalizing i acc with
  | nil => simp [forEachIdx, carbonItemsFrom]
  | cons c cs ih =>
    simp [forEachIdx, carbonItemsFrom, ih, CarbonImpactTracker.carbonStep, add_assoc]

theorem forEachIdx_carbonStep_after (bp ap : List ℚ) (area : ℚ) (names : List String) (i : ℕ)
    (acc : CarbonImpactTracker.CarbonAcc) :
    (forEachIdx (CarbonImpactTracker.carbonStep bp ap area) names i acc).afterCarbon
      = acc.afterCarbon + ((carbonItemsFrom bp ap area names i).map (·.afterCO2)).sum := by
  induction names generalizing i acc with
  | nil => simp [forEachIdx, carbonItemsFrom]
  | cons c cs ih =>
    simp [forEachIdx, carbonItemsFrom, ih, CarbonImpactTracker.carbonStep, add_assoc]

theorem foldl_add_map_eq_sum {α : Type} (f : α → ℚ) (l : List α) (init : ℚ) :
    l.foldl (fun sum c => sum + f c) init = init + (l.map f).sum := by
  induction l generalizing init with
  | nil => simp
  | cons x xs ih => simp [ih, add_assoc]

/-- The tracker in closed form: with both snapshots and the class names present it returns
the metrics built from `carbonItemsOf`. -/
theorem carbonMetrics_eq (d : Analysis) (b af : Snapshot) (names : List String)
    (hb : d.before = some b) (ha : d.after = some af) (hn : d.class_names = some names) :
    CarbonImpactTracker.calculateCarbonMetrics (some d) = some
      { beforeCarbon := ((carbonItemsOf b af names).map (·.beforeCO2)).sum
        afterCarbon := ((carbonItemsOf b af names).map (·.afterCO2)).sum
        totalCarbonChange := ((carbonItemsOf b af names).map (·.afterCO2)).sum
          - ((carbonItemsOf b af names).map (·.beforeCO2)).sum
        annualCarbonRate :=
          JsNum.fin (((carbonItemsOf b af names).map (·.afterCO2)).sum
            - ((carbonItemsOf b af names).map (·.beforeCO2)).sum)
            / JsNum.fin ((yearsOf d : ℤ) : ℚ)
        carbonByClass := jsSort (fun x y => |y.changeCO2| - |x.changeCO2|)
          ((carbonItemsOf b af names).filter carbonKept)
        sequestrationSources :=
          ((carbonItemsOf b af names).filter carbonKept).filter
            (fun c => decide (c.changeCO2 > 0))
        emissionSources :=
          ((carbonItemsOf b af names).filter carbonKept).filter
            (fun c => decide (c.changeCO2 < 0))
        totalSequestration :=
          ((((carbonItemsOf b af names).filter carbonKept).filter
            (fun c => decide (c.changeCO2 > 0))).map (·.changeCO2)).sum
        totalEmissions :=
          |((((carbonItemsOf b af names).filter carbonKept).filter
            (fun c => decide (c.changeCO2 < 0))).map (·.changeCO2)).sum|
        netImpact :=
          ((((carbonItemsOf b af names).filter carbonKept).filter
            (fun c => decide (c.changeCO2 > 0))).map (·.changeCO2)).sum
          - |((((carbonItemsOf b af names).filter carbonKept).filter
            (fun c => decide (c.changeCO2 < 0))).map (·.changeCO2)).sum|
        assumedAreaKm2 := 100 } := by
  simp only [CarbonImpactTracker.calculateCarbonMetrics, hb, ha, hn,
    forEachIdx_carbonStep_items, forEachIdx_carbonStep_before, forEachIdx_carbonStep_after,
    List.nil_append, zero_add, carbonItemsOf, yearsOf, foldl_add_map_eq_sum]
  rfl


theorem carbonFactors_eq_default :
    CarbonImpactTracker.carbonFactors = DEFAULT_CARBON_FACTORS := rfl

theorem recordsFrom_carbonBefore_scale (oxf : FactorTable) (bp ap : List ℚ)
    (names : List String) (i : ℕ) :
    ((recordsFrom DEFAULT_CARBON_FACTORS oxf 100 bp ap names i).map (·.carbonBefore)).sum
      = 100 * ((carbonItemsFrom bp ap 100 names i).map (·.beforeCO2)).sum := by
  induction names generalizing i with
  | nil => simp [recordsFrom, carbonItemsFrom]
  | cons c cs ih =>
    simp only [recordsFrom, carbonItemsFrom, List.map_cons, List.sum_cons, ih]
    simp only [classRecord, CarbonImpactTracker.carbonItem, km2ToHectares,
      carbonFactors_eq_default]
    ring

theorem recordsFrom_carbonAfter_scale (oxf : FactorTable) (bp ap : List ℚ)
    (names : List String) (i : ℕ) :
    ((recordsFrom DEFAULT_CARBON_FACTORS oxf 100 bp ap names i).map (·.carbonAfter)).sum
      = 100 * ((carbonItemsFrom bp ap 100 names i).map (·.afterCO2)).sum := by
  induction names generalizing i with
  | nil => simp [recordsFrom, carbonItemsFrom]
  | cons c cs ih =>
    simp only [recordsFrom, carbonItemsFrom, List.map_cons, List.sum_cons, ih]
    simp only [classRecord, CarbonImpactTracker.carbonItem, km2ToHectares,
      carbonFactors_eq_default]
    ring

/-- C27 amended: in exact arithmetic (every product and sum taken without rounding), for
an analysis with `class_names`, `before` and `after` present, the estimator run with the
default carbon table (no table supplied, or the default one) and an effective
`assumedAreaKm2` of 100 returns `totalCarbonBefore`, `totalCarbonAfter` and
`totalCarbonChange` equal to 100 times the `beforeCarbon`, `afterCarbon` and
`totalCarbonChange` that `calculateCarbonMetrics` of the tracker returns: the estimator
converts square kilometres to hectares, the tracker does not.  The values that the
program computes in doubles need not be in that ratio. -/
theorem estimator_hundred_times_tracker (fmt : ℤ → String) (o : EstimatorOptions)
    (a : Analysis) (b af : Snapshot) (names : List String)
    (hn : a.class_names = some names) (hb : a.before = some b) (ha : a.after = some af)
    (htable : jsOrObj o.carbonFactors DEFAULT_CARBON_FACTORS = DEFAULT_CARBON_FACTORS)
    (harea : jsOr o.assumedAreaKm2 100 = 100) :
    ∃ s m, estimateCarbonAndOxygen fmt (some a) o = some s
      ∧ CarbonImpactTracker.calculateCarbonMetrics (some a) = some m
      ∧ s.totalCarbonBefore = 100 * m.beforeCarbon
      ∧ s.totalCarbonAfter = 100 * m.afterCarbon
      ∧ s.totalCarbonChange = 100 * m.totalCarbonChange := by
  refine ⟨_, _, estimate_eq fmt a o names hn, carbonMetrics_eq a b af names hb ha hn, ?_⟩
  have hbp : probsOf a.before = jsOrObj b.probs [] := by rw [hb]; rfl
  have hap : probsOf a.after = jsOrObj af.probs [] := by rw [ha]; rfl
  simp only [recordsOf, htable, harea, hbp, hap, carbonItemsOf,
    recordsFrom_carbonBefore_scale, recordsFrom_carbonAfter_scale]
  refine ⟨trivial, trivial, ?_⟩
  ring

theorem estimator_hundred_times_tracker_witness :
    ∃ s m, estimateCarbonAndOxygen plainLocale (some mixedScenario) EstimatorOptions.empty
        = some s
      ∧ CarbonImpactTracker.calculateCarbonMetrics (some mixedScenario) = some m
      ∧ s.totalCarbonBefore = 100 * m.beforeCarbon
      ∧ s.totalCarbonAfter = 100 * m.afterCarbon
      ∧ s.totalCarbonChange = 100 * m.totalCarbonChange :=
  estimator_hundred_times_tracker plainLocale EstimatorOptions.empty mixedScenario
    ⟨some [5 / 10, 2 / 10, 3 / 10], some (5 / 10)⟩
    ⟨some [3 / 10, 2 / 10, 5 / 10], some (5 / 10)⟩ ["Forest", "River", "Industrial"]
    rfl rfl rfl rfl rfl

/-- The values of the tracker on the three-class scenario: `beforeCarbon` is
`0.5 * 100 * 10.5 + 0.3 * 100 * (-8.7) = 264` and `afterCarbon` is `315 - 435 = -120`. -/
theorem tracker_mixed_values :
    (CarbonImpactTracker.calculateCarbonMetrics (some mixedScenario)).map
      (fun m => (m.beforeCarbon, m.afterCarbon, m.totalCarbonChange))
      = some (264, -120, -384) := by
  simp [CarbonImpactTracker.calculateCarbonMetrics, mixedScenario, forEachIdx,
    CarbonImpactTracker.carbonStep, CarbonImpactTracker.carbonItem,
    CarbonImpactTracker.carbonFactors, jsOr, jsOrObj]
  norm_num


/-! ## The tracker: kept classes, order and net impact -/

theorem carbonItemsFrom_map_className (bp ap : List ℚ) (area : ℚ) (names : List String)
    (i : ℕ) : (carbonItemsFrom bp ap area names i).map (·.className) = names := by
  induction names generalizing i with
  | nil => rfl
  | cons c cs ih => simp [carbonItemsFrom, ih, CarbonImpactTracker.carbonItem]

theorem carbonItemsFrom_length (bp ap : List ℚ) (area : ℚ) (names : List String) (i : ℕ) :
    (carbonItemsFrom bp ap area names i).length = names.length := by
  induction names generalizing i with
  | nil => rfl
  | cons c cs ih => simp [carbonItemsFrom, ih]

theorem carbonItemsFrom_getElem? (bp ap : List ℚ) (area : ℚ) (names : List String)
    (i j : ℕ) (hj : j < names.length) :
    (carbonItemsFrom bp ap area names i)[j]?
      = some (CarbonImpactTracker.carbonItem bp ap area (names.get ⟨j, hj⟩) (i + j)) := by
  induction names generalizing i j with
  | nil => simp at hj
  | cons c cs ih =>
    cases j with
    | zero => simp [carbonItemsFrom]
    | succ k =>
      have hk : k < cs.length := by simpa using hj
      simp only [carbonItemsFrom, List.getElem?_cons_succ, List.get_cons_succ]
      rw [ih (i + 1) k hk]
      congr 2
      omega

theorem carbonItemsFrom_sum_change (bp ap : List ℚ) (area : ℚ) (names : List String)
    (i : ℕ) :
    ((carbonItemsFrom bp ap area names i).map (·.changeCO2)).sum
      = ((carbonItemsFrom bp ap area names i).map (·.afterCO2)).sum
        - ((carbonItemsFrom bp ap area names i).map (·.beforeCO2)).sum := by
  induction names generalizing i with
  | nil => simp [carbonItemsFrom]
  | cons c cs ih =>
    simp only [carbonItemsFrom, List.map_cons, List.sum_cons, ih]
    simp only [CarbonImpactTracker.carbonItem]
    ring

section SignedSums

variable {α : Type} (f : α → ℚ)

theorem sum_filter_pos_nonneg (l : List α) :
    0 ≤ ((l.filter (fun c => decide (f c > 0))).map f).sum := by
  apply List.sum_nonneg
  intro x hx
  obtain ⟨c, hc, rfl⟩ := List.mem_map.mp hx
  have h := (List.mem_filter.mp hc).2
  exact le_of_lt (by simpa using h)

theorem sum_filter_neg_nonpos (l : List α) :
    ((l.filter (fun c => decide (f c < 0))).map f).sum ≤ 0 := by
  induction l with
  | nil => simp
  | cons x xs ih =>
    by_cases h : f x < 0
    · simp only [List.filter_cons, h, decide_True, if_true, List.map_cons, List.sum_cons]
      linarith
    · simp only [List.filter_cons, h, decide_False, Bool.false_eq_true, if_false]
      exact ih

theorem sum_eq_pos_add_neg (l : List α) :
    (l.map f).sum = ((l.filter (fun c => decide (f c > 0))).map f).sum
      + ((l.filter (fun c => decide (f c < 0))).map f).sum := by
  induction l with
  | nil => simp
  | cons x xs ih =>
    rcases lt_trichotomy (f x) 0 with h | h | h
    · have h' : ¬ f x > 0 := not_lt.mpr h.le
      simp only [List.filter_cons, h, h', decide_True, decide_False, Bool.false_eq_true,
        if_true, if_false, List.map_cons, List.sum_cons, ih]
      ring
    · have h1 : ¬ f x > 0 := by rw [h]; exact lt_irrefl 0
      have h2 : ¬ f x < 0 := by rw [h]; exact lt_irrefl 0
      simp only [List.filter_cons, h1, h2, decide_False, Bool.false_eq_true, if_false,
        List.map_cons, List.sum_cons, ih]
      rw [h, zero_add]
    · have h' : ¬ f x < 0 := not_lt.mpr h.le
      simp only [List.filter_cons, gt_iff_lt, h, h', decide_True, decide_False,
        Bool.false_eq_true, if_true, if_false, List.map_cons, List.sum_cons, ih]
      ring

/-- The sum over the positive elements minus the magnitude of the sum over the negative
ones is the plain sum. -/
theorem pos_sub_abs_neg_eq_sum (l : List α) :
    ((l.filter (fun c => decide (f c > 0))).map f).sum
      - |((l.filter (fun c => decide (f c < 0))).map f).sum| = (l.map f).sum := by
  rw [abs_of_nonpos (sum_filter_neg_nonpos f l), sum_eq_pos_add_neg f l]
  ring

theorem sum_eq_filter_add_filter_not (p : α → Bool) (l : List α) :
    (l.map f).sum = ((l.filter p).map f).sum + ((l.filter (fun c => !p c)).map f).sum := by
  induction l with
  | nil => simp
  | cons x xs ih =>
    cases h : p x
    · simp only [List.filter_cons, h, Bool.not_false, Bool.false_eq_true, if_true, if_false,
        List.map_cons, List.sum_cons, ih]
      ring
    · simp only [List.filter_cons, h, Bool.not_true, Bool.false_eq_true, if_true, if_false,
        List.map_cons, List.sum_cons, ih]
      ring

end SignedSums


theorem abs_sum_dropped_le (l : List CarbonImpactTracker.CarbonClass) :
    |((l.filter (fun c => !carbonKept c)).map (·.changeCO2)).sum|
      ≤ 1 / 10 * (((l.filter carbonSmall).length : ℕ) : ℚ) := by
  induction l with
  | nil => simp
  | cons x xs ih =>
    by_cases hk : |x.changeCO2| > 1 / 10
    · have h1 : carbonKept x = true := decide_eq_true hk
      have h2 : carbonSmall x = false := by
        simp only [carbonSmall, decide_eq_false_iff_not, not_and, not_le]
        exact fun _ => hk
      simp only [List.filter_cons, h1, h2, Bool.not_true, Bool.false_eq_true, if_false]
      exact ih
    · have h1 : carbonKept x = false := decide_eq_false hk
      have hle : |x.changeCO2| ≤ 1 / 10 := not_lt.mp hk
      by_cases hz : 0 < |x.changeCO2|
      · have h2 : carbonSmall x = true := decide_eq_true ⟨hz, hle⟩
        simp only [List.filter_cons, h1, h2, Bool.not_false, if_true, List.map_cons,
          List.sum_cons, List.length_cons, Nat.cast_succ]
        have habs := abs_add x.changeCO2
          ((xs.filter (fun c => !carbonKept c)).map (·.changeCO2)).sum
        linarith
      · have h2 : carbonSmall x = false := decide_eq_false (fun h => hz h.1)
        have h0 : x.changeCO2 = 0 := by
          have : |x.changeCO2| = 0 := le_antisymm (not_lt.mp hz) (abs_nonneg _)
          exact abs_eq_zero.mp this
        simp only [List.filter_cons, h1, h2, Bool.not_false, Bool.false_eq_true, if_true,
          if_false, List.map_cons, List.sum_cons, h0, zero_add]
        exact ih

theorem small_add_kept_length_le (l : List CarbonImpactTracker.CarbonClass) :
    (l.filter carbonSmall).length + (l.filter carbonKept).length ≤ l.length := by
  induction l with
  | nil => simp
  | cons x xs ih =>
    by_cases hk : |x.changeCO2| > 1 / 10
    · have h1 : carbonKept x = true := decide_eq_true hk
      have h2 : carbonSmall x = false := by
        simp only [carbonSmall, decide_eq_false_iff_not, not_and, not_le]
        exact fun _ => hk
      simp only [List.filter_cons, h1, h2, Bool.false_eq_true, if_true, if_false,
        List.length_cons]
      omega
    · have h1 : carbonKept x = false := decide_eq_false hk
      cases h2 : carbonSmall x
      · simp only [List.filter_cons, h1, h2, Bool.false_eq_true, if_false, List.length_cons]
        omega
      · simp only [List.filter_cons, h1, h2, Bool.false_eq_true, if_true, if_false,
          List.length_cons]
        omega

/-- C30: for an analysis with both snapshots and the class names present,
`calculateCarbonMetrics` builds one item per class name (in order, with the fields of
`carbonItem`); `carbonByClass` is a reordering of exactly the items with
`|changeCO2| > 0.1`, in non-increasing `|changeCO2|`; `totalSequestration` and
`totalEmissions` are not negative; `netImpact = totalSequestration - totalEmissions` is the
sum of `changeCO2` over the kept items; it equals `totalCarbonChange` when no item has
`0 < |changeCO2| ≤ 0.1`, and in every case differs from it by at most `0.1` times the
number of such items, which are among the dropped ones. -/
theorem carbon_metrics_kept_sorted_net (d : Analysis) (b af : Snapshot) (names : List String)
    (hb : d.before = some b) (ha : d.after = some af) (hn : d.class_names = some names) :
    ∃ m, CarbonImpactTracker.calculateCarbonMetrics (some d) = some m
      ∧ (carbonItemsOf b af names).map (·.className) = names
      ∧ (∀ (j : ℕ) (hj : j < names.length), (carbonItemsOf b af names)[j]?
          = some (CarbonImpactTracker.carbonItem (jsOrObj b.probs []) (jsOrObj af.probs [])
              100 (names.get ⟨j, hj⟩) j))
      ∧ m.carbonByClass.Perm ((carbonItemsOf b af names).filter carbonKept)
      ∧ m.carbonByClass.Pairwise (fun x y => |x.changeCO2| ≥ |y.changeCO2|)
      ∧ 0 ≤ m.totalSequestration
      ∧ 0 ≤ m.totalEmissions
      ∧ m.netImpact = m.totalSequestration - m.totalEmissions
      ∧ m.netImpact = (m.carbonByClass.map (·.changeCO2)).sum
      ∧ ((∀ c ∈ carbonItemsOf b af names, carbonSmall c = false)
          → m.netImpact = m.totalCarbonChange)
      ∧ |m.netImpact - m.totalCarbonChange|
          ≤ 1 / 10 * ((((carbonItemsOf b af names).filter carbonSmall).length : ℕ) : ℚ)
      ∧ ((carbonItemsOf b af names).filter carbonSmall).length + m.carbonByClass.length
          ≤ names.length := by
  set items := carbonItemsOf b af names with hitems
  have hperm := jsSort_perm (fun x y : CarbonImpactTracker.CarbonClass =>
    |y.changeCO2| - |x.changeCO2|) (items.filter carbonKept)
  have hnet : (((items.filter carbonKept).filter (fun c => decide (c.changeCO2 > 0))).map
        (·.changeCO2)).sum
      - |(((items.filter carbonKept).filter (fun c => decide (c.changeCO2 < 0))).map
        (·.changeCO2)).sum| = ((items.filter carbonKept).map (·.changeCO2)).sum :=
    pos_sub_abs_neg_eq_sum (fun c : CarbonImpactTracker.CarbonClass => c.changeCO2)
      (items.filter carbonKept)
  have htotal : ((items.map (·.afterCO2)).sum - (items.map (·.beforeCO2)).sum)
      = ((items.filter carbonKept).map (·.changeCO2)).sum
        + ((items.filter (fun c => !carbonKept c)).map (·.changeCO2)).sum := by
    rw [← sum_eq_filter_add_filter_not (fun c : CarbonImpactTracker.CarbonClass => c.changeCO2)
      carbonKept items, hitems, carbonItemsOf, carbonItemsFrom_sum_change]
  have hbound := abs_sum_dropped_le items
  have hdiff : ((items.filter carbonKept).map (·.changeCO2)).sum
      - ((items.map (·.afterCO2)).sum - (items.map (·.beforeCO2)).sum)
      = -((items.filter (fun c => !carbonKept c)).map (·.changeCO2)).sum := by
    rw [htotal]; ring
  refine ⟨_, carbonMetrics_eq d b af names hb ha hn, ?_, ?_, hperm, ?_, ?_, ?_, rfl, ?_, ?_,
    ?_, ?_⟩
  · exact carbonItemsFrom_map_className _ _ _ names 0
  · intro j hj
    have h := carbonItemsFrom_getElem? (jsOrObj b.probs []) (jsOrObj af.probs []) 100 names
      0 j hj
    rw [zero_add] at h
    exact h
  · exact jsSort_desc_pairwise (fun c : CarbonImpactTracker.CarbonClass => |c.changeCO2|)
      (items.filter carbonKept)
  · exact sum_filter_pos_nonneg (fun c : CarbonImpactTracker.CarbonClass => c.changeCO2) _
  · exact abs_nonneg _
  · show _ - |_| = _
    rw [hnet]
    exact ((hperm.map (·.changeCO2)).sum_eq).symm
  · intro hsmall
    have hnil : items.filter carbonSmall = [] := by
      rw [List.filter_eq_nil_iff]
      intro c hc
      simp [hsmall c hc]
    rw [hnil] at hbound
    simp only [List.length_nil, Nat.cast_zero, mul_zero, abs_nonpos_iff] at hbound
    show _ - |_| = _ - _
    rw [hnet, htotal, hbound, add_zero]
  · show |(_ - |_|) - (_ - _)| ≤ _
    rw [hnet, hdiff, abs_neg]
    exact hbound
  · rw [hperm.length_eq]
    have h := small_add_kept_length_le items
    rw [hitems, carbonItemsOf, carbonItemsFrom_length] at h
    exact h


theorem carbon_metrics_kept_sorted_net_witness :
    ∃ m, CarbonImpactTracker.calculateCarbonMetrics (some tinyChangeScenario) = some m
      ∧ m.carbonByClass.Perm
          ((carbonItemsOf ⟨some [5 / 10, 2 / 10, 3 / 10], some (5 / 10)⟩
            ⟨some [4 / 10, 201 / 1000, 399 / 1000], some (4 / 10)⟩
            ["Forest", "SeaLake", "Industrial"]).filter carbonKept)
      ∧ m.carbonByClass.Pairwise (fun x y => |x.changeCO2| ≥ |y.changeCO2|)
      ∧ 0 ≤ m.totalSequestration
      ∧ 0 ≤ m.totalEmissions
      ∧ m.netImpact = (m.carbonByClass.map (·.changeCO2)).sum
      ∧ |m.netImpact - m.totalCarbonChange|
          ≤ 1 / 10 * ((((carbonItemsOf ⟨some [5 / 10, 2 / 10, 3 / 10], some (5 / 10)⟩
            ⟨some [4 / 10, 201 / 1000, 399 / 1000], some (4 / 10)⟩
            ["Forest", "SeaLake", "Industrial"]).filter carbonSmall).length : ℕ) : ℚ) := by
  obtain ⟨m, hm, -, -, h1, h2, h3, h4, -, h5, -, h6, -⟩ :=
    carbon_metrics_kept_sorted_net tinyChangeScenario
      ⟨some [5 / 10, 2 / 10, 3 / 10], some (5 / 10)⟩
      ⟨some [4 / 10, 201 / 1000, 399 / 1000], some (4 / 10)⟩
      ["Forest", "SeaLake", "Industrial"] rfl rfl rfl
  exact ⟨m, hm, h1, h2, h3, h4, h5, h6⟩

/-- The values of the tracker on the small-change scenario: the SeaLake item, whose
`changeCO2` is `0.05`, is dropped, so `netImpact` is `-191.13` and `totalCarbonChange` is
`-191.08`. -/
theorem tracker_tiny_values :
    (CarbonImpactTracker.calculateCarbonMetrics (some tinyChangeScenario)).map
      (fun m => (m.carbonByClass.map (·.className), m.totalSequestration, m.totalEmissions,
        m.netImpact, m.totalCarbonChange))
      = some (["Forest", "Industrial"], 0, 19113 / 100, -19113 / 100, -19108 / 100) := by
  simp [CarbonImpactTracker.calculateCarbonMetrics, tinyChangeScenario, forEachIdx,
    CarbonImpactTracker.carbonStep, CarbonImpactTracker.carbonItem,
    CarbonImpactTracker.carbonFactors, jsOr, jsOrObj, jsSort, List.filter_cons]
  norm_num [List.filter_cons, abs_of_neg, abs_of_pos]

/-! ## Equal years -/

namespace JsNum

theorem posInf_mul_fin (b : ℚ) (hb : 0 < b) : posInf * fin b = posInf := by
  show mul posInf (fin b) = posInf
  simp [mul, sign, hb]

/-- A quotient by zero, scaled by a positive factor, is not finite. -/
theorem div_zero_mul_not_finite (q b : ℚ) (hb : 0 < b) :
    (fin q / fin 0 * fin b).isFinite = false := by
  rw [fin_div_zero]
  split_ifs
  · rw [posInf_mul_fin b hb]; rfl
  · rw [negInf_mul_fin b hb]; rfl
  · rw [nan_mul]; rfl

theorem div_zero_not_finite (q : ℚ) : (fin q / fin 0).isFinite = false := by
  rw [fin_div_zero]
  split_ifs <;> rfl

end JsNum

theorem mapIdxFromE_trendChange (ap : List ℚ) (span : ℤ) (names : List String)
    (bp : List ℚ) (i : ℕ) :
    ∃ l, TemporalChangeTimeline.mapIdxFromE
        (TemporalChangeTimeline.trendChange ap span (some names)) bp i = Except.ok l
      ∧ l.length = bp.length
      ∧ ∀ c ∈ l, ∃ q : ℚ,
          c.velocity = JsNum.fin q / JsNum.fin ((span : ℤ) : ℚ) * JsNum.fin 100 := by
  induction bp generalizing i with
  | nil => exact ⟨[], rfl, rfl, by simp⟩
  | cons x xs ih =>
    obtain ⟨l, hl, hlen, hv⟩ := ih (i + 1)
    refine ⟨trendItem ap span names x i :: l, ?_, ?_, ?_⟩
    · simp only [TemporalChangeTimeline.mapIdxFromE, TemporalChangeTimeline.trendChange,
        TemporalChangeTimeline.classNameAt, hl, trendItem]
    · simp [hlen]
    · intro c hc
      rcases List.mem_cons.mp hc with rfl | hc
      · exact ⟨_, rfl⟩
      · exact hv c hc

/-- The trend metrics in closed form as far as the velocities go: with both snapshots and
the class names present a result is returned, with one change per before-probability and
every velocity of the form `change / yearsSpan * 100`. -/
theorem trendMetrics_ok (d : Analysis) (b af : Snapshot) (names : List String)
    (hb : d.before = some b) (ha : d.after = some af) (hn : d.class_names = some names) :
    ∃ t, TemporalChangeTimeline.calculateTrendMetrics (some d) = Except.ok (some t)
      ∧ t.changes.length = (jsOrObj b.probs []).length
      ∧ ∀ c ∈ t.changes, ∃ q : ℚ,
          c.velocity = JsNum.fin q / JsNum.fin ((yearsOf d : ℤ) : ℚ) * JsNum.fin 100 := by
  obtain ⟨l, hl, hlen, hv⟩ := mapIdxFromE_trendChange (jsOrObj af.probs [])
    (yearsOf d) names (jsOrObj b.probs []) 0
  rw [yearsOf] at hl
  have h : ∃ t, TemporalChangeTimeline.calculateTrendMetrics (some d) = Except.ok (some t)
      ∧ t.changes = l := by
    simp only [TemporalChangeTimeline.calculateTrendMetrics, hb, ha, hn, hl]
    exact ⟨_, rfl, rfl⟩
  obtain ⟨t, ht, hc⟩ := h
  refine ⟨t, ht, ?_, ?_⟩
  · rw [hc]; exact hlen
  · rw [hc]; exact hv


theorem yearsOf_equal_nonzero (d : Analysis) (y : ℤ) (hby : d.before_year = some y)
    (hay : d.after_year = some y) (hy : y ≠ 0) : yearsOf d = 0 := by
  simp [yearsOf, hby, hay, jsOr, hy]

theorem yearsOf_equal_falsy (d : Analysis) (hay : d.after_year = d.before_year)
    (hby : d.before_year = none ∨ d.before_year = some 0) : yearsOf d = 10 := by
  rcases hby with h | h <;> simp [yearsOf, hay, h, jsOr]

theorem timeline_zero_span (d : Analysis) (m : CarbonImpactTracker.CarbonMetrics) (y : ℤ)
    (hby : d.before_year = some y) (hay : d.after_year = some y) (hy : y ≠ 0) :
    CarbonImpactTracker.generateCarbonTimeline d (some m)
      = [⟨y, JsNum.nan, JsNum.nan, JsNum.nan, JsNum.nan⟩] := by
  have h0 : JsNum.fin 0 / JsNum.fin 0 = JsNum.nan := by
    rw [JsNum.fin_div_zero]; simp
  have hr : List.range 1 = [0] := rfl
  simp only [CarbonImpactTracker.generateCarbonTimeline, hby, hay, jsOr, if_neg hy, sub_self,
    zero_add, Int.toNat_one, hr, List.map_cons, List.map_nil,
    CarbonImpactTracker.timelinePoint, CarbonImpactTracker.timelineProgress, Nat.cast_zero,
    Int.cast_zero, h0, JsNum.mul_nan, JsNum.add_nan, add_zero]

theorem timelinePoint_finite (beforeYear yearsSpan : ℤ)
    (m : CarbonImpactTracker.CarbonMetrics) (i : ℕ) (hspan : yearsSpan ≠ 0) :
    (CarbonImpactTracker.timelinePoint beforeYear yearsSpan m i).carbonFootprint.isFinite = true
      ∧ (CarbonImpactTracker.timelinePoint beforeYear yearsSpan m i).sequestration.isFinite
          = true
      ∧ (CarbonImpactTracker.timelinePoint beforeYear yearsSpan m i).emissions.isFinite = true
      ∧ (CarbonImpactTracker.timelinePoint beforeYear yearsSpan m i).cumulative.isFinite
          = true := by
  have hq : ((yearsSpan : ℤ) : ℚ) ≠ 0 := by exact_mod_cast hspan
  simp only [CarbonImpactTracker.timelinePoint, CarbonImpactTracker.timelineProgress,
    JsNum.fin_div _ _ hq, JsNum.fin_mul, JsNum.fin_add, JsNum.isFinite, and_self]

theorem timeline_nonzero_span (d : Analysis) (m : CarbonImpactTracker.CarbonMetrics)
    (hspan : yearsOf d ≠ 0) :
    (CarbonImpactTracker.generateCarbonTimeline d (some m)).length = (yearsOf d + 1).toNat
      ∧ ∀ p ∈ CarbonImpactTracker.generateCarbonTimeline d (some m),
          p.carbonFootprint.isFinite = true ∧ p.sequestration.isFinite = true
            ∧ p.emissions.isFinite = true ∧ p.cumulative.isFinite = true := by
  constructor
  · simp [CarbonImpactTracker.generateCarbonTimeline, yearsOf]
  · intro p hp
    simp only [CarbonImpactTracker.generateCarbonTimeline, List.mem_map] at hp
    obtain ⟨i, -, rfl⟩ := hp
    exact timelinePoint_finite _ _ m i hspan


/-- C24, the counterexample: with both years equal to 2015 the span is 0 and nothing
guards the divisions: `annualCarbonRate` is `-384 / 0 = -Infinity`, the three velocities
are `-Infinity`, `NaN` and `Infinity`, and the single timeline point, whose progress is
`0 / 0`, holds `NaN` in its four values. -/
theorem zero_span_rates_not_finite :
    (CarbonImpactTracker.calculateCarbonMetrics (some sameYearScenario)).map
        (·.annualCarbonRate) = some JsNum.negInf
      ∧ (TemporalChangeTimeline.calculateTrendMetrics (some sameYearScenario)).map
          (Option.map (fun t => t.changes.map (·.velocity)))
          = Except.ok (some [JsNum.negInf, JsNum.nan, JsNum.posInf])
      ∧ CarbonImpactTracker.generateCarbonTimeline sameYearScenario
          (CarbonImpactTracker.calculateCarbonMetrics (some sameYearScenario))
          = [⟨2015, JsNum.nan, JsNum.nan, JsNum.nan, JsNum.nan⟩] := by
  have hneg : ∀ a : ℚ, a < 0 → JsNum.fin a / JsNum.fin 0 = JsNum.negInf := by
    intro a ha
    rw [JsNum.fin_div_zero, if_neg (not_lt.mpr ha.le), if_pos ha]
  have hpos : ∀ a : ℚ, 0 < a → JsNum.fin a / JsNum.fin 0 = JsNum.posInf := by
    intro a ha
    rw [JsNum.fin_div_zero, if_pos ha]
  have hzero : JsNum.fin 0 / JsNum.fin 0 = JsNum.nan := by
    rw [JsNum.fin_div_zero]; simp
  refine ⟨?_, ?_, ?_⟩
  · rw [carbonMetrics_eq sameYearScenario _ _ _ rfl rfl rfl]
    have hy : yearsOf sameYearScenario = 0 := yearsOf_equal_nonzero _ 2015 rfl rfl (by norm_num)
    simp only [Option.map_some', hy, Int.cast_zero, Option.some.injEq]
    apply hneg
    simp [carbonItemsOf, carbonItemsFrom, CarbonImpactTracker.carbonItem,
      CarbonImpactTracker.carbonFactors, jsOr, jsOrObj]
    norm_num
  · have h1 : JsNum.fin (3 / 10 - 5 / 10) / JsNum.fin 0 = JsNum.negInf :=
      hneg _ (by norm_num)
    have h3 : JsNum.fin (5 / 10 - 3 / 10) / JsNum.fin 0 = JsNum.posInf :=
      hpos _ (by norm_num)
    have e1 : ((3 : ℚ) / 10 = 0) = False := by norm_num
    have e2 : ((2 : ℚ) / 10 = 0) = False := by norm_num
    have e3 : ((5 : ℚ) / 10 = 0) = False := by norm_num
    have e4 : ((2015 : ℤ) = 0) = False := by norm_num
    simp only [TemporalChangeTimeline.calculateTrendMetrics, sameYearScenario, jsOrObj, jsOr,
      TemporalChangeTimeline.mapIdxFromE, TemporalChangeTimeline.trendChange,
      TemporalChangeTimeline.classNameAt, e1, e2, e3, e4, if_false, sub_self, Int.cast_zero,
      List.getElem?_cons_zero, List.getElem?_cons_succ, zero_add, h1, h3, hzero,
      JsNum.negInf_mul_fin 100 (by norm_num), JsNum.posInf_mul_fin 100 (by norm_num),
      JsNum.nan_mul, Except.map, Option.map_some', List.map_cons, List.map_nil]
  · obtain ⟨m, hm⟩ : ∃ m, CarbonImpactTracker.calculateCarbonMetrics (some sameYearScenario)
        = some m := ⟨_, carbonMetrics_eq sameYearScenario _ _ _ rfl rfl rfl⟩
    rw [hm]
    exact timeline_zero_span sameYearScenario m 2015 rfl rfl (by norm_num)


/-- C24, as the code behaves: for an analysis with both snapshots and the class names
present and `after_year` equal to `before_year`, both calculators return a result, and
no guard stands before the divisions by `yearsSpan = (after_year || 2020) -
(before_year || 2010)`.  When the common year is present and not zero the span is 0:
`annualCarbonRate` is `Infinity`, `-Infinity` or `NaN` by the sign of `totalCarbonChange`,
every per-class velocity is not finite, the progress fraction of the only timeline step is
`NaN`, and the timeline is one point at that year holding `NaN` four times.  When the
common year is missing or zero the defaults give a span of 10: `annualCarbonRate` is
`totalCarbonChange / 10`, every velocity is finite and the timeline has 11 points with
finite values. -/
theorem equal_years_rates (d : Analysis) (b af : Snapshot) (names : List String)
    (hb : d.before = some b) (ha : d.after = some af) (hn : d.class_names = some names)
    (hyears : d.after_year = d.before_year) :
    ∃ m t, CarbonImpactTracker.calculateCarbonMetrics (some d) = some m
      ∧ TemporalChangeTimeline.calculateTrendMetrics (some d) = Except.ok (some t)
      ∧ t.changes.length = (jsOrObj b.probs []).length
      ∧ (∀ y : ℤ, d.before_year = some y → y ≠ 0 →
          yearsOf d = 0
          ∧ m.annualCarbonRate
              = (if 0 < m.totalCarbonChange then JsNum.posInf
                else if m.totalCarbonChange < 0 then JsNum.negInf else JsNum.nan)
          ∧ m.annualCarbonRate.isFinite = false
          ∧ (∀ c ∈ t.changes, c.velocity.isFinite = false)
          ∧ CarbonImpactTracker.timelineProgress 0 (yearsOf d) = JsNum.nan
          ∧ CarbonImpactTracker.generateCarbonTimeline d (some m)
              = [⟨y, JsNum.nan, JsNum.nan, JsNum.nan, JsNum.nan⟩])
      ∧ ((d.before_year = none ∨ d.before_year = some 0) →
          yearsOf d = 10
          ∧ m.annualCarbonRate = JsNum.fin (m.totalCarbonChange / 10)
          ∧ (∀ c ∈ t.changes, c.velocity.isFinite = true)
          ∧ (CarbonImpactTracker.generateCarbonTimeline d (some m)).length = 11
          ∧ ∀ p ∈ CarbonImpactTracker.generateCarbonTimeline d (some m),
              p.carbonFootprint.isFinite = true ∧ p.sequestration.isFinite = true
                ∧ p.emissions.isFinite = true ∧ p.cumulative.isFinite = true) := by
  obtain ⟨t, ht, hlen, hv⟩ := trendMetrics_ok d b af names hb ha hn
  refine ⟨_, t, carbonMetrics_eq d b af names hb ha hn, ht, hlen, ?_, ?_⟩
  · intro y hby hy
    have hay : d.after_year = some y := hyears.trans hby
    have h0 : yearsOf d = 0 := yearsOf_equal_nonzero d y hby hay hy
    refine ⟨h0, ?_, ?_, ?_, ?_, timeline_zero_span d _ y hby hay hy⟩
    · simp only [h0, Int.cast_zero]
      exact JsNum.fin_div_zero _
    · simp only [h0, Int.cast_zero]
      exact JsNum.div_zero_not_finite _
    · intro c hc
      obtain ⟨q, hq⟩ := hv c hc
      rw [hq, h0, Int.cast_zero]
      exact JsNum.div_zero_mul_not_finite q 100 (by norm_num)
    · rw [h0]
      simp only [CarbonImpactTracker.timelineProgress, Nat.cast_zero, Int.cast_zero]
      rw [JsNum.fin_div_zero]
      simp
  · intro hby
    have h10 : yearsOf d = 10 := yearsOf_equal_falsy d hyears hby
    have hne : yearsOf d ≠ 0 := by rw [h10]; norm_num
    have hq10 : (((10 : ℤ) : ℤ) : ℚ) ≠ 0 := by norm_num
    obtain ⟨htl, htp⟩ := timeline_nonzero_span d _ hne
    refine ⟨h10, ?_, ?_, ?_, htp⟩
    · simp only [h10]
      rw [JsNum.fin_div _ _ hq10]
      norm_num
    · intro c hc
      obtain ⟨q, hq⟩ := hv c hc
      rw [hq, h10, JsNum.fin_div _ _ hq10, JsNum.fin_mul]
      rfl
    · rw [htl, h10]
      rfl

theorem equal_years_rates_witness :
    (∃ m t, CarbonImpactTracker.calculateCarbonMetrics (some sameYearScenario) = some m
      ∧ TemporalChangeTimeline.calculateTrendMetrics (some sameYearScenario)
          = Except.ok (some t)
      ∧ t.changes.length = 3
      ∧ m.annualCarbonRate.isFinite = false
      ∧ (∀ c ∈ t.changes, c.velocity.isFinite = false)
      ∧ CarbonImpactTracker.generateCarbonTimeline sameYearScenario (some m)
          = [⟨2015, JsNum.nan, JsNum.nan, JsNum.nan, JsNum.nan⟩])
    ∧ (∃ m t, CarbonImpactTracker.calculateCarbonMetrics (some noYearsScenario) = some m
      ∧ TemporalChangeTimeline.calculateTrendMetrics (some noYearsScenario)
          = Except.ok (some t)
      ∧ t.changes.length = 3
      ∧ m.annualCarbonRate = JsNum.fin (m.totalCarbonChange / 10)
      ∧ (∀ c ∈ t.changes, c.velocity.isFinite = true)
      ∧ (CarbonImpactTracker.generateCarbonTimeline noYearsScenario (some m)).length
          = 11) := by
  constructor
  · obtain ⟨m, t, hm, ht, hlen, hzero, -⟩ :=
      equal_years_rates sameYearScenario
        ⟨some [5 / 10, 2 / 10, 3 / 10], some (5 / 10)⟩
        ⟨some [3 / 10, 2 / 10, 5 / 10], some (5 / 10)⟩ ["Forest", "River", "Industrial"]
        rfl rfl rfl rfl
    obtain ⟨-, -, h1, h2, -, h3⟩ := hzero 2015 rfl (by norm_num)
    exact ⟨m, t, hm, ht, hlen, h1, h2, h3⟩
  · obtain ⟨m, t, hm, ht, hlen, -, hten⟩ :=
      equal_years_rates noYearsScenario
        ⟨some [5 / 10, 2 / 10, 3 / 10], some (5 / 10)⟩
        ⟨some [3 / 10, 2 / 10, 5 / 10], some (5 / 10)⟩ ["Forest", "River", "Industrial"]
        rfl rfl rfl rfl
    obtain ⟨-, h1, h2, h3, -⟩ := hten (Or.inl rfl)
    exact ⟨m, t, hm, ht, hlen, h1, h2, h3⟩


/-! ## All-zero probability vectors -/

/-- With all-zero probability vectors every returned number is finite: the guard `p > 0`
keeps `Math.log2(0)` out of the entropy, and `Math.max` of a non-empty vector is finite. -/
theorem performance_all_zero_finite (log2 : ℚ → ℚ) :
    calculatePerformanceMetrics log2 (some allZeroScenario) = some
      { avgConfidence := JsNum.fin 50
        avgCertainty := JsNum.fin 0
        consistency := JsNum.fin 100
        entropy := JsNum.fin 0
        qualityScore := JsNum.fin 40
        beforeConf := JsNum.fin 50
        afterConf := JsNum.fin 50
        beforeCertainty := JsNum.fin 0
        afterCertainty := JsNum.fin 0 } := by
  rw [performance_eq log2 allZeroScenario ⟨some [0, 0], some (5 / 10)⟩
    ⟨some [0, 0], some (5 / 10)⟩ 0 0 rfl rfl (by simp [jsOrObj]) (by simp [jsOrObj])
    (by simp [jsOrObj]) (by simp [jsOrObj])]
  simp [jsOr, jsOrObj, calculateEntropy]
  norm_num


/-! ## Rounding to double precision -/

namespace Binary64

theorem roundHalfEven_eq_of_near (x : ℚ) (m : ℤ) (h : |x - m| < 1 / 2) :
    roundHalfEven x = m := by
  obtain ⟨h1, h2⟩ := abs_lt.mp h
  rcases le_or_lt (m : ℚ) x with hx | hx
  · have hf : ⌊x⌋ = m := Int.floor_eq_iff.mpr ⟨hx, by linarith⟩
    rw [roundHalfEven, hf, if_pos h2]
  · have hf : ⌊x⌋ = m - 1 :=
      Int.floor_eq_iff.mpr ⟨by push_cast; linarith, by push_cast; linarith⟩
    have hr1 : ¬ x - ((m - 1 : ℤ) : ℚ) < 1 / 2 := by push_cast; linarith
    have hr2 : 1 / 2 < x - ((m - 1 : ℤ) : ℚ) := by push_cast; linarith
    rw [roundHalfEven, hf, if_neg hr1, if_pos hr2]
    ring

theorem roundHalfEven_eq_of_tie (x : ℚ) (m : ℤ) (h : |x - m| = 1 / 2) (hm : m % 2 = 0) :
    roundHalfEven x = m := by
  rcases le_or_lt (m : ℚ) x with hx | hx
  · have hd : x - m = 1 / 2 := by rw [← h, abs_of_nonneg (by linarith)]
    have hf : ⌊x⌋ = m := Int.floor_eq_iff.mpr ⟨hx, by linarith⟩
    have hr1 : ¬ x - (m : ℚ) < 1 / 2 := by linarith
    have hr2 : ¬ 1 / 2 < x - (m : ℚ) := by linarith
    rw [roundHalfEven, hf, if_neg hr1, if_neg hr2, if_pos hm]
  · have hd : (m : ℚ) - x = 1 / 2 := by
      rw [← h, abs_of_neg (by linarith)]; ring
    have hf : ⌊x⌋ = m - 1 :=
      Int.floor_eq_iff.mpr ⟨by push_cast; linarith, by push_cast; linarith⟩
    have hr1 : ¬ x - ((m - 1 : ℤ) : ℚ) < 1 / 2 := by push_cast; linarith
    have hr2 : ¬ 1 / 2 < x - ((m - 1 : ℤ) : ℚ) := by push_cast; linarith
    have hodd : ¬ (m - 1) % 2 = 0 := by omega
    rw [roundHalfEven, hf, if_neg hr1, if_neg hr2, if_neg hodd]
    ring

theorem log_eq_of_bounds (x : ℚ) (k : ℤ) (hlo : (2 : ℚ) ^ k ≤ |x|)
    (hhi : |x| < (2 : ℚ) ^ (k + 1)) : Int.log 2 |x| = k := by
  have hpos : 0 < |x| := lt_of_lt_of_le (by positivity) hlo
  have h1 : k ≤ Int.log 2 |x| := by
    rw [← Int.zpow_le_iff_le_log (by norm_num) hpos]
    simpa using hlo
  have h2 : Int.log 2 |x| < k + 1 := by
    rw [← Int.lt_zpow_iff_log_lt (by norm_num) hpos]
    simpa using hhi
  omega

theorem maxValue_ge : (2 : ℚ) ^ (1023 : ℤ) ≤ maxValue := by
  rw [maxValue]
  norm_num

/-- The value of `round`, for a number in the normal range, from the rounded mantissa. -/
theorem round_eq_of_mantissa (x : ℚ) (k m : ℤ) (hlo : (2 : ℚ) ^ k ≤ |x|)
    (hhi : |x| < (2 : ℚ) ^ (k + 1)) (hk : -1022 ≤ k) (hk' : k ≤ 1022)
    (hr : roundHalfEven (x / 2 ^ (k - 52)) = m) (hclose : |x / 2 ^ (k - 52) - m| ≤ 1 / 2) :
    round x = JsNum.fin ((m : ℚ) * 2 ^ (k - 52)) := by
  have hpos : 0 < |x| := lt_of_lt_of_le (by positivity) hlo
  have hx : x ≠ 0 := abs_pos.mp hpos
  have he : ulpExponent x = k - 52 := by
    rw [ulpExponent, log_eq_of_bounds x k hlo hhi]
    exact max_eq_left (by omega)
  have hp : (0 : ℚ) < 2 ^ (k - 52) := by positivity
  -- the magnitude of the result is at most `2 ^ (k + 1)`
  have hm : |(m : ℚ)| ≤ 2 ^ (53 : ℤ) := by
    have hq : |x / 2 ^ (k - 52)| < 2 ^ (53 : ℤ) := by
      rw [abs_div, abs_of_pos hp, div_lt_iff₀ hp, ← zpow_add₀ (by norm_num : (2 : ℚ) ≠ 0)]
      have : (53 : ℤ) + (k - 52) = k + 1 := by ring
      rw [this]
      exact hhi
    have h3 : |(m : ℚ)| < 2 ^ (53 : ℤ) + 1 := by
      have := abs_sub_abs_le_abs_sub (m : ℚ) (x / 2 ^ (k - 52))
      rw [abs_sub_comm] at this
      linarith
    have h4 : |m| < 2 ^ 53 + 1 := by
      have h5 : ((|m| : ℤ) : ℚ) < ((2 ^ 53 + 1 : ℤ) : ℚ) := by
        push_cast
        norm_num at h3 ⊢
        exact h3
      exact_mod_cast h5
    have h6 : |m| ≤ 2 ^ 53 := by omega
    have h7 : ((|m| : ℤ) : ℚ) ≤ ((2 ^ 53 : ℤ) : ℚ) := by exact_mod_cast h6
    push_cast at h7
    norm_num at h7 ⊢
    exact h7
  have hy : |(m : ℚ) * 2 ^ (k - 52)| ≤ maxValue := by
    rw [abs_mul, abs_of_pos hp]
    calc |(m : ℚ)| * 2 ^ (k - 52) ≤ 2 ^ (53 : ℤ) * 2 ^ (k - 52) :=
          mul_le_mul_of_nonneg_right hm hp.le
      _ = 2 ^ (k + 1) := by
          rw [← zpow_add₀ (by norm_num : (2 : ℚ) ≠ 0)]
          congr 1
          ring
      _ ≤ 2 ^ (1023 : ℤ) := zpow_le_zpow_right₀ (by norm_num) (by omega)
      _ ≤ maxValue := maxValue_ge
  obtain ⟨hy1, hy2⟩ := abs_le.mp hy
  simp only [round, if_neg hx, he, hr, if_neg (not_lt.mpr hy2), if_neg (not_lt.mpr hy1)]

/-- The value of `round`, for a number in the normal range: the multiple of the last-place
unit that is nearer than half a unit. -/
theorem round_eq (x : ℚ) (k m : ℤ) (hlo : (2 : ℚ) ^ k ≤ |x|) (hhi : |x| < (2 : ℚ) ^ (k + 1))
    (hk : -1022 ≤ k) (hk' : k ≤ 1022) (hnear : |x / 2 ^ (k - 52) - m| < 1 / 2) :
    round x = JsNum.fin ((m : ℚ) * 2 ^ (k - 52)) :=
  round_eq_of_mantissa x k m hlo hhi hk hk' (roundHalfEven_eq_of_near _ m hnear) hnear.le

/-- The value of `round` half-way between two doubles: the one with the even mantissa. -/
theorem round_eq_of_tie (x : ℚ) (k m : ℤ) (hlo : (2 : ℚ) ^ k ≤ |x|)
    (hhi : |x| < (2 : ℚ) ^ (k + 1)) (hk : -1022 ≤ k) (hk' : k ≤ 1022)
    (htie : |x / 2 ^ (k - 52) - m| = 1 / 2) (hm : m % 2 = 0) :
    round x = JsNum.fin ((m : ℚ) * 2 ^ (k - 52)) :=
  round_eq_of_mantissa x k m hlo hhi hk hk' (roundHalfEven_eq_of_tie _ m htie hm) htie.le

theorem round_zero : round 0 = JsNum.fin 0 := by
  simp [round]

theorem abs_bounds_of_signed (x lo hi : ℚ)
    (h : (lo ≤ x ∧ x < hi) ∨ (lo ≤ -x ∧ -x < hi)) (hlo : 0 < lo) : lo ≤ |x| ∧ |x| < hi := by
  rcases h with ⟨h1, h2⟩ | ⟨h1, h2⟩
  · rw [abs_of_pos (lt_of_lt_of_le hlo h1)]; exact ⟨h1, h2⟩
  · rw [abs_of_neg (by linarith)]; exact ⟨h1, h2⟩

/-- The rule `round_eq` with its side conditions free of absolute values, for evaluation
on numerals. -/
theorem round_of (x y : ℚ) (k m : ℤ)
    (h : (((2 : ℚ) ^ k ≤ x ∧ x < (2 : ℚ) ^ (k + 1)) ∨ ((2 : ℚ) ^ k ≤ -x ∧ -x < (2 : ℚ) ^ (k + 1)))
      ∧ -1022 ≤ k ∧ k ≤ 1022
      ∧ (-(1 / 2) < x / 2 ^ (k - 52) - m ∧ x / 2 ^ (k - 52) - m < 1 / 2)
      ∧ (m : ℚ) * 2 ^ (k - 52) = y) :
    round x = JsNum.fin y := by
  obtain ⟨h1, h3, h4, h5, h6⟩ := h
  obtain ⟨hlo, hhi⟩ := abs_bounds_of_signed x _ _ h1 (by positivity)
  rw [round_eq x k m hlo hhi h3 h4 (abs_lt.mpr h5), h6]

/-- The rule `round_eq_of_tie` with its side conditions free of absolute values. -/
theorem round_of_tie (x y : ℚ) (k m : ℤ)
    (h : (((2 : ℚ) ^ k ≤ x ∧ x < (2 : ℚ) ^ (k + 1)) ∨ ((2 : ℚ) ^ k ≤ -x ∧ -x < (2 : ℚ) ^ (k + 1)))
      ∧ -1022 ≤ k ∧ k ≤ 1022
      ∧ (x / 2 ^ (k - 52) - m = 1 / 2 ∨ x / 2 ^ (k - 52) - m = -(1 / 2))
      ∧ m % 2 = 0 ∧ (m : ℚ) * 2 ^ (k - 52) = y) :
    round x = JsNum.fin y := by
  obtain ⟨h1, h3, h4, h5, h6, h7⟩ := h
  obtain ⟨hlo, hhi⟩ := abs_bounds_of_signed x _ _ h1 (by positivity)
  have htie : |x / 2 ^ (k - 52) - m| = 1 / 2 := by
    rcases h5 with h5 | h5
    · rw [h5]; norm_num
    · rw [h5, abs_neg]; norm_num
  rw [round_eq_of_tie x k m hlo hhi h3 h4 htie h6, h7]

theorem round_of_zero (x : ℚ) (h : x = 0) : round x = JsNum.fin 0 := by
  rw [h, round_zero]

/-- The carbon totals of the estimator on the three-class scenario, in doubles:
`26400.000000000004`, `-12000` and `-38400`. -/
theorem estimator_mixed_doubles :
    estimateCarbonAndOxygen (some mixedScenario) EstimatorOptions.empty = some
      { totalCarbonBefore := JsNum.fin (7256776743321601 / 274877906944)
        totalCarbonAfter := JsNum.fin (-12000)
        totalCarbonChange := JsNum.fin (-38400) } := by
  have h0 : literal 0 = JsNum.fin 0 :=
    round_of_zero _ (by norm_num)
  have h1 : literal 100 = JsNum.fin 100 :=
    round_of _ _ (6) (7036874417766400) (by norm_num)
  have h2 : literal (5 / 10) = JsNum.fin (1 / 2) :=
    round_of _ _ (-1) (4503599627370496) (by norm_num)
  have h3 : literal (3 / 10) = JsNum.fin (5404319552844595 / 18014398509481984) :=
    round_of _ _ (-2) (5404319552844595) (by norm_num)
  have h4 : mul (JsNum.fin (1 / 2)) (JsNum.fin 100) = JsNum.fin 50 :=
    round_of _ _ (5) (7036874417766400) (by norm_num)
  have h5 : mul (JsNum.fin (5404319552844595 / 18014398509481984)) (JsNum.fin 100) = JsNum.fin 30 :=
    round_of _ _ (4) (8444249301319680) (by norm_num)
  have h6 : mul (JsNum.fin 50) (JsNum.fin 100) = JsNum.fin 5000 :=
    round_of _ _ (12) (5497558138880000) (by norm_num)
  have h7 : mul (JsNum.fin 30) (JsNum.fin 100) = JsNum.fin 3000 :=
    round_of _ _ (11) (6597069766656000) (by norm_num)
  have h8 : literal (105 / 10) = JsNum.fin (21 / 2) :=
    round_of _ _ (3) (5910974510923776) (by norm_num)
  have h9 : mul (JsNum.fin 5000) (JsNum.fin (21 / 2)) = JsNum.fin 52500 :=
    round_of _ _ (15) (7215545057280000) (by norm_num)
  have h10 : mul (JsNum.fin 3000) (JsNum.fin (21 / 2)) = JsNum.fin 31500 :=
    round_of _ _ (14) (8658654068736000) (by norm_num)
  have h11 : add (JsNum.fin 0) (JsNum.fin 52500) = JsNum.fin 52500 :=
    round_of _ _ (15) (7215545057280000) (by norm_num)
  have h12 : add (JsNum.fin 0) (JsNum.fin 31500) = JsNum.fin 31500 :=
    round_of _ _ (14) (8658654068736000) (by norm_num)
  have h13 : literal (2 / 10) = JsNum.fin (3602879701896397 / 18014398509481984) :=
    round_of _ _ (-3) (7205759403792794) (by norm_num)
  have h14 : mul (JsNum.fin (3602879701896397 / 18014398509481984)) (JsNum.fin 100) = JsNum.fin 20 :=
    round_of _ _ (4) (5629499534213120) (by norm_num)
  have h15 : mul (JsNum.fin 20) (JsNum.fin 100) = JsNum.fin 2000 :=
    round_of _ _ (10) (8796093022208000) (by norm_num)
  have h16 : mul (JsNum.fin 2000) (JsNum.fin 0) = JsNum.fin 0 :=
    round_of_zero _ (by norm_num)
  have h17 : add (JsNum.fin 52500) (JsNum.fin 0) = JsNum.fin 52500 :=
    round_of _ _ (15) (7215545057280000) (by norm_num)
  have h18 : add (JsNum.fin 31500) (JsNum.fin 0) = JsNum.fin 31500 :=
    round_of _ _ (14) (8658654068736000) (by norm_num)
  have h19 : literal (-87 / 10) = JsNum.fin (-2448832297382707 / 281474976710656) :=
    round_of _ _ (3) (-4897664594765414) (by norm_num)
  have h20 : mul (JsNum.fin 3000) (JsNum.fin (-2448832297382707 / 281474976710656)) = JsNum.fin (-7174313371238399 / 274877906944) :=
    round_of _ _ (14) (-7174313371238399) (by norm_num)
  have h21 : mul (JsNum.fin 5000) (JsNum.fin (-2448832297382707 / 281474976710656)) = JsNum.fin (-43500) :=
    round_of _ _ (15) (-5978594476032000) (by norm_num)
  have h22 : add (JsNum.fin 52500) (JsNum.fin (-7174313371238399 / 274877906944)) = JsNum.fin (7256776743321601 / 274877906944) :=
    round_of _ _ (14) (7256776743321601) (by norm_num)
  have h23 : add (JsNum.fin 31500) (JsNum.fin (-43500)) = JsNum.fin (-12000) :=
    round_of _ _ (13) (-6597069766656000) (by norm_num)
  have h24 : sub (JsNum.fin (-12000)) (JsNum.fin (7256776743321601 / 274877906944)) = JsNum.fin (-38400) :=
    round_of_tie _ _ (15) (-5277655813324800) (by norm_num)
  have e0 : ((100 : ℚ) = 0) = False := eq_false (by norm_num)
  have e1 : ((1 / 2 : ℚ) = 0) = False := eq_false (by norm_num)
  have e2 : ((5404319552844595 / 18014398509481984 : ℚ) = 0) = False := eq_false (by norm_num)
  have e3 : ((21 / 2 : ℚ) = 0) = False := eq_false (by norm_num)
  have e4 : ((3602879701896397 / 18014398509481984 : ℚ) = 0) = False := eq_false (by norm_num)
  have e5 : ((-2448832297382707 / 281474976710656 : ℚ) = 0) = False := eq_false (by norm_num)
  have hF : DEFAULT_CARBON_FACTORS "Forest" = some (105 / 10) := rfl
  have hR : DEFAULT_CARBON_FACTORS "River" = some 0 := rfl
  have hI : DEFAULT_CARBON_FACTORS "Industrial" = some (-87 / 10) := rfl
  simp only [estimateCarbonAndOxygen, mixedScenario, EstimatorOptions.empty, jsOrObj, probsOf,
    forEachIdx, classStep, km2ToHectares, orElse, hF, hR, hI, Option.map_some',
    Option.map_none', List.getElem?_cons_zero, List.getElem?_cons_succ, zero_add, if_true,
    if_false,
    h0, h1, h2, h3, h4, h5, h6, h7, h8, h9, h10, h11, h12, h13, h14, h15, h16, h17, h18, h19,
    h20, h21, h22, h23, h24, e0, e1, e2, e3, e4, e5]

/-- The carbon totals of the tracker on the three-class scenario, in doubles: `264`,
`-119.99999999999994` and `-383.99999999999994`. -/
theorem tracker_mixed_doubles :
    calculateCarbonMetrics (some mixedScenario) = some
      { beforeCarbon := JsNum.fin 264
        afterCarbon := JsNum.fin (-2111062325329919 / 17592186044416)
        totalCarbonChange := JsNum.fin (-6755399441055743 / 17592186044416) } := by
  have h0 : literal 0 = JsNum.fin 0 :=
    round_of_zero _ (by norm_num)
  have h1 : literal 100 = JsNum.fin 100 :=
    round_of _ _ (6) (7036874417766400) (by norm_num)
  have h2 : literal (5 / 10) = JsNum.fin (1 / 2) :=
    round_of _ _ (-1) (4503599627370496) (by norm_num)
  have h3 : mul (JsNum.fin (1 / 2)) (JsNum.fin 100) = JsNum.fin 50 :=
    round_of _ _ (5) (7036874417766400) (by norm_num)
  have h4 : literal (3 / 10) = JsNum.fin (5404319552844595 / 18014398509481984) :=
    round_of _ _ (-2) (5404319552844595) (by norm_num)
  have h5 : mul (JsNum.fin (5404319552844595 / 18014398509481984)) (JsNum.fin 100) = JsNum.fin 30 :=
    round_of _ _ (4) (8444249301319680) (by norm_num)
  have h6 : literal (105 / 10) = JsNum.fin (21 / 2) :=
    round_of _ _ (3) (5910974510923776) (by norm_num)
  have h7 : mul (JsNum.fin 50) (JsNum.fin (21 / 2)) = JsNum.fin 525 :=
    round_of _ _ (9) (4617948836659200) (by norm_num)
  have h8 : mul (JsNum.fin 30) (JsNum.fin (21 / 2)) = JsNum.fin 315 :=
    round_of _ _ (8) (5541538603991040) (by norm_num)
  have h9 : add (JsNum.fin 0) (JsNum.fin 525) = JsNum.fin 525 :=
    round_of _ _ (9) (4617948836659200) (by norm_num)
  have h10 : add (JsNum.fin 0) (JsNum.fin 315) = JsNum.fin 315 :=
    round_of _ _ (8) (5541538603991040) (by norm_num)
  have h11 : literal (2 / 10) = JsNum.fin (3602879701896397 / 18014398509481984) :=
    round_of _ _ (-3) (7205759403792794) (by norm_num)
  have h12 : mul (JsNum.fin (3602879701896397 / 18014398509481984)) (JsNum.fin 100) = JsNum.fin 20 :=
    round_of _ _ (4) (5629499534213120) (by norm_num)
  have h13 : mul (JsNum.fin 20) (JsNum.fin 0) = JsNum.fin 0 :=
    round_of_zero _ (by norm_num)
  have h14 : add (JsNum.fin 525) (JsNum.fin 0) = JsNum.fin 525 :=
    round_of _ _ (9) (4617948836659200) (by norm_num)
  have h15 : add (JsNum.fin 315) (JsNum.fin 0) = JsNum.fin 315 :=
    round_of _ _ (8) (5541538603991040) (by norm_num)
  have h16 : literal (-87 / 10) = JsNum.fin (-2448832297382707 / 281474976710656) :=
    round_of _ _ (3) (-4897664594765414) (by norm_num)
  have h17 : mul (JsNum.fin 30) (JsNum.fin (-2448832297382707 / 281474976710656)) = JsNum.fin (-261) :=
    round_of _ _ (8) (-4591560557592576) (by norm_num)
  have h18 : mul (JsNum.fin 50) (JsNum.fin (-2448832297382707 / 281474976710656)) = JsNum.fin (-7652600929320959 / 17592186044416) :=
    round_of _ _ (8) (-7652600929320959) (by norm_num)
  have h19 : add (JsNum.fin 525) (JsNum.fin (-261)) = JsNum.fin 264 :=
    round_of _ _ (8) (4644337115725824) (by norm_num)
  have h20 : add (JsNum.fin 315) (JsNum.fin (-7652600929320959 / 17592186044416)) = JsNum.fin (-2111062325329919 / 17592186044416) :=
    round_of _ _ (6) (-8444249301319676) (by norm_num)
  have h21 : sub (JsNum.fin (-2111062325329919 / 17592186044416)) (JsNum.fin 264) = JsNum.fin (-6755399441055743 / 17592186044416) :=
    round_of _ _ (8) (-6755399441055743) (by norm_num)
  have e0 : ((100 : ℚ) = 0) = False := eq_false (by norm_num)
  have e1 : ((1 / 2 : ℚ) = 0) = False := eq_false (by norm_num)
  have e2 : ((5404319552844595 / 18014398509481984 : ℚ) = 0) = False := eq_false (by norm_num)
  have e3 : ((21 / 2 : ℚ) = 0) = False := eq_false (by norm_num)
  have e4 : ((3602879701896397 / 18014398509481984 : ℚ) = 0) = False := eq_false (by norm_num)
  have e5 : ((-2448832297382707 / 281474976710656 : ℚ) = 0) = False := eq_false (by norm_num)
  have hF : CarbonImpactTracker.carbonFactors "Forest" = some (105 / 10) := rfl
  have hR : CarbonImpactTracker.carbonFactors "River" = some 0 := rfl
  have hI : CarbonImpactTracker.carbonFactors "Industrial" = some (-87 / 10) := rfl
  simp only [calculateCarbonMetrics, mixedScenario, jsOrObj,
    forEachIdx, carbonStep, orElse, hF, hR, hI, Option.map_some',
    Option.map_none', List.getElem?_cons_zero, List.getElem?_cons_succ, zero_add, if_true,
    if_false,
    h0, h1, h2, h3, h4, h5, h6, h7, h8, h9, h10, h11, h12, h13, h14, h15, h16, h17, h18, h19,
    h20, h21, e0, e1, e2, e3, e4, e5]

end Binary64

/-- C27 as stated fails on the numbers the program computes.  On the three-class scenario
(class names, both snapshots present, default carbon table, default area 100) the
estimator returns, in IEEE 754 doubles, `26400.000000000004`, `-12000` and `-38400`, and
the tracker `264`, `-119.99999999999994` and `-383.99999999999994`: no estimator total is
100 times the tracker's value, neither with the product taken exactly nor with the product
rounded to a double. -/
theorem estimator_not_hundred_times_tracker_doubles :
    Binary64.estimateCarbonAndOxygen (some mixedScenario) EstimatorOptions.empty = some
        { totalCarbonBefore := JsNum.fin (7256776743321601 / 274877906944)
          totalCarbonAfter := JsNum.fin (-12000)
          totalCarbonChange := JsNum.fin (-38400) }
      ∧ Binary64.calculateCarbonMetrics (some mixedScenario) = some
        { beforeCarbon := JsNum.fin 264
          afterCarbon := JsNum.fin (-2111062325329919 / 17592186044416)
          totalCarbonChange := JsNum.fin (-6755399441055743 / 17592186044416) }
      ∧ (7256776743321601 / 274877906944 : ℚ) ≠ 100 * 264
      ∧ (-12000 : ℚ) ≠ 100 * (-2111062325329919 / 17592186044416)
      ∧ (-38400 : ℚ) ≠ 100 * (-6755399441055743 / 17592186044416)
      ∧ JsNum.fin (7256776743321601 / 274877906944)
          ≠ Binary64.mul (Binary64.literal 100) (JsNum.fin 264)
      ∧ JsNum.fin (-12000)
          ≠ Binary64.mul (Binary64.literal 100)
              (JsNum.fin (-2111062325329919 / 17592186044416))
      ∧ JsNum.fin (-38400)
          ≠ Binary64.mul (Binary64.literal 100)
              (JsNum.fin (-6755399441055743 / 17592186044416)) := by
  have h100 : Binary64.literal 100 = JsNum.fin 100 :=
    Binary64.round_of _ _ 6 7036874417766400 (by norm_num)
  have p1 : Binary64.mul (JsNum.fin 100) (JsNum.fin 264) = JsNum.fin 26400 :=
    Binary64.round_of _ _ 14 7256776743321600 (by norm_num)
  have p2 : Binary64.mul (JsNum.fin 100) (JsNum.fin (-2111062325329919 / 17592186044416))
      = JsNum.fin (-6597069766655997 / 549755813888) :=
    Binary64.round_of _ _ 13 (-6597069766655997) (by norm_num)
  have p3 : Binary64.mul (JsNum.fin 100) (JsNum.fin (-6755399441055743 / 17592186044416))
      = JsNum.fin (-5277655813324799 / 137438953472) :=
    Binary64.round_of _ _ 15 (-5277655813324799) (by norm_num)
  refine ⟨Binary64.estimator_mixed_doubles, Binary64.tracker_mixed_doubles, by norm_num,
    by norm_num, by norm_num, ?_, ?_, ?_⟩
  · rw [h100, p1, Ne, JsNum.fin.injEq]; norm_num
  · rw [h100, p2, Ne, JsNum.fin.injEq]; norm_num
  · rw [h100, p3, Ne, JsNum.fin.injEq]; norm_num

end MLMicro
